import Mathlib

/-!
Verification of the suite-versioning and artifact-lineage subsystem of the
agentic-tester repository (src/app/agent.py, src/app/results_writer.py).

The row store (Supabase tables `requirements`, `test_cases`, `test_designs`,
`viewpoints`, `test_suites`, `team_events`) is modelled as in-memory lists of
rows; `insert` appends a row with a fresh numeric id, `update ... eq ...`
maps over the rows, `select ... eq ... limit 1` takes the first match in
table order.  Equality filters on nullable columns are modelled as plain
equality of `Option` values.  JSON content columns are modelled by the
inductive type `Json` below; Python `str()` of a parsed JSON value is
modelled by `Json.pyStr` (exact for scalars, an approximation for composite
values, which the verified paths never stringify).  The opaque LLM call is
modelled by its parsed result: an `Option Json` (with `none` standing for
output that `json.loads` rejects).  Bulk fan-out run through a bounded
thread pool is modelled sequentially in submission order.
-/


/-- JSON values, as stored in `content`/`state` columns and produced by
`json.loads`.  Objects are ordered key-value lists (Python dicts preserve
insertion order). -/
inductive Json where
  | null : Json
  | jbool : Bool → Json
  | jnum : Int → Json
  | jstr : String → Json
  | jarr : List Json → Json
  | jobj : List (String × Json) → Json
deriving Repr

mutual

/-- Decidable equality for `Json` (structural). -/
def Json.beq : Json → Json → Bool
  | .null, .null => true
  | .jbool a, .jbool b => a == b
  | .jnum a, .jnum b => a == b
  | .jstr a, .jstr b => a == b
  | .jarr a, .jarr b => Json.beqList a b
  | .jobj a, .jobj b => Json.beqKVs a b
  | _, _ => false

def Json.beqList : List Json → List Json → Bool
  | [], [] => true
  | a :: as, b :: bs => Json.beq a b && Json.beqList as bs
  | _, _ => false

def Json.beqKVs : List (String × Json) → List (String × Json) → Bool
  | [], [] => true
  | (ka, va) :: as, (kb, vb) :: bs => ka == kb && Json.beq va vb && Json.beqKVs as bs
  | _, _ => false

end

mutual

theorem Json.beq_refl : ∀ a : Json, Json.beq a a = true
  | .null => rfl
  | .jbool a => by simp [Json.beq]
  | .jnum a => by simp [Json.beq]
  | .jstr a => by simp [Json.beq]
  | .jarr a => by simp [Json.beq, Json.beqList_refl a]
  | .jobj a => by simp [Json.beq, Json.beqKVs_refl a]

theorem Json.beqList_refl : ∀ a : List Json, Json.beqList a a = true
  | [] => rfl
  | a :: as => by simp [Json.beqList, Json.beq_refl a, Json.beqList_refl as]

theorem Json.beqKVs_refl : ∀ a : List (String × Json), Json.beqKVs a a = true
  | [] => rfl
  | (k, v) :: as => by simp [Json.beqKVs, Json.beq_refl v, Json.beqKVs_refl as]

end

mutual

theorem Json.eq_of_beq : ∀ {a b : Json}, Json.beq a b = true → a = b
  | .null, .null, _ => rfl
  | .jbool a, .jbool b, h => by simp [Json.beq] at h; simp [h]
  | .jnum a, .jnum b, h => by simp [Json.beq] at h; simp [h]
  | .jstr a, .jstr b, h => by simp [Json.beq] at h; simp [h]
  | .jarr a, .jarr b, h => by
      simp only [Json.beq] at h
      simp [Json.eqList_of_beq h]
  | .jobj a, .jobj b, h => by
      simp only [Json.beq] at h
      simp [Json.eqKVs_of_beq h]
  | .null, .jbool _, h => by simp [Json.beq] at h
  | .null, .jnum _, h => by simp [Json.beq] at h
  | .null, .jstr _, h => by simp [Json.beq] at h
  | .null, .jarr _, h => by simp [Json.beq] at h
  | .null, .jobj _, h => by simp [Json.beq] at h
  | .jbool _, .null, h => by simp [Json.beq] at h
  | .jbool _, .jnum _, h => by simp [Json.beq] at h
  | .jbool _, .jstr _, h => by simp [Json.beq] at h
  | .jbool _, .jarr _, h => by simp [Json.beq] at h
  | .jbool _, .jobj _, h => by simp [Json.beq] at h
  | .jnum _, .null, h => by simp [Json.beq] at h
  | .jnum _, .jbool _, h => by simp [Json.beq] at h
  | .jnum _, .jstr _, h => by simp [Json.beq] at h
  | .jnum _, .jarr _, h => by simp [Json.beq] at h
  | .jnum _, .jobj _, h => by simp [Json.beq] at h
  | .jstr _, .null, h => by simp [Json.beq] at h
  | .jstr _, .jbool _, h => by simp [Json.beq] at h
  | .jstr _, .jnum _, h => by simp [Json.beq] at h
  | .jstr _, .jarr _, h => by simp [Json.beq] at h
  | .jstr _, .jobj _, h => by simp [Json.beq] at h
  | .jarr _, .null, h => by simp [Json.beq] at h
  | .jarr _, .jbool _, h => by simp [Json.beq] at h
  | .jarr _, .jnum _, h => by simp [Json.beq] at h
  | .jarr _, .jstr _, h => by simp [Json.beq] at h
  | .jarr _, .jobj _, h => by simp [Json.beq] at h
  | .jobj _, .null, h => by simp [Json.beq] at h
  | .jobj _, .jbool _, h => by simp [Json.beq] at h
  | .jobj _, .jnum _, h => by simp [Json.beq] at h
  | .jobj _, .jstr _, h => by simp [Json.beq] at h
  | .jobj _, .jarr _, h => by simp [Json.beq] at h

theorem Json.eqList_of_beq : ∀ {a b : List Json}, Json.beqList a b = true → a = b
  | [], [], _ => rfl
  | a :: as, b :: bs, h => by
      simp only [Json.beqList, Bool.and_eq_true] at h
      simp [Json.eq_of_beq h.1, Json.eqList_of_beq h.2]
  | [], _ :: _, h => by simp [Json.beqList] at h
  | _ :: _, [], h => by simp [Json.beqList] at h

theorem Json.eqKVs_of_beq :
    ∀ {a b : List (String × Json)}, Json.beqKVs a b = true → a = b
  | [], [], _ => rfl
  | (ka, va) :: as, (kb, vb) :: bs, h => by
      simp only [Json.beqKVs, Bool.and_eq_true] at h
      obtain ⟨⟨hk, hv⟩, hrest⟩ := h
      simp only [beq_iff_eq] at hk
      simp [hk, Json.eq_of_beq hv, Json.eqKVs_of_beq hrest]
  | [], _ :: _, h => by simp [Json.beqKVs] at h
  | _ :: _, [], h => by simp [Json.beqKVs] at h

end

instance : DecidableEq Json := fun a b =>
  if h : Json.beq a b = true then
    isTrue (Json.eq_of_beq h)
  else
    isFalse (fun he => h (he ▸ Json.beq_refl a))

/-- Python truthiness of a JSON value (`bool(x)`):
`None`/`False`/`0`/`""`/`[]`/`{}` are falsy, everything else truthy. -/
def Json.truthy : Json → Bool
  | .null => false
  | .jbool b => b
  | .jnum n => n != 0
  | .jstr s => s ≠ ""
  | .jarr xs => xs ≠ []
  | .jobj kvs => kvs ≠ []

/-- Python `str.strip()`: drop leading and trailing whitespace.  Written
structurally over the character list so that it evaluates inside
`decide`/`rfl`. -/
def String.pyStrip (s : String) : String :=
  ⟨((s.data.dropWhile Char.isWhitespace).reverse.dropWhile
      Char.isWhitespace).reverse⟩

/-- Fuel-driven decimal digit expansion (structural, so that it evaluates
inside `decide`/`rfl`). -/
def natDigitsGo : Nat → Nat → List Char
  | _, 0 => []
  | 0, _ + 1 => []
  | fuel + 1, n + 1 => natDigitsGo fuel ((n + 1) / 10) ++ [Nat.digitChar ((n + 1) % 10)]

/-- Decimal digits of a positive natural, most significant first. -/
def natDigitsMSB (n : Nat) : List Char := natDigitsGo n n

theorem natDigitsGo_fuel_irrel :
    ∀ (fuel fuel' n : Nat), n ≤ fuel → n ≤ fuel' →
      natDigitsGo fuel n = natDigitsGo fuel' n := by
  intro fuel
  induction fuel with
  | zero =>
    intro fuel' n h1 h2
    interval_cases n
    cases fuel' <;> rfl
  | succ f ih =>
    intro fuel' n h1 h2
    cases n with
    | zero => cases fuel' <;> rfl
    | succ m =>
      cases fuel' with
      | zero => omega
      | succ f' =>
        show natDigitsGo f ((m + 1) / 10) ++ _ = natDigitsGo f' ((m + 1) / 10) ++ _
        have hd : (m + 1) / 10 ≤ m := by
          have := Nat.div_lt_self (Nat.succ_pos m) (show 1 < 10 by omega)
          omega
        rw [ih f' ((m + 1) / 10) (by omega) (by omega)]

theorem natDigitsMSB_succ (n : Nat) :
    natDigitsMSB (n + 1) =
      natDigitsMSB ((n + 1) / 10) ++ [Nat.digitChar ((n + 1) % 10)] := by
  show natDigitsGo (n + 1) (n + 1) = natDigitsGo ((n + 1) / 10) ((n + 1) / 10) ++ _
  show natDigitsGo n ((n + 1) / 10) ++ _ = _
  have hd : (n + 1) / 10 ≤ n := by
    have := Nat.div_lt_self (Nat.succ_pos n) (show 1 < 10 by omega)
    omega
  rw [natDigitsGo_fuel_irrel n ((n + 1) / 10) ((n + 1) / 10) hd le_rfl]

/-- Decimal string of a natural number (Python `str(n)` for `n ≥ 0`). -/
def natRepr (n : Nat) : String :=
  if n = 0 then "0" else (natDigitsMSB n).asString

/-- Decimal string of an integer (Python `str(n)`). -/
def intRepr (n : Int) : String :=
  if n < 0 then "-" ++ natRepr n.natAbs else natRepr n.natAbs

/-- Python `str()` applied to a parsed JSON value.  Exact for null, booleans,
integers and strings; composite values (which the verified code paths never
stringify into persisted fields) are approximated by a fixed-shape rendering. -/
def Json.pyStr : Json → String
  | .null => "None"
  | .jbool b => if b then "True" else "False"
  | .jnum n => intRepr n
  | .jstr s => s
  | .jarr xs => "[list:" ++ natRepr xs.length ++ "]"
  | .jobj kvs => "[dict:" ++ natRepr kvs.length ++ "]"

/-- Python `int(x)` on a parsed JSON value, `none` when it raises. -/
def Json.pyInt : Json → Option Int
  | .jnum n => some n
  | .jstr s => s.toInt?
  | .jbool b => some (if b then 1 else 0)
  | _ => none

/-- Lookup of a key in an ordered key-value list (Python `d.get(k)`). -/
def lookupKV (kvs : List (String × Json)) (k : String) : Option Json :=
  match kvs.find? (fun p => p.1 = k) with
  | some p => some p.2
  | none => none

/-- Python `d[k] = v`: replace the value at `k` in place, or append. -/
def setKV (kvs : List (String × Json)) (k : String) (v : Json) :
    List (String × Json) :=
  match kvs with
  | [] => [(k, v)]
  | (k0, v0) :: rest =>
    if k0 = k then (k, v) :: rest else (k0, v0) :: setKV rest k v

/-- Python `d.pop(k, None)`: drop every binding of `k` (at most one exists
for dicts built by the modelled code). -/
def delKV (kvs : List (String × Json)) (k : String) : List (String × Json) :=
  kvs.filter (fun p => p.1 ≠ k)

/-- Python `d.setdefault(k, v)`. -/
def setdefaultKV (kvs : List (String × Json)) (k : String) (v : Json) :
    List (String × Json) :=
  match lookupKV kvs k with
  | some _ => kvs
  | none => kvs ++ [(k, v)]

/-- `d.get(k)` on a JSON object; `none` when the key is absent.  Only used
where the modelled code has established the value is a dict. -/
def Json.getKey : Json → String → Option Json
  | .jobj kvs, k => lookupKV kvs k
  | _, _ => none

def Json.isObj : Json → Bool
  | .jobj _ => true
  | _ => false

theorem lookupKV_setKV_self (kvs : List (String × Json)) (k : String) (v : Json) :
    lookupKV (setKV kvs k v) k = some v := by
  induction kvs with
  | nil => simp [setKV, lookupKV, List.find?]
  | cons p rest ih =>
    obtain ⟨k0, v0⟩ := p
    by_cases hk : k0 = k
    · simp [setKV, hk, lookupKV, List.find?]
    · simpa [setKV, hk, lookupKV, List.find?] using ih

theorem lookupKV_setKV_other (kvs : List (String × Json)) (k k' : String)
    (v : Json) (h : k' ≠ k) : lookupKV (setKV kvs k v) k' = lookupKV kvs k' := by
  have hne : ¬ (k = k') := fun hh => h hh.symm
  induction kvs with
  | nil => simp [setKV, lookupKV, List.find?, hne]
  | cons p rest ih =>
    obtain ⟨k0, v0⟩ := p
    by_cases hk : k0 = k
    · subst hk
      simp [setKV, lookupKV, List.find?, hne, h]
    · by_cases hk' : k0 = k'
      · subst hk'
        simp only [setKV]
        rw [if_neg hk]
        simp [lookupKV, List.find?]
      · simpa [setKV, hk, lookupKV, List.find?, hk'] using ih

theorem lookupKV_append_left (kvs kvs' : List (String × Json)) (k : String)
    (h : lookupKV kvs k ≠ none) :
    lookupKV (kvs ++ kvs') k = lookupKV kvs k := by
  induction kvs with
  | nil => simp [lookupKV, List.find?] at h
  | cons p rest ih =>
    obtain ⟨k0, v0⟩ := p
    by_cases hk : k0 = k
    · simp [lookupKV, List.find?, hk]
    · have e1 : lookupKV (((k0, v0) :: rest) ++ kvs') k = lookupKV (rest ++ kvs') k := by
        simp [lookupKV, List.find?_cons, hk]
      have e2 : lookupKV ((k0, v0) :: rest) k = lookupKV rest k := by
        simp [lookupKV, List.find?_cons, hk]
      rw [e1]
      rw [e2] at h
      rw [e2]
      exact ih h

theorem natDigitsMSB_ne_nil {n : Nat} (h : n ≠ 0) : natDigitsMSB n ≠ [] := by
  cases n with
  | zero => exact absurd rfl h
  | succ m =>
    rw [natDigitsMSB_succ]
    cases natDigitsMSB ((m + 1) / 10) <;> simp

theorem digitChar_inj {a b : Nat} (ha : a < 10) (hb : b < 10)
    (h : Nat.digitChar a = Nat.digitChar b) : a = b := by
  interval_cases a <;> interval_cases b <;> simp_all [Nat.digitChar]

theorem natDigitsMSB_inj : ∀ {m n : Nat}, natDigitsMSB m = natDigitsMSB n → m = n := by
  intro m
  induction m using Nat.strong_induction_on with
  | _ m ih =>
    intro n h
    match m, n with
    | 0, 0 => rfl
    | 0, n + 1 =>
      rw [natDigitsMSB_succ] at h
      simp [natDigitsMSB, natDigitsGo] at h
    | m + 1, 0 =>
      rw [natDigitsMSB_succ] at h
      simp [natDigitsMSB, natDigitsGo] at h
    | m + 1, n + 1 =>
      rw [natDigitsMSB_succ, natDigitsMSB_succ] at h
      have h2 := List.append_inj' h (by simp)
      obtain ⟨hpre, hlast⟩ := h2
      simp only [List.cons.injEq] at hlast
      have hdiv : (m + 1) / 10 = (n + 1) / 10 :=
        ih ((m + 1) / 10) (Nat.div_lt_self (Nat.succ_pos m) (by omega)) hpre
      have hmod : (m + 1) % 10 = (n + 1) % 10 :=
        digitChar_inj (Nat.mod_lt _ (by omega)) (Nat.mod_lt _ (by omega)) hlast.1
      omega

theorem natDigitsMSB_eq_singleton_zero {n : Nat} (h : natDigitsMSB n = ['0']) :
    n = 0 := by
  cases n with
  | zero => rfl
  | succ k =>
    rw [natDigitsMSB_succ] at h
    have hlen := congrArg List.length h
    simp only [List.length_append, List.length_cons, List.length_nil] at hlen
    have hpre : natDigitsMSB ((k + 1) / 10) = [] :=
      List.eq_nil_of_length_eq_zero (by omega)
    rw [hpre, List.nil_append] at h
    simp only [List.cons.injEq, and_true] at h
    have hdiv : (k + 1) / 10 = 0 := by
      by_contra hne
      exact natDigitsMSB_ne_nil hne hpre
    have hmod : (k + 1) % 10 = 0 := by
      have hc : Nat.digitChar ((k + 1) % 10) = Nat.digitChar 0 := by
        simpa [Nat.digitChar] using h
      exact digitChar_inj (Nat.mod_lt _ (by omega)) (by omega) hc
    omega

theorem natRepr_inj : ∀ {m n : Nat}, natRepr m = natRepr n → m = n := by
  intro m n h
  unfold natRepr at h
  have hdata := congrArg String.data h
  by_cases hm : m = 0 <;> by_cases hn : n = 0
  · exact hm.trans hn.symm
  · rw [if_pos hm, if_neg hn] at hdata
    exfalso
    have hzn : natDigitsMSB n = ['0'] := by
      simpa [List.asString] using hdata.symm
    exact hn (natDigitsMSB_eq_singleton_zero hzn)
  · rw [if_neg hm, if_pos hn] at hdata
    exfalso
    have hzm : natDigitsMSB m = ['0'] := by
      simpa [List.asString] using hdata
    exact hm (natDigitsMSB_eq_singleton_zero hzm)
  · rw [if_neg hm, if_neg hn] at hdata
    exact natDigitsMSB_inj (by simpa [List.asString] using hdata)


/-! ## Row store model

One structure per Supabase table used by the versioning subsystem, plus the
in-memory module cache `_SUITE_REQUIREMENTS` from agent.py.  `rowId` models
the database-generated primary key; `nextId` is the id supply. -/

/-- Row of the `requirements` table. -/
structure ReqRow where
  rowId : Nat
  suite_id : Option String
  req_code : String
  source_doc : String
  content : Json
  version : Option Int
  active : Bool
deriving DecidableEq, Repr

/-- Row of the `test_cases` table. -/
structure TcRow where
  rowId : Nat
  requirement_id : Option Nat
  suite_id : Option String
  content : Json
  version : Option Int
  active : Bool
deriving DecidableEq, Repr

/-- Row of the `test_designs` table. -/
structure TdRow where
  rowId : Nat
  suite_id : Option String
  testing_type : String
  content : Json
  version : Option Int
  active : Bool
deriving DecidableEq, Repr

/-- Row of the `viewpoints` table. -/
structure VpRow where
  rowId : Nat
  suite_id : Option String
  test_design_id : Option Nat
  requirement_id : Option Nat
  name : String
  content : Json
  version : Option Int
  active : Bool
deriving DecidableEq, Repr

/-- Row of the `test_suites` table (only the columns the subsystem touches). -/
structure SuiteRow where
  id : String
  state : Json
deriving DecidableEq, Repr

/-- Row of the `team_events` table. -/
structure EventRow where
  suite_id : Option String
  payload : Json
deriving DecidableEq, Repr

/-- The whole storage state. -/
structure DB where
  requirements : List ReqRow
  test_cases : List TcRow
  test_designs : List TdRow
  viewpoints : List VpRow
  test_suites : List SuiteRow
  team_events : List EventRow
  /-- the module-level `_SUITE_REQUIREMENTS` cache, keyed by suite id -/
  cache : List (String × List Json)
  nextId : Nat
deriving DecidableEq, Repr

def insertReq (db : DB) (r : ReqRow) : DB :=
  { db with requirements := db.requirements ++ [{ r with rowId := db.nextId }],
            nextId := db.nextId + 1 }

def insertTc (db : DB) (r : TcRow) : DB :=
  { db with test_cases := db.test_cases ++ [{ r with rowId := db.nextId }],
            nextId := db.nextId + 1 }

def insertTd (db : DB) (r : TdRow) : DB :=
  { db with test_designs := db.test_designs ++ [{ r with rowId := db.nextId }],
            nextId := db.nextId + 1 }

def insertVp (db : DB) (r : VpRow) : DB :=
  { db with viewpoints := db.viewpoints ++ [{ r with rowId := db.nextId }],
            nextId := db.nextId + 1 }

/-- Rows of a suite visible at a version (`.eq(suite_id).eq(version)`). -/
def reqRowsAt (db : DB) (s : String) (v : Int) : List ReqRow :=
  db.requirements.filter (fun r => r.suite_id = some s ∧ r.version = some v)

def tcRowsAt (db : DB) (s : String) (v : Int) : List TcRow :=
  db.test_cases.filter (fun r => r.suite_id = some s ∧ r.version = some v)

def tdRowsAt (db : DB) (s : String) (v : Int) : List TdRow :=
  db.test_designs.filter (fun r => r.suite_id = some s ∧ r.version = some v)

def vpRowsAt (db : DB) (s : String) (v : Int) : List VpRow :=
  db.viewpoints.filter (fun r => r.suite_id = some s ∧ r.version = some v)

def reqContentsAt (db : DB) (s : String) (v : Int) : List Json :=
  (reqRowsAt db s v).map (·.content)

def tcContentsAt (db : DB) (s : String) (v : Int) : List Json :=
  (tcRowsAt db s v).map (·.content)

def tdContentsAt (db : DB) (s : String) (v : Int) : List Json :=
  (tdRowsAt db s v).map (·.content)

def vpContentsAt (db : DB) (s : String) (v : Int) : List Json :=
  (vpRowsAt db s v).map (·.content)

/-! ## SupabaseResultsWriter (src/app/results_writer.py) -/

/-- `SupabaseResultsWriter._get_requirement_row_id`: first row matching
`(req_code, suite_id)` in table order, `limit 1`. -/
def get_requirement_row_id (db : DB) (suite_id : Option String)
    (req_code : String) : Option Nat :=
  (db.requirements.find? (fun r => r.req_code = req_code ∧ r.suite_id = suite_id)).map
    (·.rowId)

/-- One prepared row of `write_requirements`; `none` when the item is skipped
(`if not req_code: continue`). -/
def prepareReqRow (r : Json) : Option (Json × String × String) :=
  match r with
  | .jobj kvs =>
    let idVal := (lookupKV kvs "id").getD Json.null
    let srcVal := (lookupKV kvs "source").getD Json.null
    if idVal.truthy then
      some (.jobj kvs, idVal.pyStr, if srcVal.truthy then srcVal.pyStr else "")
    else none
  | _ => none

/-- Deactivation step of `write_requirements`: `update {active: False}` on
`(suite_id, req_code, active=True)`. -/
def deactivate_requirements (db : DB) (suite_id : Option String)
    (req_code : String) : DB :=
  { db with requirements := db.requirements.map (fun q =>
      if q.suite_id = suite_id ∧ q.req_code = req_code ∧ q.active = true then
        { q with active := false }
      else q) }

def write_requirements_loop (db : DB) (suite_id : Option String)
    (version : Option Int) (active : Bool) :
    List (Json × String × String) → DB
  | [] => db
  | (content, code, sd) :: ps =>
      let db1 := deactivate_requirements db suite_id code
      let db2 := insertReq db1
        { rowId := 0, suite_id := suite_id, req_code := code, source_doc := sd,
          content := content, version := version, active := active }
      write_requirements_loop db2 suite_id version active ps

/-- `SupabaseResultsWriter.write_requirements`.  Returns `none` when the
row-building loop raises (`r.get` on a non-dict element), which happens
before any write; callers catch the exception. -/
def write_requirements (db : DB) (suite_id : Option String)
    (requirements : List Json) (version : Option Int) (active : Bool) :
    Option DB :=
  if requirements.all Json.isObj then
    some (write_requirements_loop db suite_id version active
      (requirements.filterMap prepareReqRow))
  else none

/-- Deactivation step of `write_testcases`: `update {active: False}` on
`(requirement_id, active=True)`. -/
def deactivate_test_cases (db : DB) (rid : Nat) : DB :=
  { db with test_cases := db.test_cases.map (fun t =>
      if t.requirement_id = some rid ∧ t.active = true then
        { t with active := false }
      else t) }

/-- The minimal requirement row inserted by `write_testcases` when no row
with `(suite_id, req_code)` exists yet (its content records id, source,
requirement text, version and the active flag). -/
def minimal_requirement_row (suite_id : Option String) (req_code : String)
    (kvs : List (String × Json)) (version : Option Int) (active : Bool) :
    ReqRow :=
  let srcVal := (lookupKV kvs "source").getD (.jstr "")
  let textVal := (lookupKV kvs "requirement_text").getD (.jstr "")
  { rowId := 0, suite_id := suite_id, req_code := req_code,
    source_doc := srcVal.pyStr,
    content := .jobj
      [("id", .jstr req_code), ("source", srcVal), ("text", textVal),
       ("version", match version with | some v => .jnum v | none => .null),
       ("active", .jbool active)],
    version := version, active := active }

/-- `SupabaseResultsWriter.write_testcases`.  Returns `none` when the
minimal-requirement branch raises on a non-dict payload (before any write). -/
def write_testcases (db : DB) (suite_id : Option String) (req_code : String)
    (testcases : Json) (version : Option Int) (active : Bool) : Option DB :=
  match get_requirement_row_id db suite_id req_code with
  | some rid =>
      let db1 := deactivate_test_cases db rid
      some (insertTc db1
        { rowId := 0, requirement_id := some rid, suite_id := suite_id,
          content := testcases, version := version, active := active })
  | none =>
      match testcases with
      | .jobj kvs =>
          let db1 := insertReq db
            (minimal_requirement_row suite_id req_code kvs version active)
          match get_requirement_row_id db1 suite_id req_code with
          | none => some db1
          | some rid =>
              let db2 := deactivate_test_cases db1 rid
              some (insertTc db2
                { rowId := 0, requirement_id := some rid, suite_id := suite_id,
                  content := testcases, version := version, active := active })
      | _ => none

/-- One row handed to `write_testcases_bulk` (`{req_code, testcases, version}`). -/
structure TcBulkRow where
  req_code : String
  testcases : Json
  version : Option Int
deriving DecidableEq, Repr

def write_testcases_bulk_loop (db : DB) (suite_id : Option String)
    (version : Option Int) (active : Bool) : List TcBulkRow → DB
  | [] => db
  | row :: rest =>
      let req_code_local := row.req_code.pyStrip
      let db1 :=
        if req_code_local = "" then db
        else
          let tc_local := if row.testcases.truthy then row.testcases else .jobj []
          let ver_local := match row.version with | some v => some v | none => version
          (write_testcases db suite_id req_code_local tc_local ver_local active).getD db
      write_testcases_bulk_loop db1 suite_id version active rest

/-- `SupabaseResultsWriter.write_testcases_bulk` (thread pool modelled
sequentially; each task's exceptions are swallowed). -/
def write_testcases_bulk (db : DB) (suite_id : Option String)
    (rows : List TcBulkRow) (version : Option Int) (active : Bool) : DB :=
  if rows = [] then db else write_testcases_bulk_loop db suite_id version active rows

/-- Deactivation step of `write_test_design`. -/
def deactivate_test_designs (db : DB) (suite_id : Option String)
    (testing_type : String) : DB :=
  { db with test_designs := db.test_designs.map (fun t =>
      if t.suite_id = suite_id ∧ t.testing_type = testing_type ∧ t.active = true then
        { t with active := false }
      else t) }

/-- `SupabaseResultsWriter.write_test_design`; returns the inserted row id. -/
def write_test_design (db : DB) (suite_id : Option String) (content : Json)
    (testing_type : String) (version : Option Int) (active : Bool) :
    Option Nat × DB :=
  let db1 := deactivate_test_designs db suite_id testing_type
  (some db1.nextId, insertTd db1
    { rowId := 0, suite_id := suite_id, testing_type := testing_type,
      content := content, version := version, active := active })

/-- One item handed to `write_test_design_bulk`. -/
structure TdBulkItem where
  content : Json
  testing_type : String
  version : Option Int
deriving DecidableEq, Repr

def write_test_design_bulk_loop (db : DB) (suite_id : Option String)
    (version : Option Int) (active : Bool) : List TdBulkItem → List Nat × DB
  | [] => ([], db)
  | it :: rest =>
      let content_local := if it.content.truthy then it.content else .jobj []
      let ttype_local := if it.testing_type = "" then "integration" else it.testing_type
      let ver_local := match it.version with | some v => some v | none => version
      let (rid?, db1) := write_test_design db suite_id content_local ttype_local ver_local active
      let (ids, db2) := write_test_design_bulk_loop db1 suite_id version active rest
      ((match rid? with | some i => [i] | none => []) ++ ids, db2)

/-- `SupabaseResultsWriter.write_test_design_bulk`. -/
def write_test_design_bulk (db : DB) (suite_id : Option String)
    (items : List TdBulkItem) (version : Option Int) (active : Bool) :
    List Nat × DB :=
  if items = [] then ([], db)
  else write_test_design_bulk_loop db suite_id version active items

/-- `_derive_item_name` fallback path (levels / scenario). -/
def derive_item_name_fallback (kvs : List (String × Json)) : String :=
  let getStr := fun (k : String) =>
    let v := (lookupKV kvs k).getD Json.null
    if v.truthy then v.pyStr else ""
  let l1 := (getStr "level1").pyStrip
  let l2 := (getStr "level2").pyStrip
  let l3 := (getStr "level3").pyStrip
  let scen := ((getStr "scenario").replace "\n" " ").pyStrip
  let parts := [l1, l2, l3].filter (fun p => p ≠ "")
  let base := String.intercalate " / " parts
  if scen ≠ "" then
    let short := if scen.length ≤ 80 then scen else (scen.take 77) ++ "..."
    if base ≠ "" then base ++ ": " ++ short else short
  else if base ≠ "" then base else "Viewpoint"

/-- `SupabaseResultsWriter.write_viewpoints._derive_item_name`. -/
def derive_item_name (kvs : List (String × Json)) : String :=
  match lookupKV kvs "name" with
  | some (.jstr s) => if s.pyStrip ≠ "" then s else derive_item_name_fallback kvs
  | _ => derive_item_name_fallback kvs

/-- `SupabaseResultsWriter.write_viewpoints._resolve_requirement_id_from_item`. -/
def resolve_requirement_id_from_item (db : DB) (suite_id : Option String)
    (kvs : List (String × Json)) : Option Nat :=
  let refs0 := (lookupKV kvs "references").getD Json.null
  let refs := if refs0.truthy then refs0 else .jobj []
  let first_code : Option Json :=
    match refs with
    | .jobj rkvs =>
        match lookupKV rkvs "requirements" with
        | some (.jarr (c :: _)) => some c
        | _ => none
    | _ => none
  let first_code :=
    match first_code with
    | some c => some c
    | none =>
        match lookupKV kvs "requirement_references" with
        | some (.jarr (c :: _)) => some c
        | _ => none
  match first_code with
  | some c => if c.truthy then get_requirement_row_id db suite_id c.pyStr else none
  | none => none

/-- The content-shape normalisation of `write_viewpoints` building
`items_to_write` (each item a dict, group items tagged with `__req_code`). -/
def viewpoint_items_of_content (content : Json) : List (List (String × Json)) :=
  match content with
  | .jobj kvs =>
    match lookupKV kvs "viewpoints" with
    | some (.jarr vp_list) =>
        let has_group_shape := vp_list.any (fun g =>
          match g with
          | .jobj gkvs =>
              (match lookupKV gkvs "items" with
               | some (.jarr _) => true
               | _ => false)
          | _ => false)
        if has_group_shape then
          vp_list.flatMap (fun g =>
            match g with
            | .jobj gkvs =>
                let req_code_group := lookupKV gkvs "req_code"
                (match lookupKV gkvs "items" with
                 | some (.jarr its) => its.filterMap (fun it =>
                     match it with
                     | .jobj ikvs =>
                         some (match req_code_group with
                               | some rc => setKV ikvs "__req_code" rc
                               | none => ikvs)
                     | _ => none)
                 | _ => [])
            | _ => [])
        else
          vp_list.filterMap (fun it =>
            match it with
            | .jobj ikvs => some ikvs
            | _ => none)
    | _ =>
      match lookupKV kvs "items" with
      | some (.jarr its) =>
          let req_code_group := lookupKV kvs "req_code"
          its.filterMap (fun it =>
            match it with
            | .jobj ikvs =>
                some (match req_code_group with
                      | some rc => setKV ikvs "__req_code" rc
                      | none => ikvs)
            | _ => none)
      | _ => [kvs]
  | .jarr xs => xs.filterMap (fun it =>
      match it with
      | .jobj ikvs => some ikvs
      | _ => none)
  | _ => []

/-- Deactivation step of `write_viewpoints`: natural key
`(suite_id, requirement_id, name)`. -/
def deactivate_viewpoints (db : DB) (suite_id : Option String)
    (requirement_id : Option Nat) (name : String) : DB :=
  { db with viewpoints := db.viewpoints.map (fun v =>
      if v.suite_id = suite_id ∧ v.requirement_id = requirement_id ∧
         v.name = name ∧ v.active = true then
        { v with active := false }
      else v) }

def write_viewpoints_loop (db : DB) (suite_id : Option String)
    (requirement_id : Option Nat) (test_design_id : Option Nat)
    (version : Option Int) (active : Bool) :
    List (List (String × Json)) → List Nat × DB
  | [] => ([], db)
  | ikvs :: rest =>
      let req_code_hint := lookupKV ikvs "__req_code"
      let it_popped := delKV ikvs "__req_code"
      let rid1 : Option Nat :=
        match requirement_id with
        | some r => some r
        | none =>
            match req_code_hint with
            | some rc => get_requirement_row_id db suite_id rc.pyStr
            | none => none
      let requirement_id_local : Option Nat :=
        match rid1 with
        | some r => some r
        | none => resolve_requirement_id_from_item db suite_id it_popped
      let name_value := derive_item_name it_popped
      let db1 := deactivate_viewpoints db suite_id requirement_id_local name_value
      let newId := db1.nextId
      let db2 := insertVp db1
        { rowId := 0, suite_id := suite_id, test_design_id := test_design_id,
          requirement_id := requirement_id_local, name := name_value,
          content := .jobj it_popped, version := version, active := active }
      let (ids, db3) :=
        write_viewpoints_loop db2 suite_id requirement_id test_design_id version active rest
      (newId :: ids, db3)

/-- `SupabaseResultsWriter.write_viewpoints`. -/
def write_viewpoints (db : DB) (suite_id : Option String)
    (requirement_id : Option Nat) (content : Json) (test_design_id : Option Nat)
    (version : Option Int) (active : Bool) : List Nat × DB :=
  write_viewpoints_loop db suite_id requirement_id test_design_id version active
    (viewpoint_items_of_content content)

/-- One item handed to `write_viewpoints_bulk`. -/
structure VpBulkItem where
  content : Json
  test_design_id : Option Nat
  requirement_id : Option Nat
  version : Option Int
deriving DecidableEq, Repr

def write_viewpoints_bulk_loop (db : DB) (suite_id : Option String)
    (version : Option Int) (active : Bool) : List VpBulkItem → List Nat × DB
  | [] => ([], db)
  | it :: rest =>
      let content_local := if it.content.truthy then it.content else .jobj []
      let ver_local := match it.version with | some v => some v | none => version
      let (ids1, db1) := write_viewpoints db suite_id it.requirement_id
        content_local it.test_design_id ver_local active
      let (ids2, db2) := write_viewpoints_bulk_loop db1 suite_id version active rest
      (ids1 ++ ids2, db2)

/-- `SupabaseResultsWriter.write_viewpoints_bulk`. -/
def write_viewpoints_bulk (db : DB) (suite_id : Option String)
    (items : List VpBulkItem) (version : Option Int) (active : Bool) :
    List Nat × DB :=
  if items = [] then ([], db)
  else write_viewpoints_bulk_loop db suite_id version active items

/-- `SupabaseResultsWriter.write_event`. -/
def write_event (db : DB) (suite_id : Option String) (event : Json) : DB :=
  { db with team_events := db.team_events ++ [{ suite_id := suite_id, payload := event }] }

/-- `SupabaseResultsWriter.write_suite_state`: read-merge-update of
`test_suites.state`, setting only `agent_state`. -/
def write_suite_state (db : DB) (suite_id : Option String) (state : Json) : DB :=
  match suite_id with
  | none => db
  | some sid =>
    if sid = "" then db
    else
      let current : List (String × Json) :=
        match ((db.test_suites.find? (fun r => r.id = sid)).map
            (fun r => r.state) : Option Json) with
        | some (.jobj kvs) => kvs
        | _ => []
      let merged := Json.jobj (setKV current "agent_state" state)
      { db with test_suites := db.test_suites.map (fun r =>
          if r.id = sid then { r with state := merged } else r) }

/-- `SupabaseResultsWriter.get_suite_state`: the raw `state` column of the
first matching suite row. -/
def get_suite_state (db : DB) (suite_id : Option String) : Option Json :=
  match suite_id with
  | none => none
  | some sid =>
    if sid = "" then none
    else (db.test_suites.find? (fun r => r.id = sid)).map (·.state)

/-! ## Agent-level helpers (src/app/agent.py) -/

/-- `_get_suite_agent_state`: `results_writer.get_suite_state` guarded by a
try/except returning `None` (which the pure model never triggers). -/
def get_suite_agent_state (db : DB) (suite_id : Option String) : Option Json :=
  get_suite_state db suite_id

/-- The three key assignments of `_write_full_suite_state` on the existing
state dict: `agent_state` always, then `latest_version` and
`version_history` when the corresponding argument was given. -/
def wfssKVs (kvs : List (String × Json)) (agent_state : Json)
    (latest_version : Option Int) (version_history : Option (List Json)) :
    List (String × Json) :=
  let c1 := setKV kvs "agent_state" agent_state
  let c2 :=
    match latest_version with
    | some lv => setKV c1 "latest_version" (.jnum lv)
    | none => c1
  match version_history with
  | some vh => setKV c2 "version_history" (.jarr vh)
  | none => c2

/-- `_write_full_suite_state`: read-merge-update of `test_suites.state`
setting `agent_state` and, when given, top-level `latest_version` and
`version_history`; every other key of the existing state is kept. -/
def write_full_suite_state (db : DB) (suite_id : Option String)
    (agent_state : Json) (latest_version : Option Int)
    (version_history : Option (List Json)) : DB :=
  match suite_id with
  | none => db
  | some sid =>
    if sid = "" then db
    else
      let current0 : List (String × Json) :=
        match ((db.test_suites.find? (fun r => r.id = sid)).map
            (fun r => r.state) : Option Json) with
        | some (.jobj kvs) => kvs
        | _ => []
      let c3 := wfssKVs current0 agent_state latest_version version_history
      { db with test_suites := db.test_suites.map (fun r =>
          if r.id = sid then { r with state := .jobj c3 } else r) }

/-- The `req_id_to_code` dict built in step 2 of
`_clone_current_artifacts_to_version` (later assignments win; rows with a
falsy `req_code` are not entered). -/
def reqIdToCodeLookup (reqMapRows : List ReqRow) (rid : Nat) : Option String :=
  ((reqMapRows.filter (fun r => r.req_code ≠ "")).reverse.find?
      (fun r => r.rowId = rid)).map (fun r => r.req_code)

/-- Step 1 of `_clone_current_artifacts_to_version`: clone requirements
(`none` models the unreachable raise inside `write_requirements`). -/
def clone_step_requirements (db : DB) (s : String) (sv tv : Int) : Option DB :=
  if db.requirements.any (fun r => r.suite_id = some s ∧ r.version = some tv) then
    some db
  else
    let rows := reqContentsAt db s sv
    let reqs := rows.filter Json.isObj
    if reqs = [] then some db
    else write_requirements db (some s) reqs (some tv) true

/-- The bulk rows built by step 2 of the clone: one per source test-case row
whose `requirement_id` maps to a requirement code, with the `version` key of
the content re-stamped to the target version. -/
def clone_tc_bulk_rows (db : DB) (s : String) (sv tv : Int) : List TcBulkRow :=
  let reqMapRows := db.requirements.filter (fun r => r.suite_id = some s)
  let tcRows := db.test_cases.filter (fun r =>
    r.suite_id = some s ∧ r.version = some sv)
  tcRows.filterMap (fun row =>
    match row.requirement_id with
    | none => none
    | some rid =>
      match reqIdToCodeLookup reqMapRows rid with
      | none => none
      | some code =>
        match row.content with
        | .jobj kvs => some
            { req_code := code,
              testcases := .jobj (setKV kvs "version" (.jnum tv)),
              version := some tv }
        | _ => none)

/-- Step 2 of `_clone_current_artifacts_to_version`: clone test cases. -/
def clone_step_test_cases (db : DB) (s : String) (sv tv : Int) : DB :=
  if db.test_cases.any (fun r => r.suite_id = some s ∧ r.version = some tv) then db
  else
    let bulkRows := clone_tc_bulk_rows db s sv tv
    if bulkRows = [] then db
    else write_testcases_bulk db (some s) bulkRows (some tv) true

/-- Step 3 of `_clone_current_artifacts_to_version`: clone test designs. -/
def clone_step_test_designs (db : DB) (s : String) (sv tv : Int) : DB :=
  if db.test_designs.any (fun r => r.suite_id = some s ∧ r.version = some tv) then db
  else
    let tds := db.test_designs.filter (fun r =>
      r.suite_id = some s ∧ r.version = some sv)
    if tds = [] then db
    else
      let items : List TdBulkItem := tds.map (fun td =>
        { content := if td.content.truthy then td.content else .jobj [],
          testing_type := if td.testing_type = "" then "integration" else td.testing_type,
          version := some tv })
      (write_test_design_bulk db (some s) items (some tv) true).2

/-- Step 4 of `_clone_current_artifacts_to_version`: clone viewpoints. -/
def clone_step_viewpoints (db : DB) (s : String) (sv tv : Int) : DB :=
  if db.viewpoints.any (fun r => r.suite_id = some s ∧ r.version = some tv) then db
  else
    let vps := db.viewpoints.filter (fun r =>
      r.suite_id = some s ∧ r.version = some sv)
    if vps = [] then db
    else
      let items : List VpBulkItem := vps.map (fun vp =>
        { content := if vp.content.truthy then vp.content else .jobj [],
          test_design_id := vp.test_design_id,
          requirement_id := vp.requirement_id,
          version := some tv })
      (write_viewpoints_bulk db (some s) items (some tv) true).2

/-- `_clone_current_artifacts_to_version`: clone each artifact kind from
`source_version` into `target_version` unless the kind already has rows at
the target, in the order requirements, test cases, test designs,
viewpoints.  `none` models the only reachable exception (raised before any
write and swallowed by the caller). -/
def clone_current_artifacts_to_version (db : DB) (s : String)
    (source_version target_version : Int) : Option DB := do
  let db1 ← clone_step_requirements db s source_version target_version
  some (clone_step_viewpoints
    (clone_step_test_designs
      (clone_step_test_cases db1 s source_version target_version)
      s source_version target_version)
    s source_version target_version)

/-- One `version_history` entry `{version, description, timestamp}`. -/
def version_history_entry (v : Int) (description now : String) : Json :=
  .jobj [("version", .jnum v), ("description", .jstr description),
         ("timestamp", .jstr now)]

/-- The prior version number `_increment_suite_version` reads from a dict
state: `latest_version` through `int(...)`, defaulting to 0. -/
def priorIntOf (kvs : List (String × Json)) : Int :=
  match lookupKV kvs "latest_version" with
  | none => 0
  | some .null => 0
  | some v => (v.pyInt).getD 0

/-- The prior `version_history` list `_increment_suite_version` reads from
a dict state (top-level list, else the one nested under `agent_state`). -/
def histOf (kvs : List (String × Json)) : List Json :=
  match lookupKV kvs "version_history" with
  | some (.jarr l) => l
  | _ =>
    match lookupKV kvs "agent_state" with
    | some (.jobj akvs) =>
      (match lookupKV akvs "version_history" with
       | some (.jarr l) => l
       | _ => [])
    | _ => []

/-- `_increment_suite_version`: read `latest_version` (default 0), bump by
one, merge the state back with an appended history entry, clone artifacts
forward when `new_version > 1`, emit a `new_version` event, and return the
new version.  Returns `none` (with no write) when reading the prior state
raises, i.e. when the stored state is a truthy non-dict. -/
def increment_suite_version (db : DB) (s : String) (description : String)
    (source_version : Option Int) (now : String) : Option Int × DB :=
  let raw := get_suite_agent_state db (some s)
  let priorKVs? : Option (List (String × Json)) :=
    match raw with
    | none => some []
    | some j =>
      if j.truthy then
        (match j with
         | .jobj kvs => some kvs
         | _ => none)
      else some []
  match priorKVs? with
  | none => (none, db)
  | some kvs =>
    let newVersion := priorIntOf kvs + 1
    let mergedState := Json.jobj (setKV kvs "latest_version" (.jnum newVersion))
    let hist := histOf kvs ++ [version_history_entry newVersion description now]
    let db1 := write_full_suite_state db (some s) mergedState (some newVersion) (some hist)
    let db2 :=
      if newVersion > 1 then
        let srcV :=
          match source_version with
          | some sv => sv
          | none => newVersion - 1
        (clone_current_artifacts_to_version db1 s srcV newVersion).getD db1
      else db1
    let db3 := write_event db2 (some s)
      (.jobj [("type", .jstr "new_version"), ("version", .jnum newVersion),
              ("description", .jstr description)])
    (some newVersion, db3)

/-- `restore_suite_version`: cut a new version cloned from `source_version`
and return `{new_version, restored_from}`; raise when the cut failed. -/
def restore_suite_version (db : DB) (s : String) (source_version : Int)
    (now : String) : Except String (Int × Int) × DB :=
  let description := "Restored from v" ++ intRepr source_version
  let (nv?, db1) := increment_suite_version db s description (some source_version) now
  match nv? with
  | none => (.error "Failed to create new version during restore", db1)
  | some nv =>
    let db2 := write_event db1 (some s)
      (.jobj [("type", .jstr "new_version"), ("version", .jnum nv),
              ("description", .jstr description)])
    (.ok (nv, source_version), db2)

/-- Replace the `_SUITE_REQUIREMENTS` cache entry for a suite. -/
def setCache (cache : List (String × List Json)) (s : String)
    (reqs : List Json) : List (String × List Json) :=
  match cache with
  | [] => [(s, reqs)]
  | (k, v) :: rest =>
      if k = s then (s, reqs) :: rest else (k, v) :: setCache rest s reqs

def lookupCache (cache : List (String × List Json)) (s : String) :
    Option (List Json) :=
  (cache.find? (fun p => p.1 = s)).map (fun p => p.2)

/-- `extract_and_store_requirements`, from the point where the completion
text has been run through `json.loads` (`llmOutput = none` models text that
does not parse).  On success it caches the list, cuts a version and
persists the requirements under it (best-effort). -/
def extract_and_store_requirements (db : DB) (s : String)
    (llmOutput : Option Json) (now : String) : Except String String × DB :=
  match llmOutput with
  | none => (.error "Invalid JSON from extractor", db)
  | some parsed =>
    let reqs? : Option (List Json) :=
      match parsed with
      | .jobj kvs =>
        (match lookupKV kvs "requirements" with
         | some (.jarr l) => some l
         | _ => none)
      | .jarr l => some l
      | _ => none
    match reqs? with
    | none => (.error "Invalid JSON from extractor: unexpected JSON shape", db)
    | some reqs =>
      let db0 := { db with cache := setCache db.cache s reqs }
      let (version_now, db1) :=
        increment_suite_version db0 s "Requirements extracted" none now
      let db2 := (write_requirements db1 (some s) reqs version_now true).getD db1
      (.ok "Requirements extracted successfully", db2)

/-! ## Test-case normalisation (generate_and_store_testcases_for_req) -/

/-- Flattening of a list-valued field (`preconditions`/`steps`) to a single
string; `None` and missing become `""`, other scalars go through `str`. -/
def normalizeListField (kvs : List (String × Json)) (k : String) :
    List (String × Json) :=
  match lookupKV kvs k with
  | some (.jarr xs) =>
      setKV kvs k (.jstr (String.intercalate "; " (xs.map Json.pyStr)))
  | some .null => setKV kvs k (.jstr "")
  | none => setKV kvs k (.jstr "")
  | some v => setKV kvs k (.jstr v.pyStr)

/-- Coercion of a scalar field (`id`/`title`/`type`/`expected`) to a string. -/
def normalizeScalarField (kvs : List (String × Json)) (k : String) :
    List (String × Json) :=
  match lookupKV kvs k with
  | none => setKV kvs k (.jstr "")
  | some .null => setKV kvs k (.jstr "")
  | some (.jstr _) => kvs
  | some v => setKV kvs k (.jstr v.pyStr)

/-- Normalisation of one case dict (non-dict entries become an `info` row). -/
def normalize_case (c : Json) : Json :=
  match c with
  | .jobj kvs =>
    let s1 := normalizeListField kvs "preconditions"
    let s2 := normalizeListField s1 "steps"
    let s3 := normalizeScalarField s2 "id"
    let s4 := normalizeScalarField s3 "title"
    let s5 := normalizeScalarField s4 "type"
    let s6 := normalizeScalarField s5 "expected"
    .jobj s6
  | _ => .jobj
      [("id", .jstr ""), ("type", .jstr "info"), ("title", .jstr c.pyStr),
       ("preconditions", .jstr ""), ("steps", .jstr c.pyStr),
       ("expected", .jstr "")]

def disamb_loop (used : List String) (base : String) : Nat → Nat → String
  | 0, k => base ++ "-" ++ natRepr k
  | fuel + 1, k =>
    let cand := base ++ "-" ++ natRepr k
    if cand ∈ used then disamb_loop used base fuel (k + 1) else cand

/-- The `while uniq_id in used_ids` loop: starting from `base`, append `-2`,
`-3`, ... until the id is unused.  Fuel `used.length + 1` always suffices. -/
def disambiguate (used : List String) (base : String) : String :=
  if base ∈ used then disamb_loop used base (used.length + 1) 2 else base

/-- Id chosen for the case at 1-based position `idx` given already-used ids:
trimmed existing id, or the `<req_code>-TC-<idx>` fallback when blank. -/
def unique_id_step (reqCode : String) (used : List String) (idx : Nat)
    (c : Json) : String :=
  let newId0 :=
    match c.getKey "id" with
    | some (.jstr s) => s.pyStrip
    | _ => ""
  let newId := if newId0 = "" then reqCode ++ "-TC-" ++ natRepr idx else newId0
  disambiguate used newId

def ensure_unique_ids_loop (reqCode : String) (used : List String) (idx : Nat) :
    List Json → List Json
  | [] => []
  | c :: cs =>
    let uniq := unique_id_step reqCode used idx c
    let c1 :=
      match c with
      | .jobj kvs => Json.jobj (setKV kvs "id" (.jstr uniq))
      | other => other
    c1 :: ensure_unique_ids_loop reqCode (used ++ [uniq]) (idx + 1) cs

/-- The unique-id pass over a normalised `cases` list (`enumerate(start=1)`
with a `used_ids` set). -/
def ensure_unique_ids (reqCode : String) (cases : List Json) : List Json :=
  ensure_unique_ids_loop reqCode [] 1 cases

/-- Normalisation of the whole test-cases object when it carries a `cases`
list: flatten fields, then make ids unique. -/
def normalize_testcases_obj (fallbackPrefix : String)
    (kvs : List (String × Json)) : List (String × Json) :=
  match lookupKV kvs "cases" with
  | some (.jarr cs) =>
      let normalized := cs.map normalize_case
      let withIds := ensure_unique_ids fallbackPrefix normalized
      setKV kvs "cases" (.jarr withIds)
  | _ => kvs

/-- Top-level string coercion of `requirement_id`/`source`/`requirement_text`. -/
def coerce_top_level_strings (kvs : List (String × Json)) :
    List (String × Json) :=
  let step := fun (acc : List (String × Json)) (k : String) =>
    match lookupKV acc k with
    | some (.jstr _) => acc
    | some v => setKV acc k (.jstr v.pyStr)
    | none => acc
  step (step (step kvs "requirement_id") "source") "requirement_text"

/-- The bulk worker's normalisation (`_worker` in the `req_id is None`
branch), including the `setdefault` calls. -/
def worker_normalize (rid src : Json) (kvs : List (String × Json)) : Json :=
  let o1 := normalize_testcases_obj rid.pyStr kvs
  let o2 := coerce_top_level_strings o1
  let o3 := setdefaultKV o2 "requirement_id" (.jstr rid.pyStr)
  let o4 := setdefaultKV o3 "source" (.jstr src.pyStr)
  .jobj o4

/-- The single-requirement path's normalisation of the parsed object. -/
def single_normalize (req_id : String) (kvs : List (String × Json)) : Json :=
  .jobj (coerce_top_level_strings (normalize_testcases_obj req_id kvs))

/-- `generate_and_store_testcases_for_req` with an explicit `req_id`, from
the point where the completion text has been run through `json.loads`. -/
def generate_and_store_testcases_single (db : DB) (s : String)
    (req_id : String) (llmOutput : Option Json) (now : String) :
    Except String String × DB :=
  let reqs := (lookupCache db.cache s).getD []
  match reqs.find? (fun r => r.getKey "id" = some (.jstr req_id)) with
  | none => (.error ("Requirement " ++ req_id ++ " not found."), db)
  | some _ =>
    match llmOutput with
    | none => (.error "Invalid JSON from testcase writer", db)
    | some (.jobj kvs) =>
      (match lookupKV kvs "requirement_id" with
       | none =>
          (.error "Invalid JSON from testcase writer: missing requirement_id", db)
       | some _ =>
          let tcObj := single_normalize req_id kvs
          let (version_now, db1) :=
            increment_suite_version db s "Generated test cases" none now
          let db2 := (write_testcases db1 (some s) req_id tcObj version_now true).getD db1
          (.ok "Test cases generated successfully", db2))
    | some _ => (.error "Invalid JSON from testcase writer", db)

/-- `max_workers = min(6, max(1, len(targets)))`. -/
def maxWorkersFor (n : Nat) : Nat := min 6 (max 1 n)

/-- The `{generated, failed, results, errors}` payload of the bulk path. -/
structure BulkResult where
  generated : Nat
  failed : Nat
  results : List Json
  errors : List Json
deriving DecidableEq, Repr

/-- The `targets` list of the bulk path:
`(r["id"], r.get("source", "unknown.txt"), r.get("text", ""))` for each
cached dict with a truthy id. -/
def bulk_targets (reqs : List Json) : List (Json × Json × Json) :=
  reqs.filterMap (fun r =>
    match r with
    | .jobj kvs =>
      (match lookupKV kvs "id" with
       | some idv =>
          if idv.truthy then
            some (idv, (lookupKV kvs "source").getD (.jstr "unknown.txt"),
                  (lookupKV kvs "text").getD (.jstr ""))
          else none
       | none => none)
    | _ => none)

/-- Outcome of one bulk `_worker` call: `some obj` when `json.loads` returns
a dict (then normalised), `none` when the worker raises. -/
def bulk_worker_outcome (gen : String → Option Json) (t : Json × Json × Json) :
    Option Json :=
  match gen t.1.pyStr with
  | some (.jobj kvs) => some (worker_normalize t.1 t.2.1 kvs)
  | _ => none

/-- Sequential model of the bounded fan-out: collect `results`/`errors`,
persisting every success under the shared `version_now`. -/
def bulk_loop (db : DB) (s : String) (gen : String → Option Json)
    (version_now : Option Int) :
    List (Json × Json × Json) → List Json × List Json × DB
  | [] => ([], [], db)
  | t :: ts =>
    match bulk_worker_outcome gen t with
    | some tcObj =>
      let db1 := (write_testcases db (some s) t.1.pyStr tcObj version_now true).getD db
      let (rs, es, db2) := bulk_loop db1 s gen version_now ts
      (Json.jobj [("req_id", t.1), ("status", .jstr "ok")] :: rs, es, db2)
    | none =>
      let (rs, es, db2) := bulk_loop db s gen version_now ts
      (rs,
       Json.jobj [("req_id", t.1),
                  ("error", .jstr "Invalid JSON from testcase writer")] :: es,
       db2)

/-- `generate_and_store_testcases_for_req` with `req_id=None`: one version
cut up front, then one generation per requirement (at most
`maxWorkersFor` concurrent workers, modelled sequentially); per-item
failures are collected, never aborting the batch. -/
def generate_and_store_testcases_bulk (db : DB) (s : String)
    (gen : String → Option Json) (now : String) :
    Except String BulkResult × DB :=
  let reqs := (lookupCache db.cache s).getD []
  let targets := bulk_targets reqs
  if targets = [] then
    (.error "No requirements available. Extract requirements first.", db)
  else
    let (version_now, db1) :=
      increment_suite_version db s "Generated test cases for all requirements" none now
    let (rs, es, db2) := bulk_loop db1 s gen version_now targets
    (.ok { generated := rs.length, failed := es.length, results := rs, errors := es },
     db2)

/-! ## edit_testcases_for_req, load phase -/

/-- Python `re.split` on whitespace with empty words dropped (written
structurally over the character list so it evaluates in `decide`). -/
def splitWordsGo : List Char → List Char → List String
  | [], acc => if acc = [] then [] else [⟨acc.reverse⟩]
  | c :: cs, acc =>
    if c = ' ' ∨ c = '\n' ∨ c = '\t' ∨ c = '\r' then
      (if acc = [] then [] else [⟨acc.reverse⟩]) ++ splitWordsGo cs []
    else splitWordsGo cs (c :: acc)

def splitWords (s : String) : List String := splitWordsGo s.data []

/-- Result of the edit flow's load phase. -/
inductive EditLoadResult where
  | noRequirements : EditLoadResult
  | loaded : Option Int → List TcRow → EditLoadResult
deriving DecidableEq, Repr

/-- `edit_testcases_for_req` up to the test-case fetch: validate the note,
bump the suite version FIRST (cloning the previous artifacts forward), then
load the suite's test cases at the just-incremented version. -/
def edit_testcases_load (db : DB) (s : String) (version_note : String)
    (now : String) : Except String EditLoadResult × DB :=
  let words := splitWords version_note.pyStrip
  if words = [] then (.error "version_note is required (3 words)", db)
  else
    let eff_note := String.intercalate " " (words.take 3)
    let (edit_suite_version, db1) := increment_suite_version db s eff_note none now
    let req_rows := db1.requirements.filter (fun r => r.suite_id = some s)
    if req_rows = [] then (.ok .noRequirements, db1)
    else
      let tc_rows := db1.test_cases.filter
        (fun r => r.suite_id = some s ∧ r.version = edit_suite_version)
      (.ok (.loaded edit_suite_version tc_rows), db1)

/-! ## Lemmas: suite-state writes -/

theorem find?_map_id_pres (l : List SuiteRow) (sid : String)
    (f : SuiteRow → SuiteRow) (hf : ∀ r, (f r).id = r.id) (row : SuiteRow)
    (h : l.find? (fun r => r.id = sid) = some row) :
    (l.map f).find? (fun r => r.id = sid) = some (f row) := by
  induction l with
  | nil => simp [List.find?] at h
  | cons a l ih =>
    rw [List.map_cons]
    by_cases hid : a.id = sid
    · rw [List.find?_cons_of_pos _ (by simp [hid])] at h
      cases h
      rw [List.find?_cons_of_pos _ (by simp [hf, hid])]
    · rw [List.find?_cons_of_neg _ (by simp [hid])] at h
      rw [List.find?_cons_of_neg _ (by simp [hf, hid])]
      exact ih h

theorem write_full_suite_state_suites (db : DB) (sid : String) (hsid : sid ≠ "")
    (row : SuiteRow) (kvs : List (String × Json))
    (hfind : db.test_suites.find? (fun r => r.id = sid) = some row)
    (hstate : row.state = .jobj kvs)
    (agent_state : Json) (lv : Option Int) (vh : Option (List Json)) :
    (write_full_suite_state db (some sid) agent_state lv vh).test_suites.find?
        (fun r => r.id = sid) =
      some { row with state := .jobj (wfssKVs kvs agent_state lv vh) } := by
  have hid : row.id = sid := by
    have := List.find?_some hfind
    simpa using this
  simp only [write_full_suite_state, hsid, if_neg, ite_false]
  rw [hfind]
  simp only [Option.map_some', hstate]
  have := find?_map_id_pres db.test_suites sid
    (fun r => if r.id = sid then { r with state := .jobj (wfssKVs kvs agent_state lv vh) } else r)
    (by intro r; by_cases h : r.id = sid <;> simp [h]) row hfind
  rw [this]
  simp [hid]

theorem write_full_suite_state_frame (db : DB) (suite_id : Option String)
    (agent_state : Json) (lv : Option Int) (vh : Option (List Json)) :
    (write_full_suite_state db suite_id agent_state lv vh).requirements =
        db.requirements ∧
      (write_full_suite_state db suite_id agent_state lv vh).test_cases =
        db.test_cases ∧
      (write_full_suite_state db suite_id agent_state lv vh).test_designs =
        db.test_designs ∧
      (write_full_suite_state db suite_id agent_state lv vh).viewpoints =
        db.viewpoints ∧
      (write_full_suite_state db suite_id agent_state lv vh).team_events =
        db.team_events ∧
      (write_full_suite_state db suite_id agent_state lv vh).cache = db.cache ∧
      (write_full_suite_state db suite_id agent_state lv vh).nextId = db.nextId := by
  cases suite_id with
  | none => simp [write_full_suite_state]
  | some sid =>
    by_cases h : sid = "" <;> simp [write_full_suite_state, h]

theorem lookupKV_wfssKVs_other (kvs : List (String × Json)) (agent_state : Json)
    (lv : Option Int) (vh : Option (List Json)) (k : String)
    (hk1 : k ≠ "agent_state") (hk2 : k ≠ "latest_version")
    (hk3 : k ≠ "version_history") :
    lookupKV (wfssKVs kvs agent_state lv vh) k = lookupKV kvs k := by
  unfold wfssKVs
  cases lv <;> cases vh <;>
    simp [lookupKV_setKV_other _ _ _ _ hk1, lookupKV_setKV_other _ _ _ _ hk2,
          lookupKV_setKV_other _ _ _ _ hk3]

theorem write_suite_state_suites (db : DB) (sid : String) (hsid : sid ≠ "")
    (row : SuiteRow) (kvs : List (String × Json))
    (hfind : db.test_suites.find? (fun r => r.id = sid) = some row)
    (hstate : row.state = .jobj kvs) (st : Json) :
    (write_suite_state db (some sid) st).test_suites.find?
        (fun r => r.id = sid) =
      some { row with state := .jobj (setKV kvs "agent_state" st) } := by
  have hid : row.id = sid := by
    have := List.find?_some hfind
    simpa using this
  simp only [write_suite_state, hsid, if_neg, ite_false]
  rw [hfind]
  simp only [Option.map_some', hstate]
  have := find?_map_id_pres db.test_suites sid
    (fun r => if r.id = sid then { r with state := .jobj (setKV kvs "agent_state" st) } else r)
    (by intro r; by_cases h : r.id = sid <;> simp [h]) row hfind
  rw [this]
  simp [hid]

/-- C10.  Writing the suite state back — through the agent helper
`_write_full_suite_state` (with or without a `latest_version` /
`version_history` argument) or through
`SupabaseResultsWriter.write_suite_state` — merges into the existing state
dict: every key other than `agent_state`, `latest_version` and
`version_history` keeps exactly its prior value. -/
theorem claim_C10_state_write_preserves_other_keys
    (db : DB) (sid : String) (hsid : sid ≠ "")
    (row : SuiteRow) (kvs : List (String × Json))
    (hfind : db.test_suites.find? (fun r => r.id = sid) = some row)
    (hstate : row.state = .jobj kvs)
    (k : String) (hk1 : k ≠ "agent_state") (hk2 : k ≠ "latest_version")
    (hk3 : k ≠ "version_history")
    (agent_state st : Json) (lv : Option Int) (vh : Option (List Json)) :
    (∃ kvs1,
      (write_full_suite_state db (some sid) agent_state lv vh).test_suites.find?
          (fun r => r.id = sid) = some { row with state := .jobj kvs1 } ∧
      lookupKV kvs1 k = lookupKV kvs k) ∧
    (∃ kvs2,
      (write_suite_state db (some sid) st).test_suites.find?
          (fun r => r.id = sid) = some { row with state := .jobj kvs2 } ∧
      lookupKV kvs2 k = lookupKV kvs k) := by
  constructor
  · exact ⟨wfssKVs kvs agent_state lv vh,
      write_full_suite_state_suites db sid hsid row kvs hfind hstate agent_state lv vh,
      lookupKV_wfssKVs_other kvs agent_state lv vh k hk1 hk2 hk3⟩
  · exact ⟨setKV kvs "agent_state" st,
      write_suite_state_suites db sid hsid row kvs hfind hstate st,
      lookupKV_setKV_other kvs "agent_state" k st hk1⟩

/-- Witness for C10 at a concrete database: a suite whose state holds an
extra key `custom_flag`, preserved by both write operations. -/
theorem claim_C10_state_write_preserves_other_keys_witness :
    ∃ kvs1 kvs2,
      ((write_full_suite_state
          { requirements := [], test_cases := [], test_designs := [],
            viewpoints := [], test_suites :=
              [{ id := "s1", state := .jobj [("custom_flag", .jbool true),
                   ("latest_version", .jnum 2)] }],
            team_events := [], cache := [], nextId := 0 }
          (some "s1") (.jobj []) (some 3) (some [])).test_suites.find?
          (fun r => r.id = "s1") =
        some { id := "s1", state := .jobj kvs1 } ∧
       lookupKV kvs1 "custom_flag" = some (.jbool true)) ∧
      ((write_suite_state
          { requirements := [], test_cases := [], test_designs := [],
            viewpoints := [], test_suites :=
              [{ id := "s1", state := .jobj [("custom_flag", .jbool true),
                   ("latest_version", .jnum 2)] }],
            team_events := [], cache := [], nextId := 0 }
          (some "s1") (.jobj [])).test_suites.find? (fun r => r.id = "s1") =
        some { id := "s1", state := .jobj kvs2 } ∧
       lookupKV kvs2 "custom_flag" = some (.jbool true)) := by
  obtain ⟨⟨kvs1, h1, h1k⟩, ⟨kvs2, h2, h2k⟩⟩ :=
    claim_C10_state_write_preserves_other_keys
      { requirements := [], test_cases := [], test_designs := [],
        viewpoints := [], test_suites :=
          [{ id := "s1", state := .jobj [("custom_flag", .jbool true),
               ("latest_version", .jnum 2)] }],
        team_events := [], cache := [], nextId := 0 }
      "s1" (by decide)
      { id := "s1", state := .jobj [("custom_flag", .jbool true),
          ("latest_version", .jnum 2)] }
      [("custom_flag", .jbool true), ("latest_version", .jnum 2)]
      (by decide) rfl "custom_flag" (by decide) (by decide) (by decide)
      (.jobj []) (.jobj []) (some 3) (some [])
  exact ⟨kvs1, kvs2, ⟨h1, by rw [h1k]; decide⟩, ⟨h2, by rw [h2k]; decide⟩⟩

/-! ## Lemmas: single-active invariant (C4) -/

/-- No two rows of `l` are both active with the same key. -/
def PairKeyOK {α β : Type} (key : α → β) (act : α → Bool) (l : List α) : Prop :=
  l.Pairwise (fun a b => ¬(act a = true ∧ act b = true ∧ key a = key b))

theorem pairKeyOK_map {α β : Type} (key : α → β) (act : α → Bool) (f : α → α)
    (hkey : ∀ a, key (f a) = key a)
    (hact : ∀ a, act (f a) = true → act a = true)
    {l : List α} (h : PairKeyOK key act l) : PairKeyOK key act (l.map f) := by
  unfold PairKeyOK at h ⊢
  rw [List.pairwise_map]
  refine h.imp ?_
  intro a b hr hc
  exact hr ⟨hact a hc.1, hact b hc.2.1, by rw [← hkey a, ← hkey b]; exact hc.2.2⟩

theorem pairKeyOK_append_one {α β : Type} (key : α → β) (act : α → Bool)
    {l : List α} (b : α) (h : PairKeyOK key act l)
    (hb : ∀ a ∈ l, act a = true → act b = true → key a ≠ key b) :
    PairKeyOK key act (l ++ [b]) := by
  unfold PairKeyOK at h ⊢
  rw [List.pairwise_append]
  refine ⟨h, List.pairwise_singleton _ _, ?_⟩
  intro a ha b' hb'
  simp only [List.mem_singleton] at hb'
  subst hb'
  intro hc
  exact hb a ha hc.1 hc.2.1 hc.2.2

/-- Natural key of a requirement row: `(suite_id, req_code)`. -/
def reqKey (r : ReqRow) : Option String × String := (r.suite_id, r.req_code)

/-- Natural key of a test-case row: `(suite_id, requirement_id)`. -/
def tcKey (t : TcRow) : Option String × Option Nat := (t.suite_id, t.requirement_id)

/-- Natural key of a test-design row: `(suite_id, testing_type)`. -/
def tdKey (t : TdRow) : Option String × String := (t.suite_id, t.testing_type)

/-- Natural key of a viewpoint row: `(suite_id, requirement_id, name)`. -/
def vpKey (v : VpRow) : Option String × Option Nat × String :=
  (v.suite_id, v.requirement_id, v.name)

/-- The single-active invariant over all four artifact tables. -/
def SingleActive (db : DB) : Prop :=
  PairKeyOK reqKey ReqRow.active db.requirements ∧
  PairKeyOK tcKey TcRow.active db.test_cases ∧
  PairKeyOK tdKey TdRow.active db.test_designs ∧
  PairKeyOK vpKey VpRow.active db.viewpoints

theorem deactivate_requirements_spec (db : DB) (sid : Option String)
    (code : String) (h : PairKeyOK reqKey ReqRow.active db.requirements) :
    PairKeyOK reqKey ReqRow.active (deactivate_requirements db sid code).requirements ∧
    ∀ r ∈ (deactivate_requirements db sid code).requirements,
      r.active = true → ¬(r.suite_id = sid ∧ r.req_code = code) := by
  constructor
  · refine pairKeyOK_map reqKey ReqRow.active _ ?_ ?_ h
    · intro a
      by_cases hc : a.suite_id = sid ∧ a.req_code = code ∧ a.active = true <;>
        simp [reqKey, hc]
    · intro a
      by_cases hc : a.suite_id = sid ∧ a.req_code = code ∧ a.active = true <;>
        simp [hc]
  · intro r hr hact
    simp only [deactivate_requirements, List.mem_map] at hr
    obtain ⟨q, _, hq⟩ := hr
    by_cases hc : q.suite_id = sid ∧ q.req_code = code ∧ q.active = true
    · rw [if_pos hc] at hq
      subst hq
      simp at hact
    · rw [if_neg hc] at hq
      subst hq
      intro hk
      exact hc ⟨hk.1, hk.2, hact⟩

theorem deactivate_test_cases_spec (db : DB) (rid : Nat)
    (h : PairKeyOK tcKey TcRow.active db.test_cases) :
    PairKeyOK tcKey TcRow.active (deactivate_test_cases db rid).test_cases ∧
    ∀ t ∈ (deactivate_test_cases db rid).test_cases,
      t.active = true → t.requirement_id ≠ some rid := by
  constructor
  · refine pairKeyOK_map tcKey TcRow.active _ ?_ ?_ h
    · intro a
      by_cases hc : a.requirement_id = some rid ∧ a.active = true <;>
        simp [tcKey, hc]
    · intro a
      by_cases hc : a.requirement_id = some rid ∧ a.active = true <;> simp [hc]
  · intro t ht hact
    simp only [deactivate_test_cases, List.mem_map] at ht
    obtain ⟨q, _, hq⟩ := ht
    by_cases hc : q.requirement_id = some rid ∧ q.active = true
    · rw [if_pos hc] at hq
      subst hq
      simp at hact
    · rw [if_neg hc] at hq
      subst hq
      intro hk
      exact hc ⟨hk, hact⟩

theorem deactivate_test_designs_spec (db : DB) (sid : Option String)
    (tt : String) (h : PairKeyOK tdKey TdRow.active db.test_designs) :
    PairKeyOK tdKey TdRow.active (deactivate_test_designs db sid tt).test_designs ∧
    ∀ t ∈ (deactivate_test_designs db sid tt).test_designs,
      t.active = true → ¬(t.suite_id = sid ∧ t.testing_type = tt) := by
  constructor
  · refine pairKeyOK_map tdKey TdRow.active _ ?_ ?_ h
    · intro a
      by_cases hc : a.suite_id = sid ∧ a.testing_type = tt ∧ a.active = true <;>
        simp [tdKey, hc]
    · intro a
      by_cases hc : a.suite_id = sid ∧ a.testing_type = tt ∧ a.active = true <;>
        simp [hc]
  · intro t ht hact
    simp only [deactivate_test_designs, List.mem_map] at ht
    obtain ⟨q, _, hq⟩ := ht
    by_cases hc : q.suite_id = sid ∧ q.testing_type = tt ∧ q.active = true
    · rw [if_pos hc] at hq
      subst hq
      simp at hact
    · rw [if_neg hc] at hq
      subst hq
      intro hk
      exact hc ⟨hk.1, hk.2, hact⟩

theorem deactivate_viewpoints_spec (db : DB) (sid : Option String)
    (rid : Option Nat) (nm : String)
    (h : PairKeyOK vpKey VpRow.active db.viewpoints) :
    PairKeyOK vpKey VpRow.active (deactivate_viewpoints db sid rid nm).viewpoints ∧
    ∀ v ∈ (deactivate_viewpoints db sid rid nm).viewpoints,
      v.active = true → ¬(v.suite_id = sid ∧ v.requirement_id = rid ∧ v.name = nm) := by
  constructor
  · refine pairKeyOK_map vpKey VpRow.active _ ?_ ?_ h
    · intro a
      by_cases hc : a.suite_id = sid ∧ a.requirement_id = rid ∧ a.name = nm ∧
          a.active = true <;> simp [vpKey, hc]
    · intro a
      by_cases hc : a.suite_id = sid ∧ a.requirement_id = rid ∧ a.name = nm ∧
          a.active = true <;> simp [hc]
  · intro v hv hact
    simp only [deactivate_viewpoints, List.mem_map] at hv
    obtain ⟨q, _, hq⟩ := hv
    by_cases hc : q.suite_id = sid ∧ q.requirement_id = rid ∧ q.name = nm ∧
        q.active = true
    · rw [if_pos hc] at hq
      subst hq
      simp at hact
    · rw [if_neg hc] at hq
      subst hq
      intro hk
      exact hc ⟨hk.1, hk.2.1, hk.2.2, hact⟩

theorem write_requirements_loop_single_active (sid : Option String)
    (v : Option Int) (a : Bool) :
    ∀ (ps : List (Json × String × String)) (db : DB), SingleActive db →
      SingleActive (write_requirements_loop db sid v a ps)
  | [], _, h => h
  | (content, code, sd) :: ps, db, h => by
    obtain ⟨h1, h2, h3, h4⟩ := h
    obtain ⟨hp, hkill⟩ := deactivate_requirements_spec db sid code h1
    refine write_requirements_loop_single_active sid v a ps _ ⟨?_, ?_, ?_, ?_⟩
    · simp only [insertReq]
      refine pairKeyOK_append_one _ _ _ hp ?_
      intro x hx hxact hbact hkeq
      refine hkill x hx hxact ?_
      simp only [reqKey, Prod.mk.injEq] at hkeq
      exact ⟨hkeq.1, hkeq.2⟩
    · simpa [insertReq, deactivate_requirements] using h2
    · simpa [insertReq, deactivate_requirements] using h3
    · simpa [insertReq, deactivate_requirements] using h4

theorem write_requirements_single_active (db : DB) (sid : Option String)
    (reqs : List Json) (v : Option Int) (a : Bool) (db' : DB)
    (h : SingleActive db) (hw : write_requirements db sid reqs v a = some db') :
    SingleActive db' := by
  unfold write_requirements at hw
  by_cases hall : reqs.all Json.isObj
  · rw [if_pos hall] at hw
    injection hw with hw
    rw [← hw]
    exact write_requirements_loop_single_active sid v a _ db h
  · rw [if_neg hall] at hw
    cases hw

theorem wtc_insert_single_active (db : DB) (sid : Option String) (rid : Nat)
    (tc : Json) (v : Option Int) (a : Bool) (h : SingleActive db) :
    SingleActive (insertTc (deactivate_test_cases db rid)
      { rowId := 0, requirement_id := some rid, suite_id := sid,
        content := tc, version := v, active := a }) := by
  obtain ⟨h1, h2, h3, h4⟩ := h
  obtain ⟨hp, hkill⟩ := deactivate_test_cases_spec db rid h2
  refine ⟨?_, ?_, ?_, ?_⟩
  · simpa [insertTc, deactivate_test_cases] using h1
  · simp only [insertTc]
    refine pairKeyOK_append_one _ _ _ hp ?_
    intro x hx hxact hbact hkeq
    refine hkill x hx hxact ?_
    simp only [tcKey, Prod.mk.injEq] at hkeq
    exact hkeq.2
  · simpa [insertTc, deactivate_test_cases] using h3
  · simpa [insertTc, deactivate_test_cases] using h4

theorem insertReq_new_code_single_active (db : DB) (sid : Option String)
    (code : String) (r : ReqRow)
    (hrow : r.suite_id = sid ∧ r.req_code = code)
    (hnone : get_requirement_row_id db sid code = none)
    (h : SingleActive db) : SingleActive (insertReq db r) := by
  obtain ⟨h1, h2, h3, h4⟩ := h
  have hno : ∀ x ∈ db.requirements, ¬(x.req_code = code ∧ x.suite_id = sid) := by
    intro x hx hc
    have := List.find?_eq_none.mp (by
      unfold get_requirement_row_id at hnone
      cases hf : db.requirements.find? (fun q => q.req_code = code ∧ q.suite_id = sid) with
      | none => rfl
      | some q => rw [hf] at hnone; simp at hnone) x hx
    simp only [decide_eq_true_eq] at this
    exact this hc
  refine ⟨?_, h2, h3, h4⟩
  simp only [insertReq]
  refine pairKeyOK_append_one _ _ _ h1 ?_
  intro x hx hxact hbact hkeq
  simp only [reqKey, Prod.mk.injEq] at hkeq
  exact hno x hx ⟨hkeq.2.trans hrow.2, hkeq.1.trans hrow.1⟩

theorem write_testcases_single_active (db : DB) (sid : Option String)
    (code : String) (tc : Json) (v : Option Int) (a : Bool) (db' : DB)
    (h : SingleActive db) (hw : write_testcases db sid code tc v a = some db') :
    SingleActive db' := by
  unfold write_testcases at hw
  cases hfind : get_requirement_row_id db sid code with
  | some rid =>
    rw [hfind] at hw
    simp only [Option.some.injEq] at hw
    rw [← hw]
    exact wtc_insert_single_active db sid rid tc v a h
  | none =>
    rw [hfind] at hw
    cases tc with
    | jobj kvs =>
      simp only at hw
      have hdb1 : SingleActive (insertReq db
          (minimal_requirement_row sid code kvs v a)) :=
        insertReq_new_code_single_active db sid code _ ⟨rfl, rfl⟩ hfind h
      cases hfind2 : get_requirement_row_id
          (insertReq db (minimal_requirement_row sid code kvs v a)) sid code with
      | none =>
        rw [hfind2] at hw
        simp only [Option.some.injEq] at hw
        rw [← hw]
        exact hdb1
      | some rid2 =>
        rw [hfind2] at hw
        simp only [Option.some.injEq] at hw
        rw [← hw]
        exact wtc_insert_single_active _ sid rid2 (.jobj kvs) v a hdb1
    | null => simp at hw
    | jbool b => simp at hw
    | jnum n => simp at hw
    | jstr s => simp at hw
    | jarr xs => simp at hw

theorem write_testcases_bulk_loop_single_active (sid : Option String)
    (v : Option Int) (a : Bool) :
    ∀ (rows : List TcBulkRow) (db : DB), SingleActive db →
      SingleActive (write_testcases_bulk_loop db sid v a rows)
  | [], _, h => h
  | row :: rest, db, h => by
    refine write_testcases_bulk_loop_single_active sid v a rest _ ?_
    by_cases hcode : row.req_code.pyStrip = ""
    · simpa [hcode] using h
    · simp only [hcode, ite_false, if_neg]
      cases hw : write_testcases db sid row.req_code.pyStrip
          (if row.testcases.truthy = true then row.testcases else .jobj [])
          (match row.version with | some vv => some vv | none => v) a with
      | none => simpa [hw] using h
      | some db' =>
        simpa using write_testcases_single_active db sid _ _ _ a db' h hw

theorem write_testcases_bulk_single_active (db : DB) (sid : Option String)
    (rows : List TcBulkRow) (v : Option Int) (a : Bool) (h : SingleActive db) :
    SingleActive (write_testcases_bulk db sid rows v a) := by
  unfold write_testcases_bulk
  by_cases hrows : rows = []
  · simpa [hrows] using h
  · rw [if_neg hrows]
    exact write_testcases_bulk_loop_single_active sid v a rows db h

theorem write_test_design_single_active (db : DB) (sid : Option String)
    (content : Json) (tt : String) (v : Option Int) (a : Bool)
    (h : SingleActive db) :
    SingleActive (write_test_design db sid content tt v a).2 := by
  obtain ⟨h1, h2, h3, h4⟩ := h
  obtain ⟨hp, hkill⟩ := deactivate_test_designs_spec db sid tt h3
  refine ⟨?_, ?_, ?_, ?_⟩
  · simpa [write_test_design, insertTd, deactivate_test_designs] using h1
  · simpa [write_test_design, insertTd, deactivate_test_designs] using h2
  · simp only [write_test_design, insertTd]
    refine pairKeyOK_append_one _ _ _ hp ?_
    intro x hx hxact hbact hkeq
    refine hkill x hx hxact ?_
    simp only [tdKey, Prod.mk.injEq] at hkeq
    exact ⟨hkeq.1, hkeq.2⟩
  · simpa [write_test_design, insertTd, deactivate_test_designs] using h4

theorem write_test_design_bulk_loop_single_active (sid : Option String)
    (v : Option Int) (a : Bool) :
    ∀ (items : List TdBulkItem) (db : DB), SingleActive db →
      SingleActive (write_test_design_bulk_loop db sid v a items).2
  | [], _, h => h
  | it :: rest, db, h => by
    simp only [write_test_design_bulk_loop]
    exact write_test_design_bulk_loop_single_active sid v a rest _
      (write_test_design_single_active db sid _ _ _ a h)

theorem write_test_design_bulk_single_active (db : DB) (sid : Option String)
    (items : List TdBulkItem) (v : Option Int) (a : Bool) (h : SingleActive db) :
    SingleActive (write_test_design_bulk db sid items v a).2 := by
  unfold write_test_design_bulk
  by_cases hit : items = []
  · simpa [hit] using h
  · rw [if_neg hit]
    exact write_test_design_bulk_loop_single_active sid v a items db h

theorem vp_insert_single_active (db : DB) (sid : Option String)
    (ridl : Option Nat) (tdid : Option Nat) (nm : String) (content : Json)
    (v : Option Int) (a : Bool) (h : SingleActive db) :
    SingleActive (insertVp (deactivate_viewpoints db sid ridl nm)
      { rowId := 0, suite_id := sid, test_design_id := tdid,
        requirement_id := ridl, name := nm, content := content,
        version := v, active := a }) := by
  obtain ⟨h1, h2, h3, h4⟩ := h
  obtain ⟨hp, hkill⟩ := deactivate_viewpoints_spec db sid ridl nm h4
  refine ⟨?_, ?_, ?_, ?_⟩
  · simpa [insertVp, deactivate_viewpoints] using h1
  · simpa [insertVp, deactivate_viewpoints] using h2
  · simpa [insertVp, deactivate_viewpoints] using h3
  · simp only [insertVp]
    refine pairKeyOK_append_one _ _ _ hp ?_
    intro x hx hxact hbact hkeq
    refine hkill x hx hxact ?_
    simp only [vpKey, Prod.mk.injEq] at hkeq
    exact ⟨hkeq.1, hkeq.2.1, hkeq.2.2⟩

theorem write_viewpoints_loop_single_active (sid : Option String)
    (rid : Option Nat) (tdid : Option Nat) (v : Option Int) (a : Bool) :
    ∀ (items : List (List (String × Json))) (db : DB), SingleActive db →
      SingleActive (write_viewpoints_loop db sid rid tdid v a items).2
  | [], _, h => h
  | ikvs :: rest, db, h => by
    simp only [write_viewpoints_loop]
    exact write_viewpoints_loop_single_active sid rid tdid v a rest _
      (vp_insert_single_active db sid _ tdid _ _ v a h)

theorem write_viewpoints_single_active (db : DB) (sid : Option String)
    (rid : Option Nat) (content : Json) (tdid : Option Nat) (v : Option Int)
    (a : Bool) (h : SingleActive db) :
    SingleActive (write_viewpoints db sid rid content tdid v a).2 :=
  write_viewpoints_loop_single_active sid rid tdid v a _ db h

theorem write_viewpoints_bulk_loop_single_active (sid : Option String)
    (v : Option Int) (a : Bool) :
    ∀ (items : List VpBulkItem) (db : DB), SingleActive db →
      SingleActive (write_viewpoints_bulk_loop db sid v a items).2
  | [], _, h => h
  | it :: rest, db, h => by
    simp only [write_viewpoints_bulk_loop]
    exact write_viewpoints_bulk_loop_single_active sid v a rest _
      (write_viewpoints_single_active db sid _ _ _ _ a h)

theorem write_viewpoints_bulk_single_active (db : DB) (sid : Option String)
    (items : List VpBulkItem) (v : Option Int) (a : Bool) (h : SingleActive db) :
    SingleActive (write_viewpoints_bulk db sid items v a).2 := by
  unfold write_viewpoints_bulk
  by_cases hit : items = []
  · simpa [hit] using h
  · rw [if_neg hit]
    exact write_viewpoints_bulk_loop_single_active sid v a items db h

/-- C4.  Single-active invariant: each write operation of the results
writer first deactivates the prior active rows sharing the natural key —
`(suite_id, req_code)` for requirements, `(suite_id, requirement_id)` for
test cases, `(suite_id, testing_type)` for test designs,
`(suite_id, requirement_id, name)` for viewpoints — and only then inserts
the new row, so a database in which at most one active row exists per
natural key still satisfies that invariant after any of the write
operations. -/
theorem claim_C4_single_active_invariant (db : DB) (h : SingleActive db) :
    (∀ sid reqs v a db', write_requirements db sid reqs v a = some db' →
        SingleActive db') ∧
    (∀ sid code tc v a db', write_testcases db sid code tc v a = some db' →
        SingleActive db') ∧
    (∀ sid rows v a, SingleActive (write_testcases_bulk db sid rows v a)) ∧
    (∀ sid c tt v a, SingleActive (write_test_design db sid c tt v a).2) ∧
    (∀ sid items v a, SingleActive (write_test_design_bulk db sid items v a).2) ∧
    (∀ sid rid c tdid v a, SingleActive (write_viewpoints db sid rid c tdid v a).2) ∧
    (∀ sid items v a, SingleActive (write_viewpoints_bulk db sid items v a).2) :=
  ⟨fun sid reqs v a db' hw => write_requirements_single_active db sid reqs v a db' h hw,
   fun sid code tc v a db' hw => write_testcases_single_active db sid code tc v a db' h hw,
   fun sid rows v a => write_testcases_bulk_single_active db sid rows v a h,
   fun sid c tt v a => write_test_design_single_active db sid c tt v a h,
   fun sid items v a => write_test_design_bulk_single_active db sid items v a h,
   fun sid rid c tdid v a => write_viewpoints_single_active db sid rid c tdid v a h,
   fun sid items v a => write_viewpoints_bulk_single_active db sid items v a h⟩

/-- A one-row database used as the C4 witness input. -/
def c4WitnessDB : DB :=
  ⟨[⟨0, some "s1", "REQ-1", "", .jobj [("id", .jstr "REQ-1")], some 1, true⟩],
   [], [], [], [], [], [], 1⟩

/-- Witness for C4: a database holding one active row per key satisfies the
invariant, and a concrete `write_requirements` call that overwrites the
same `req_code` keeps it. -/
theorem claim_C4_single_active_invariant_witness :
    ∃ db', write_requirements c4WitnessDB (some "s1")
        [.jobj [("id", .jstr "REQ-1")]] (some 2) true = some db' ∧
      SingleActive db' := by
  have h0 : SingleActive c4WitnessDB := by
    refine ⟨?_, ?_, ?_, ?_⟩ <;> simp [c4WitnessDB, PairKeyOK]
  cases hw : write_requirements c4WitnessDB (some "s1")
      [.jobj [("id", .jstr "REQ-1")]] (some 2) true with
  | none => exact absurd hw (by decide)
  | some db' =>
    exact ⟨db', rfl, (claim_C4_single_active_invariant c4WitnessDB h0).1
      (some "s1") [.jobj [("id", .jstr "REQ-1")]] (some 2) true db' hw⟩

/-! ## Frame lemmas: which tables each writer touches -/

theorem write_requirements_loop_frame (sid : Option String) (v : Option Int)
    (a : Bool) : ∀ (ps : List (Json × String × String)) (db : DB),
    (write_requirements_loop db sid v a ps).test_cases = db.test_cases ∧
    (write_requirements_loop db sid v a ps).test_designs = db.test_designs ∧
    (write_requirements_loop db sid v a ps).viewpoints = db.viewpoints ∧
    (write_requirements_loop db sid v a ps).test_suites = db.test_suites ∧
    (write_requirements_loop db sid v a ps).team_events = db.team_events ∧
    (write_requirements_loop db sid v a ps).cache = db.cache
  | [], db => ⟨rfl, rfl, rfl, rfl, rfl, rfl⟩
  | (c, code, sd) :: ps, db => by
    have ih := write_requirements_loop_frame sid v a ps
      (insertReq (deactivate_requirements db sid code)
        { rowId := 0, suite_id := sid, req_code := code, source_doc := sd,
          content := c, version := v, active := a })
    simpa [write_requirements_loop, insertReq, deactivate_requirements] using ih

theorem write_requirements_frame (db : DB) (sid : Option String)
    (reqs : List Json) (v : Option Int) (a : Bool) (db' : DB)
    (hw : write_requirements db sid reqs v a = some db') :
    db'.test_cases = db.test_cases ∧ db'.test_designs = db.test_designs ∧
    db'.viewpoints = db.viewpoints ∧ db'.test_suites = db.test_suites ∧
    db'.team_events = db.team_events ∧ db'.cache = db.cache := by
  unfold write_requirements at hw
  by_cases hall : reqs.all Json.isObj
  · rw [if_pos hall] at hw
    injection hw with hw
    rw [← hw]
    exact write_requirements_loop_frame sid v a _ db
  · rw [if_neg hall] at hw
    cases hw

theorem write_testcases_frame (db : DB) (sid : Option String) (code : String)
    (tc : Json) (v : Option Int) (a : Bool) (db' : DB)
    (hw : write_testcases db sid code tc v a = some db') :
    db'.test_designs = db.test_designs ∧ db'.viewpoints = db.viewpoints ∧
    db'.test_suites = db.test_suites ∧ db'.team_events = db.team_events ∧
    db'.cache = db.cache := by
  unfold write_testcases at hw
  cases hfind : get_requirement_row_id db sid code with
  | some rid =>
    rw [hfind] at hw
    simp only [Option.some.injEq] at hw
    rw [← hw]
    simp [insertTc, deactivate_test_cases]
  | none =>
    rw [hfind] at hw
    cases tc with
    | jobj kvs =>
      simp only at hw
      cases hfind2 : get_requirement_row_id
          (insertReq db (minimal_requirement_row sid code kvs v a)) sid code with
      | none =>
        rw [hfind2] at hw
        simp only [Option.some.injEq] at hw
        rw [← hw]
        simp [insertReq]
      | some rid2 =>
        rw [hfind2] at hw
        simp only [Option.some.injEq] at hw
        rw [← hw]
        simp [insertTc, insertReq, deactivate_test_cases]
    | null => simp at hw
    | jbool b => simp at hw
    | jnum n => simp at hw
    | jstr s => simp at hw
    | jarr xs => simp at hw

theorem write_testcases_bulk_loop_frame (sid : Option String) (v : Option Int)
    (a : Bool) : ∀ (rows : List TcBulkRow) (db : DB),
    (write_testcases_bulk_loop db sid v a rows).test_designs = db.test_designs ∧
    (write_testcases_bulk_loop db sid v a rows).viewpoints = db.viewpoints ∧
    (write_testcases_bulk_loop db sid v a rows).test_suites = db.test_suites ∧
    (write_testcases_bulk_loop db sid v a rows).team_events = db.team_events ∧
    (write_testcases_bulk_loop db sid v a rows).cache = db.cache
  | [], db => ⟨rfl, rfl, rfl, rfl, rfl⟩
  | row :: rest, db => by
    simp only [write_testcases_bulk_loop]
    by_cases hcode : row.req_code.pyStrip = ""
    · simpa [hcode] using write_testcases_bulk_loop_frame sid v a rest db
    · rw [if_neg hcode]
      cases hw : write_testcases db sid row.req_code.pyStrip
          (if row.testcases.truthy = true then row.testcases else .jobj [])
          (match row.version with | some vv => some vv | none => v) a with
      | none =>
        simpa [hw] using write_testcases_bulk_loop_frame sid v a rest db
      | some db1 =>
        have hfr := write_testcases_frame db sid _ _ _ a db1 hw
        have ih := write_testcases_bulk_loop_frame sid v a rest db1
        simp only [Option.getD_some]
        exact ⟨ih.1.trans hfr.1, ih.2.1.trans hfr.2.1, ih.2.2.1.trans hfr.2.2.1,
          ih.2.2.2.1.trans hfr.2.2.2.1, ih.2.2.2.2.trans hfr.2.2.2.2⟩

theorem write_testcases_bulk_frame (db : DB) (sid : Option String)
    (rows : List TcBulkRow) (v : Option Int) (a : Bool) :
    (write_testcases_bulk db sid rows v a).test_designs = db.test_designs ∧
    (write_testcases_bulk db sid rows v a).viewpoints = db.viewpoints ∧
    (write_testcases_bulk db sid rows v a).test_suites = db.test_suites ∧
    (write_testcases_bulk db sid rows v a).team_events = db.team_events ∧
    (write_testcases_bulk db sid rows v a).cache = db.cache := by
  unfold write_testcases_bulk
  by_cases hrows : rows = []
  · simp [hrows]
  · rw [if_neg hrows]
    exact write_testcases_bulk_loop_frame sid v a rows db

theorem write_test_design_frame (db : DB) (sid : Option String)
    (content : Json) (tt : String) (v : Option Int) (a : Bool) :
    (write_test_design db sid content tt v a).2.requirements = db.requirements ∧
    (write_test_design db sid content tt v a).2.test_cases = db.test_cases ∧
    (write_test_design db sid content tt v a).2.viewpoints = db.viewpoints ∧
    (write_test_design db sid content tt v a).2.test_suites = db.test_suites ∧
    (write_test_design db sid content tt v a).2.team_events = db.team_events ∧
    (write_test_design db sid content tt v a).2.cache = db.cache := by
  simp [write_test_design, insertTd, deactivate_test_designs]

theorem write_test_design_bulk_loop_frame (sid : Option String)
    (v : Option Int) (a : Bool) : ∀ (items : List TdBulkItem) (db : DB),
    (write_test_design_bulk_loop db sid v a items).2.requirements = db.requirements ∧
    (write_test_design_bulk_loop db sid v a items).2.test_cases = db.test_cases ∧
    (write_test_design_bulk_loop db sid v a items).2.viewpoints = db.viewpoints ∧
    (write_test_design_bulk_loop db sid v a items).2.test_suites = db.test_suites ∧
    (write_test_design_bulk_loop db sid v a items).2.team_events = db.team_events ∧
    (write_test_design_bulk_loop db sid v a items).2.cache = db.cache
  | [], db => ⟨rfl, rfl, rfl, rfl, rfl, rfl⟩
  | it :: rest, db => by
    simp only [write_test_design_bulk_loop]
    have hfr := write_test_design_frame db sid
      (if it.content.truthy = true then it.content else .jobj [])
      (if it.testing_type = "" then "integration" else it.testing_type)
      (match it.version with | some vv => some vv | none => v) a
    have ih := write_test_design_bulk_loop_frame sid v a rest
      (write_test_design db sid
        (if it.content.truthy = true then it.content else .jobj [])
        (if it.testing_type = "" then "integration" else it.testing_type)
        (match it.version with | some vv => some vv | none => v) a).2
    exact ⟨ih.1.trans hfr.1, ih.2.1.trans hfr.2.1, ih.2.2.1.trans hfr.2.2.1,
      ih.2.2.2.1.trans hfr.2.2.2.1, ih.2.2.2.2.1.trans hfr.2.2.2.2.1,
      ih.2.2.2.2.2.trans hfr.2.2.2.2.2⟩

theorem write_test_design_bulk_frame (db : DB) (sid : Option String)
    (items : List TdBulkItem) (v : Option Int) (a : Bool) :
    (write_test_design_bulk db sid items v a).2.requirements = db.requirements ∧
    (write_test_design_bulk db sid items v a).2.test_cases = db.test_cases ∧
    (write_test_design_bulk db sid items v a).2.viewpoints = db.viewpoints ∧
    (write_test_design_bulk db sid items v a).2.test_suites = db.test_suites ∧
    (write_test_design_bulk db sid items v a).2.team_events = db.team_events ∧
    (write_test_design_bulk db sid items v a).2.cache = db.cache := by
  unfold write_test_design_bulk
  by_cases hit : items = []
  · simp [hit]
  · rw [if_neg hit]
    exact write_test_design_bulk_loop_frame sid v a items db

theorem write_viewpoints_loop_frame (sid : Option String) (rid : Option Nat)
    (tdid : Option Nat) (v : Option Int) (a : Bool) :
    ∀ (items : List (List (String × Json))) (db : DB),
    (write_viewpoints_loop db sid rid tdid v a items).2.requirements = db.requirements ∧
    (write_viewpoints_loop db sid rid tdid v a items).2.test_cases = db.test_cases ∧
    (write_viewpoints_loop db sid rid tdid v a items).2.test_designs = db.test_designs ∧
    (write_viewpoints_loop db sid rid tdid v a items).2.test_suites = db.test_suites ∧
    (write_viewpoints_loop db sid rid tdid v a items).2.team_events = db.team_events ∧
    (write_viewpoints_loop db sid rid tdid v a items).2.cache = db.cache
  | [], db => ⟨rfl, rfl, rfl, rfl, rfl, rfl⟩
  | ikvs :: rest, db => by
    simp only [write_viewpoints_loop]
    have ih := write_viewpoints_loop_frame sid rid tdid v a rest
      (insertVp (deactivate_viewpoints db sid
          (match
            (match rid with
             | some r => some r
             | none =>
               match lookupKV ikvs "__req_code" with
               | some rc => get_requirement_row_id db sid rc.pyStr
               | none => none) with
           | some r => some r
           | none => resolve_requirement_id_from_item db sid (delKV ikvs "__req_code"))
          (derive_item_name (delKV ikvs "__req_code")))
        { rowId := 0, suite_id := sid, test_design_id := tdid,
          requirement_id :=
            (match
              (match rid with
               | some r => some r
               | none =>
                 match lookupKV ikvs "__req_code" with
                 | some rc => get_requirement_row_id db sid rc.pyStr
                 | none => none) with
             | some r => some r
             | none => resolve_requirement_id_from_item db sid (delKV ikvs "__req_code")),
          name := derive_item_name (delKV ikvs "__req_code"),
          content := .jobj (delKV ikvs "__req_code"), version := v, active := a })
    simpa [insertVp, deactivate_viewpoints] using ih

theorem write_viewpoints_frame (db : DB) (sid : Option String)
    (rid : Option Nat) (content : Json) (tdid : Option Nat) (v : Option Int)
    (a : Bool) :
    (write_viewpoints db sid rid content tdid v a).2.requirements = db.requirements ∧
    (write_viewpoints db sid rid content tdid v a).2.test_cases = db.test_cases ∧
    (write_viewpoints db sid rid content tdid v a).2.test_designs = db.test_designs ∧
    (write_viewpoints db sid rid content tdid v a).2.test_suites = db.test_suites ∧
    (write_viewpoints db sid rid content tdid v a).2.team_events = db.team_events ∧
    (write_viewpoints db sid rid content tdid v a).2.cache = db.cache :=
  write_viewpoints_loop_frame sid rid tdid v a _ db

theorem write_viewpoints_bulk_loop_frame (sid : Option String)
    (v : Option Int) (a : Bool) : ∀ (items : List VpBulkItem) (db : DB),
    (write_viewpoints_bulk_loop db sid v a items).2.requirements = db.requirements ∧
    (write_viewpoints_bulk_loop db sid v a items).2.test_cases = db.test_cases ∧
    (write_viewpoints_bulk_loop db sid v a items).2.test_designs = db.test_designs ∧
    (write_viewpoints_bulk_loop db sid v a items).2.test_suites = db.test_suites ∧
    (write_viewpoints_bulk_loop db sid v a items).2.team_events = db.team_events ∧
    (write_viewpoints_bulk_loop db sid v a items).2.cache = db.cache
  | [], db => ⟨rfl, rfl, rfl, rfl, rfl, rfl⟩
  | it :: rest, db => by
    simp only [write_viewpoints_bulk_loop]
    have hfr := write_viewpoints_frame db sid it.requirement_id
      (if it.content.truthy = true then it.content else .jobj []) it.test_design_id
      (match it.version with | some vv => some vv | none => v) a
    have ih := write_viewpoints_bulk_loop_frame sid v a rest
      (write_viewpoints db sid it.requirement_id
        (if it.content.truthy = true then it.content else .jobj []) it.test_design_id
        (match it.version with | some vv => some vv | none => v) a).2
    exact ⟨ih.1.trans hfr.1, ih.2.1.trans hfr.2.1, ih.2.2.1.trans hfr.2.2.1,
      ih.2.2.2.1.trans hfr.2.2.2.1, ih.2.2.2.2.1.trans hfr.2.2.2.2.1,
      ih.2.2.2.2.2.trans hfr.2.2.2.2.2⟩

theorem write_viewpoints_bulk_frame (db : DB) (sid : Option String)
    (items : List VpBulkItem) (v : Option Int) (a : Bool) :
    (write_viewpoints_bulk db sid items v a).2.requirements = db.requirements ∧
    (write_viewpoints_bulk db sid items v a).2.test_cases = db.test_cases ∧
    (write_viewpoints_bulk db sid items v a).2.test_designs = db.test_designs ∧
    (write_viewpoints_bulk db sid items v a).2.test_suites = db.test_suites ∧
    (write_viewpoints_bulk db sid items v a).2.team_events = db.team_events ∧
    (write_viewpoints_bulk db sid items v a).2.cache = db.cache := by
  unfold write_viewpoints_bulk
  by_cases hit : items = []
  · simp [hit]
  · rw [if_neg hit]
    exact write_viewpoints_bulk_loop_frame sid v a items db


theorem clone_step_requirements_frame (db : DB) (s : String) (sv tv : Int)
    (db' : DB) (hc : clone_step_requirements db s sv tv = some db') :
    db'.test_cases = db.test_cases ∧ db'.test_designs = db.test_designs ∧
    db'.viewpoints = db.viewpoints ∧ db'.test_suites = db.test_suites ∧
    db'.team_events = db.team_events ∧ db'.cache = db.cache := by
  unfold clone_step_requirements at hc
  split at hc
  · cases hc
    exact ⟨rfl, rfl, rfl, rfl, rfl, rfl⟩
  · dsimp only at hc
    split at hc
    · cases hc
      exact ⟨rfl, rfl, rfl, rfl, rfl, rfl⟩
    · have := write_requirements_frame db (some s) _ (some tv) true db' hc
      exact ⟨this.1, this.2.1, this.2.2.1, this.2.2.2.1, this.2.2.2.2.1,
        this.2.2.2.2.2⟩

theorem clone_step_test_cases_frame (db : DB) (s : String) (sv tv : Int) :
    (clone_step_test_cases db s sv tv).test_designs = db.test_designs ∧
    (clone_step_test_cases db s sv tv).viewpoints = db.viewpoints ∧
    (clone_step_test_cases db s sv tv).test_suites = db.test_suites ∧
    (clone_step_test_cases db s sv tv).team_events = db.team_events ∧
    (clone_step_test_cases db s sv tv).cache = db.cache := by
  unfold clone_step_test_cases
  split
  · exact ⟨rfl, rfl, rfl, rfl, rfl⟩
  · dsimp only
    split
    · exact ⟨rfl, rfl, rfl, rfl, rfl⟩
    · exact write_testcases_bulk_frame db (some s) _ (some tv) true

theorem clone_step_test_designs_frame (db : DB) (s : String) (sv tv : Int) :
    (clone_step_test_designs db s sv tv).requirements = db.requirements ∧
    (clone_step_test_designs db s sv tv).test_cases = db.test_cases ∧
    (clone_step_test_designs db s sv tv).viewpoints = db.viewpoints ∧
    (clone_step_test_designs db s sv tv).test_suites = db.test_suites ∧
    (clone_step_test_designs db s sv tv).team_events = db.team_events ∧
    (clone_step_test_designs db s sv tv).cache = db.cache := by
  unfold clone_step_test_designs
  split
  · exact ⟨rfl, rfl, rfl, rfl, rfl, rfl⟩
  · dsimp only
    split
    · exact ⟨rfl, rfl, rfl, rfl, rfl, rfl⟩
    · exact write_test_design_bulk_frame db (some s) _ (some tv) true

theorem clone_step_viewpoints_frame (db : DB) (s : String) (sv tv : Int) :
    (clone_step_viewpoints db s sv tv).requirements = db.requirements ∧
    (clone_step_viewpoints db s sv tv).test_cases = db.test_cases ∧
    (clone_step_viewpoints db s sv tv).test_designs = db.test_designs ∧
    (clone_step_viewpoints db s sv tv).test_suites = db.test_suites ∧
    (clone_step_viewpoints db s sv tv).team_events = db.team_events ∧
    (clone_step_viewpoints db s sv tv).cache = db.cache := by
  unfold clone_step_viewpoints
  split
  · exact ⟨rfl, rfl, rfl, rfl, rfl, rfl⟩
  · dsimp only
    split
    · exact ⟨rfl, rfl, rfl, rfl, rfl, rfl⟩
    · exact write_viewpoints_bulk_frame db (some s) _ (some tv) true

/-- The clone never touches `test_suites`, `team_events` or the cache. -/
theorem clone_frame (db : DB) (s : String) (sv tv : Int) (db' : DB)
    (hc : clone_current_artifacts_to_version db s sv tv = some db') :
    db'.test_suites = db.test_suites ∧ db'.team_events = db.team_events ∧
    db'.cache = db.cache := by
  unfold clone_current_artifacts_to_version at hc
  simp only [Option.bind_eq_bind, Option.bind_eq_some, Option.some.injEq] at hc
  obtain ⟨db1, hdb1, hrest⟩ := hc
  have h1 := clone_step_requirements_frame db s sv tv db1 hdb1
  have h2 := clone_step_test_cases_frame db1 s sv tv
  have h3 := clone_step_test_designs_frame (clone_step_test_cases db1 s sv tv) s sv tv
  have h4 := clone_step_viewpoints_frame
    (clone_step_test_designs (clone_step_test_cases db1 s sv tv) s sv tv) s sv tv
  rw [← hrest]
  refine ⟨?_, ?_, ?_⟩
  · rw [h4.2.2.2.1, h3.2.2.2.1, h2.2.2.1, h1.2.2.2.1]
  · rw [h4.2.2.2.2.1, h3.2.2.2.2.1, h2.2.2.2.1, h1.2.2.2.2.1]
  · rw [h4.2.2.2.2.2, h3.2.2.2.2.2, h2.2.2.2.2, h1.2.2.2.2.2]

/-! ## Specification of one version cut -/

/-- The suite state dict after one successful cut on state `kvs`. -/
def incrementedKVs (kvs : List (String × Json)) (desc now : String) :
    List (String × Json) :=
  wfssKVs kvs
    (Json.jobj (setKV kvs "latest_version" (.jnum (priorIntOf kvs + 1))))
    (some (priorIntOf kvs + 1))
    (some (histOf kvs ++ [version_history_entry (priorIntOf kvs + 1) desc now]))

theorem lookupKV_incrementedKVs_latest (kvs : List (String × Json))
    (desc now : String) :
    lookupKV (incrementedKVs kvs desc now) "latest_version" =
      some (.jnum (priorIntOf kvs + 1)) := by
  unfold incrementedKVs wfssKVs
  rw [lookupKV_setKV_other _ _ _ _ (by decide), lookupKV_setKV_self]

theorem lookupKV_incrementedKVs_hist (kvs : List (String × Json))
    (desc now : String) :
    lookupKV (incrementedKVs kvs desc now) "version_history" =
      some (.jarr (histOf kvs ++ [version_history_entry (priorIntOf kvs + 1) desc now])) := by
  unfold incrementedKVs wfssKVs
  rw [lookupKV_setKV_self]

theorem priorIntOf_lookup (kvs : List (String × Json)) (v : Int)
    (h : lookupKV kvs "latest_version" = some (.jnum v)) : priorIntOf kvs = v := by
  unfold priorIntOf
  rw [h]
  simp [Json.pyInt]

theorem histOf_lookup (kvs : List (String × Json)) (l : List Json)
    (h : lookupKV kvs "version_history" = some (.jarr l)) : histOf kvs = l := by
  unfold histOf
  rw [h]

theorem priorIntOf_incrementedKVs (kvs : List (String × Json))
    (desc now : String) :
    priorIntOf (incrementedKVs kvs desc now) = priorIntOf kvs + 1 :=
  priorIntOf_lookup _ _ (lookupKV_incrementedKVs_latest kvs desc now)

theorem histOf_incrementedKVs (kvs : List (String × Json)) (desc now : String) :
    histOf (incrementedKVs kvs desc now) =
      histOf kvs ++ [version_history_entry (priorIntOf kvs + 1) desc now] :=
  histOf_lookup _ _ (lookupKV_incrementedKVs_hist kvs desc now)

/-- Effect of `(clone ...).getD db` on the untouched components. -/
theorem clone_getD_suites (db : DB) (s : String) (sv tv : Int) :
    ((clone_current_artifacts_to_version db s sv tv).getD db).test_suites =
        db.test_suites ∧
      ((clone_current_artifacts_to_version db s sv tv).getD db).cache = db.cache := by
  cases hcl : clone_current_artifacts_to_version db s sv tv with
  | none => simp
  | some dbc =>
    have := clone_frame db s sv tv dbc hcl
    simp [this.1, this.2.2]

/-- Effect of a successful `_increment_suite_version` on the suite state,
with the clone's artifact effect left abstract. -/
theorem increment_suite_version_spec (db : DB) (s : String) (hsid : s ≠ "")
    (row : SuiteRow) (kvs : List (String × Json))
    (hfind : db.test_suites.find? (fun r => r.id = s) = some row)
    (hstate : row.state = .jobj kvs)
    (desc : String) (src : Option Int) (now : String) :
    ∃ db3, increment_suite_version db s desc src now =
        (some (priorIntOf kvs + 1), db3) ∧
      db3.test_suites.find? (fun r => r.id = s) =
        some { row with state := .jobj (incrementedKVs kvs desc now) } ∧
      db3.cache = db.cache ∧
      (priorIntOf kvs + 1 ≤ 1 →
        db3.requirements = db.requirements ∧ db3.test_cases = db.test_cases ∧
        db3.test_designs = db.test_designs ∧ db3.viewpoints = db.viewpoints) := by
  have hraw : get_suite_agent_state db (some s) = some (.jobj kvs) := by
    simp only [get_suite_agent_state, get_suite_state]
    rw [if_neg hsid, hfind]
    simp [hstate]
  have hkvs : (match get_suite_agent_state db (some s) with
      | none => some []
      | some j =>
        if j.truthy then
          (match j with
           | .jobj kvs => some kvs
           | _ => none)
        else some ([] : List (String × Json))) = some kvs := by
    rw [hraw]
    by_cases hnil : kvs = []
    · subst hnil
      simp [Json.truthy]
    · simp [Json.truthy, hnil]
  unfold increment_suite_version
  dsimp only
  rw [hkvs]
  set db1 := write_full_suite_state db (some s)
    (Json.jobj (setKV kvs "latest_version" (.jnum (priorIntOf kvs + 1))))
    (some (priorIntOf kvs + 1))
    (some (histOf kvs ++ [version_history_entry (priorIntOf kvs + 1) desc now]))
    with hdb1
  have hsuites1 : db1.test_suites.find? (fun r => r.id = s) =
      some { row with state := .jobj (incrementedKVs kvs desc now) } := by
    rw [hdb1]
    exact write_full_suite_state_suites db s hsid row kvs hfind hstate _ _ _
  have hframe1 := write_full_suite_state_frame db (some s)
    (Json.jobj (setKV kvs "latest_version" (.jnum (priorIntOf kvs + 1))))
    (some (priorIntOf kvs + 1))
    (some (histOf kvs ++ [version_history_entry (priorIntOf kvs + 1) desc now]))
  set db2 := (if priorIntOf kvs + 1 > 1 then
      (clone_current_artifacts_to_version db1 s
        (match src with
         | some sv => sv
         | none => priorIntOf kvs + 1 - 1) (priorIntOf kvs + 1)).getD db1
    else db1) with hdb2
  have h2 : db2.test_suites = db1.test_suites ∧ db2.cache = db1.cache := by
    rw [hdb2]
    split
    · exact clone_getD_suites db1 s _ _
    · exact ⟨rfl, rfl⟩
  refine ⟨write_event db2 (some s)
      (.jobj [("type", .jstr "new_version"),
              ("version", .jnum (priorIntOf kvs + 1)),
              ("description", .jstr desc)]), rfl, ?_, ?_, ?_⟩
  · show db2.test_suites.find? (fun r => r.id = s) = _
    rw [h2.1]
    exact hsuites1
  · show db2.cache = db.cache
    rw [h2.2]
    exact hframe1.2.2.2.2.2.1
  · intro hle
    have hnot : ¬(priorIntOf kvs + 1 > 1) := by omega
    rw [hdb2, if_neg hnot]
    exact ⟨hframe1.1, hframe1.2.1, hframe1.2.2.1, hframe1.2.2.2.1⟩

/-! ## C2: version monotonicity -/

/-- `n` sequential version cuts (`_increment_suite_version` calls) with
per-cut descriptions and timestamps, collecting the returned versions. -/
def cut_versions (db : DB) (s : String) (desc ts : Nat → String) :
    Nat → List (Option Int) × DB
  | 0 => ([], db)
  | n + 1 =>
    let (rs, db1) := cut_versions db s desc ts n
    let (r, db2) := increment_suite_version db1 s (desc (n + 1)) none (ts (n + 1))
    (rs ++ [r], db2)

theorem cut_versions_succ (db : DB) (s : String) (desc ts : Nat → String)
    (n : Nat) :
    cut_versions db s desc ts (n + 1) =
      ((cut_versions db s desc ts n).1 ++
        [(increment_suite_version (cut_versions db s desc ts n).2 s
            (desc (n + 1)) none (ts (n + 1))).1],
       (increment_suite_version (cut_versions db s desc ts n).2 s
          (desc (n + 1)) none (ts (n + 1))).2) := rfl

theorem cut_versions_invariant (db : DB) (s : String) (hsid : s ≠ "")
    (row : SuiteRow) (kvs0 : List (String × Json))
    (hfind : db.test_suites.find? (fun r => r.id = s) = some row)
    (hstate : row.state = .jobj kvs0)
    (h0 : priorIntOf kvs0 = 0) (hh : histOf kvs0 = [])
    (desc ts : Nat → String) : ∀ n : Nat,
    (cut_versions db s desc ts n).1 =
      (List.range n).map (fun (i : Nat) => some ((i : Int) + 1)) ∧
    ∃ row2 kvs2,
      (cut_versions db s desc ts n).2.test_suites.find? (fun r => r.id = s) =
        some row2 ∧
      row2.state = .jobj kvs2 ∧ priorIntOf kvs2 = (n : Int) ∧
      histOf kvs2 = (List.range n).map (fun (i : Nat) =>
        version_history_entry ((i : Int) + 1) (desc (i + 1)) (ts (i + 1))) := by
  intro n
  induction n with
  | zero =>
    refine ⟨by simp [cut_versions], row, kvs0, hfind, hstate, by simpa using h0, ?_⟩
    simpa using hh
  | succ n ih =>
    obtain ⟨ih1, row2, kvs2, hfind2, hstate2, hprior2, hhist2⟩ := ih
    obtain ⟨db3, heq, hfind3, hcache3, hfirst3⟩ :=
      increment_suite_version_spec (cut_versions db s desc ts n).2 s hsid row2 kvs2
        hfind2 hstate2 (desc (n + 1)) none (ts (n + 1))
    rw [cut_versions_succ]
    constructor
    · simp only [heq, ih1, hprior2]
      rw [List.range_succ]
      simp only [List.map_append, List.map_cons, List.map_nil]
    · refine ⟨{ row2 with state := .jobj (incrementedKVs kvs2 (desc (n + 1)) (ts (n + 1))) },
        incrementedKVs kvs2 (desc (n + 1)) (ts (n + 1)), ?_, rfl, ?_, ?_⟩
      · simp only [heq]
        exact hfind3
      · rw [priorIntOf_incrementedKVs, hprior2]
        omega
      · rw [histOf_incrementedKVs, hhist2, hprior2, List.range_succ]
        simp only [List.map_append, List.map_cons, List.map_nil]

/-- C2.  Version monotonicity: starting from a suite state with no
`latest_version` (or `latest_version = 0`) and no history, the `k`-th
successful sequential `_increment_suite_version` call returns `k` — the
returned versions are exactly `1, 2, ..., n` — each cut appends exactly one
`{version, description, timestamp}` entry to `version_history` (so the
history after `n` cuts lists exactly these `n` entries and has length `n`),
and the first cut (`new_version = 1`) attempts no cloning: after it all
four artifact tables are unchanged. -/
theorem claim_C2_version_monotonicity (db : DB) (s : String) (hsid : s ≠ "")
    (row : SuiteRow) (kvs0 : List (String × Json))
    (hfind : db.test_suites.find? (fun r => r.id = s) = some row)
    (hstate : row.state = .jobj kvs0)
    (h0 : priorIntOf kvs0 = 0) (hh : histOf kvs0 = [])
    (desc ts : Nat → String) (n : Nat) :
    (cut_versions db s desc ts n).1 =
      (List.range n).map (fun (i : Nat) => some ((i : Int) + 1)) ∧
    (∃ row2 kvs2,
      (cut_versions db s desc ts n).2.test_suites.find? (fun r => r.id = s) =
        some row2 ∧
      row2.state = .jobj kvs2 ∧ priorIntOf kvs2 = (n : Int) ∧
      histOf kvs2 = (List.range n).map (fun (i : Nat) =>
        version_history_entry ((i : Int) + 1) (desc (i + 1)) (ts (i + 1))) ∧
      (histOf kvs2).length = n) ∧
    ((cut_versions db s desc ts 1).2.requirements = db.requirements ∧
     (cut_versions db s desc ts 1).2.test_cases = db.test_cases ∧
     (cut_versions db s desc ts 1).2.test_designs = db.test_designs ∧
     (cut_versions db s desc ts 1).2.viewpoints = db.viewpoints) := by
  obtain ⟨hret, row2, kvs2, hfind2, hstate2, hprior2, hhist2⟩ :=
    cut_versions_invariant db s hsid row kvs0 hfind hstate h0 hh desc ts n
  refine ⟨hret, ⟨row2, kvs2, hfind2, hstate2, hprior2, hhist2, ?_⟩, ?_⟩
  · rw [hhist2]
    simp
  · obtain ⟨db3, heq, _, _, hfirst⟩ :=
      increment_suite_version_spec db s hsid row kvs0 hfind hstate
        (desc 1) none (ts 1)
    have h1 : cut_versions db s desc ts 1 =
        ((cut_versions db s desc ts 0).1 ++
          [(increment_suite_version db s (desc 1) none (ts 1)).1],
         (increment_suite_version db s (desc 1) none (ts 1)).2) :=
      cut_versions_succ db s desc ts 0
    rw [h1]
    simp only [heq]
    exact hfirst (by omega)

/-- A fresh suite (empty state) used as the C2 witness input. -/
def c2WitnessDB : DB :=
  ⟨[], [], [], [], [⟨"s1", .jobj []⟩], [], [], 0⟩

/-- Witness for C2 at a concrete fresh suite and three sequential cuts. -/
theorem claim_C2_version_monotonicity_witness :
    (cut_versions c2WitnessDB "s1" (fun _ => "cut") (fun _ => "ts") 3).1 =
      (List.range 3).map (fun (i : Nat) => some ((i : Int) + 1)) ∧
    (∃ row2 kvs2,
      (cut_versions c2WitnessDB "s1" (fun _ => "cut") (fun _ => "ts") 3).2.test_suites.find?
          (fun r => r.id = "s1") = some row2 ∧
      row2.state = .jobj kvs2 ∧ priorIntOf kvs2 = (3 : Int) ∧
      histOf kvs2 = (List.range 3).map (fun (i : Nat) =>
        version_history_entry ((i : Int) + 1) "cut" "ts") ∧
      (histOf kvs2).length = 3) ∧
    ((cut_versions c2WitnessDB "s1" (fun _ => "cut") (fun _ => "ts") 1).2.requirements =
        c2WitnessDB.requirements ∧
     (cut_versions c2WitnessDB "s1" (fun _ => "cut") (fun _ => "ts") 1).2.test_cases =
        c2WitnessDB.test_cases ∧
     (cut_versions c2WitnessDB "s1" (fun _ => "cut") (fun _ => "ts") 1).2.test_designs =
        c2WitnessDB.test_designs ∧
     (cut_versions c2WitnessDB "s1" (fun _ => "cut") (fun _ => "ts") 1).2.viewpoints =
        c2WitnessDB.viewpoints) :=
  claim_C2_version_monotonicity c2WitnessDB "s1" (by decide) ⟨"s1", .jobj []⟩ []
    (by decide) rfl (by decide) (by decide) (fun _ => "cut") (fun _ => "ts") 3

/-! ## C3: behaviour of the caller when the version cut fails -/

/-- Database for C3: the suite's stored state is a truthy non-dict, so
reading `prior_state.get` raises and `_increment_suite_version` returns
`None` without writing. -/
def c3FailDB : DB :=
  ⟨[], [], [], [], [⟨"s1", .jarr [.jnum 1]⟩], [], [], 0⟩

/-- C3 (code bug).  When the version cut fails and returns `None`,
`extract_and_store_requirements` does NOT skip the dependent write: it
still reports success and persists the extracted requirement rows with a
null `version`.  Evaluated at a concrete failing input: the cut returns
`none`, yet the requirement row `REQ-1` is inserted with `version = none`
and `active = true`, contradicting the claim that no artifact row is ever
written after a null version cut. -/
theorem claim_C3_null_version_cut_still_persists :
    (increment_suite_version c3FailDB "s1" "Requirements extracted" none "ts").1 =
      none ∧
    (extract_and_store_requirements c3FailDB "s1"
        (some (.jobj [("requirements", .jarr [.jobj [("id", .jstr "REQ-1")]])]))
        "ts").1 = .ok "Requirements extracted successfully" ∧
    ((extract_and_store_requirements c3FailDB "s1"
        (some (.jobj [("requirements", .jarr [.jobj [("id", .jstr "REQ-1")]])]))
        "ts").2.requirements.map (fun r => (r.req_code, r.version, r.active))) =
      [("REQ-1", none, true)] :=
  ⟨rfl, rfl, rfl⟩

/-! ## C6: invalid generation output persists nothing -/

/-- Whether the extractor's parsed output has the accepted shape
(`{requirements: [...]}` or a bare array). -/
def extractShapeOk (raw : Option Json) : Bool :=
  match raw with
  | none => false
  | some (.jobj kvs) =>
    (match lookupKV kvs "requirements" with
     | some (.jarr _) => true
     | _ => false)
  | some (.jarr _) => true
  | some _ => false

/-- Whether the test-case writer's parsed output is accepted by the single
path (a dict carrying `requirement_id`). -/
def testcasesShapeOk (raw : Option Json) : Bool :=
  match raw with
  | some (.jobj kvs) => (lookupKV kvs "requirement_id").isSome
  | _ => false

/-- C6.  When the opaque generation call returns text that does not parse
as the expected JSON shape, the generator raises (`Invalid JSON ...`,
modelling `InvalidGenerationOutputError`) and persists nothing: the
database is returned exactly unchanged — no version cut, no artifact row,
for both `extract_and_store_requirements` and the single-requirement path
of `generate_and_store_testcases_for_req`. -/
theorem claim_C6_invalid_output_persists_nothing (db : DB) (s : String)
    (raw : Option Json) (now : String) (hbad : extractShapeOk raw = false)
    (req_id : String) (tcraw : Option Json)
    (hbad2 : testcasesShapeOk tcraw = false) :
    (∃ msg, extract_and_store_requirements db s raw now = (.error msg, db)) ∧
    (∃ msg2, generate_and_store_testcases_single db s req_id tcraw now =
      (.error msg2, db)) := by
  constructor
  · cases raw with
    | none => exact ⟨"Invalid JSON from extractor", rfl⟩
    | some parsed =>
      cases parsed with
      | jobj kvs =>
        refine ⟨"Invalid JSON from extractor: unexpected JSON shape", ?_⟩
        unfold extract_and_store_requirements
        simp only [extractShapeOk] at hbad
        cases hreq : lookupKV kvs "requirements" with
        | none => simp [hreq]
        | some v =>
          cases v with
          | jarr l => rw [hreq] at hbad; simp at hbad
          | null => simp [hreq]
          | jbool b => simp [hreq]
          | jnum n => simp [hreq]
          | jstr str => simp [hreq]
          | jobj kvs2 => simp [hreq]
      | jarr l => simp [extractShapeOk] at hbad
      | null => exact ⟨"Invalid JSON from extractor: unexpected JSON shape", rfl⟩
      | jbool b => exact ⟨"Invalid JSON from extractor: unexpected JSON shape", rfl⟩
      | jnum n => exact ⟨"Invalid JSON from extractor: unexpected JSON shape", rfl⟩
      | jstr str => exact ⟨"Invalid JSON from extractor: unexpected JSON shape", rfl⟩
  · unfold generate_and_store_testcases_single
    dsimp only
    cases hfind : ((lookupCache db.cache s).getD []).find?
        (fun r => r.getKey "id" = some (.jstr req_id)) with
    | none => exact ⟨"Requirement " ++ req_id ++ " not found.", rfl⟩
    | some r =>
      cases tcraw with
      | none => exact ⟨"Invalid JSON from testcase writer", rfl⟩
      | some j =>
        cases j with
        | jobj kvs =>
          simp only [testcasesShapeOk] at hbad2
          cases hrid : lookupKV kvs "requirement_id" with
          | none =>
            refine ⟨"Invalid JSON from testcase writer: missing requirement_id", ?_⟩
            simp [hrid]
          | some v => rw [hrid] at hbad2; simp at hbad2
        | null => exact ⟨"Invalid JSON from testcase writer", rfl⟩
        | jbool b => exact ⟨"Invalid JSON from testcase writer", rfl⟩
        | jnum n => exact ⟨"Invalid JSON from testcase writer", rfl⟩
        | jstr str => exact ⟨"Invalid JSON from testcase writer", rfl⟩
        | jarr xs => exact ⟨"Invalid JSON from testcase writer", rfl⟩

/-- Witness for C6 at a concrete database and a non-dict generation output. -/
theorem claim_C6_invalid_output_persists_nothing_witness :
    extractShapeOk (some (.jstr "oops")) = false ∧
    testcasesShapeOk (some (.jarr [])) = false ∧
    ((∃ msg, extract_and_store_requirements c2WitnessDB "s1"
        (some (.jstr "oops")) "ts" = (.error msg, c2WitnessDB)) ∧
     (∃ msg2, generate_and_store_testcases_single c2WitnessDB "s1" "REQ-1"
        (some (.jarr [])) "ts" = (.error msg2, c2WitnessDB))) :=
  ⟨rfl, rfl, claim_C6_invalid_output_persists_nothing c2WitnessDB "s1"
    (some (.jstr "oops")) "ts" rfl "REQ-1" (some (.jarr [])) rfl⟩

/-! ## C8: unique case ids -/

theorem cand_inj (base : String) {j j' : Nat}
    (h : base ++ "-" ++ natRepr j = base ++ "-" ++ natRepr j') : j = j' := by
  have hdata := congrArg String.data h
  simp only [String.data_append] at hdata
  have h1 := List.append_cancel_left hdata
  exact natRepr_inj (String.ext h1)

theorem disamb_loop_not_mem (used : List String) (base : String) :
    ∀ (fuel k : Nat),
      (∃ j, k ≤ j ∧ j < k + fuel ∧ (base ++ "-" ++ natRepr j) ∉ used) →
      disamb_loop used base fuel k ∉ used := by
  intro fuel
  induction fuel with
  | zero =>
    intro k h
    obtain ⟨j, h1, h2, _⟩ := h
    omega
  | succ f ih =>
    intro k h
    rw [disamb_loop]
    by_cases hc : (base ++ "-" ++ natRepr k) ∈ used
    · rw [if_pos hc]
      refine ih (k + 1) ?_
      obtain ⟨j, h1, h2, h3⟩ := h
      refine ⟨j, ?_, by omega, h3⟩
      rcases Nat.eq_or_lt_of_le h1 with heq | hlt
      · exact absurd (heq ▸ hc) h3
      · omega
    · rw [if_neg hc]
      exact hc

theorem disamb_exists_free (used : List String) (base : String) (k : Nat) :
    ∃ j, k ≤ j ∧ j < k + (used.length + 1) ∧
      (base ++ "-" ++ natRepr j) ∉ used := by
  by_contra hcon
  push_neg at hcon
  have hsub : ((List.range (used.length + 1)).map
      (fun i => base ++ "-" ++ natRepr (k + i))) ⊆ used := by
    intro x hx
    simp only [List.mem_map, List.mem_range] at hx
    obtain ⟨i, hi, hx⟩ := hx
    rw [← hx]
    exact hcon (k + i) (by omega) (by omega)
  have hnodup : ((List.range (used.length + 1)).map
      (fun i => base ++ "-" ++ natRepr (k + i))).Nodup := by
    refine (List.nodup_range _).map ?_
    intro a b hab
    have := cand_inj base hab
    omega
  have hle := (List.subperm_of_subset hnodup hsub).length_le
  simp only [List.length_map, List.length_range] at hle
  omega

/-- The id produced by the `while` loop is never one already used. -/
theorem disambiguate_not_mem (used : List String) (base : String) :
    disambiguate used base ∉ used := by
  unfold disambiguate
  split
  · apply disamb_loop_not_mem
    obtain ⟨j, h1, h2, h3⟩ := disamb_exists_free used base 2
    exact ⟨j, h1, h2, h3⟩
  · assumption

/-- The raw trimmed id of a (normalised) case dict, blank when missing or
not a string. -/
def caseRawId (c : Json) : String :=
  match c.getKey "id" with
  | some (.jstr s) => s.pyStrip
  | _ => ""

theorem unique_id_step_eq (reqCode : String) (used : List String) (idx : Nat)
    (c : Json) :
    unique_id_step reqCode used idx c =
      disambiguate used
        (if caseRawId c = "" then reqCode ++ "-TC-" ++ natRepr idx
         else caseRawId c) := by
  unfold unique_id_step caseRawId
  cases c.getKey "id" with
  | none => rfl
  | some v => cases v <;> rfl

theorem unique_id_step_not_mem (reqCode : String) (used : List String)
    (idx : Nat) (c : Json) : unique_id_step reqCode used idx c ∉ used := by
  rw [unique_id_step_eq]
  exact disambiguate_not_mem used _

/-- The sequence of ids assigned by the unique-id pass. -/
def assigned_ids (reqCode : String) (used : List String) (idx : Nat) :
    List Json → List String
  | [] => []
  | c :: cs =>
    let u := unique_id_step reqCode used idx c
    u :: assigned_ids reqCode (used ++ [u]) (idx + 1) cs

theorem assigned_ids_nodup (reqCode : String) :
    ∀ (cs : List Json) (used : List String) (idx : Nat), used.Nodup →
      (used ++ assigned_ids reqCode used idx cs).Nodup
  | [], used, idx, h => by simpa [assigned_ids] using h
  | c :: cs, used, idx, h => by
    have hnm := unique_id_step_not_mem reqCode used idx c
    have hnodup1 : (used ++ [unique_id_step reqCode used idx c]).Nodup := by
      rw [List.nodup_append]
      exact ⟨h, List.nodup_singleton _, by
        intro a ha hb
        simp only [List.mem_singleton] at hb
        subst hb
        exact hnm ha⟩
    have ih := assigned_ids_nodup reqCode cs
      (used ++ [unique_id_step reqCode used idx c]) (idx + 1) hnodup1
    simpa [assigned_ids, List.append_assoc] using ih

theorem normalize_case_isObj (c : Json) : ∃ kvs, normalize_case c = .jobj kvs := by
  cases c <;> simp [normalize_case]

theorem ensure_unique_ids_loop_ids (reqCode : String) :
    ∀ (cs : List Json) (used : List String) (idx : Nat),
      (∀ c ∈ cs, ∃ kvs, c = Json.jobj kvs) →
      (ensure_unique_ids_loop reqCode used idx cs).map (fun c => c.getKey "id") =
        (assigned_ids reqCode used idx cs).map (fun s => some (.jstr s))
  | [], _, _, _ => rfl
  | c :: cs, used, idx, hobj => by
    obtain ⟨kvs, hc⟩ := hobj c (by simp)
    subst hc
    have ih := ensure_unique_ids_loop_ids reqCode cs
      (used ++ [unique_id_step reqCode used idx (.jobj kvs)]) (idx + 1)
      (fun x hx => hobj x (by simp [hx]))
    simp only [ensure_unique_ids_loop, assigned_ids, List.map_cons]
    rw [ih]
    have hhd : (Json.jobj (setKV kvs "id"
        (Json.jstr (unique_id_step reqCode used idx (Json.jobj kvs))))).getKey
          "id" =
        some (Json.jstr (unique_id_step reqCode used idx (Json.jobj kvs))) := by
      show lookupKV (setKV kvs "id" _) "id" = _
      rw [lookupKV_setKV_self]
    rw [hhd]

/-- C8.  Unique case ids.  For the test-case normaliser: (1) after the
unique-id pass over the normalised cases, the assigned ids are pairwise
distinct, and the stored `id` field of each output case is exactly the
corresponding assigned id; (2) a case whose id is missing or blank receives
the deterministic fallback `<req_code>-TC-<n>` (1-based position `n`)
whenever that fallback is not already taken; (3) a non-blank id that is not
already taken is kept verbatim (trimmed); (4) an id duplicating an
already-assigned one is disambiguated to `<id>-2` when free, and in
general to the first free `<id>-k`, `k = 2, 3, ...`. -/
theorem claim_C8_unique_case_ids (reqCode : String) (cases : List Json) :
    ((ensure_unique_ids reqCode (cases.map normalize_case)).map
        (fun c => c.getKey "id") =
      (assigned_ids reqCode [] 1 (cases.map normalize_case)).map
        (fun s => some (.jstr s))) ∧
    (assigned_ids reqCode [] 1 (cases.map normalize_case)).Nodup ∧
    (∀ (used : List String) (idx : Nat) (c : Json), caseRawId c = "" →
      (reqCode ++ "-TC-" ++ natRepr idx) ∉ used →
      unique_id_step reqCode used idx c = reqCode ++ "-TC-" ++ natRepr idx) ∧
    (∀ (used : List String) (idx : Nat) (c : Json) (t : String),
      caseRawId c = t → t ≠ "" → t ∉ used →
      unique_id_step reqCode used idx c = t) ∧
    (∀ (used : List String) (idx : Nat) (c : Json) (t : String),
      caseRawId c = t → t ≠ "" → t ∈ used → (t ++ "-" ++ natRepr 2) ∉ used →
      unique_id_step reqCode used idx c = t ++ "-" ++ natRepr 2) := by
  refine ⟨?_, ?_, ?_, ?_, ?_⟩
  · exact ensure_unique_ids_loop_ids reqCode _ [] 1 (by
      intro c hc
      simp only [List.mem_map] at hc
      obtain ⟨c0, _, hc0⟩ := hc
      obtain ⟨kvs, hk⟩ := normalize_case_isObj c0
      exact ⟨kvs, by rw [← hc0, hk]⟩)
  · simpa using assigned_ids_nodup reqCode (cases.map normalize_case) [] 1
      List.nodup_nil
  · intro used idx c hblank hfree
    rw [unique_id_step_eq, hblank, if_pos rfl]
    unfold disambiguate
    rw [if_neg hfree]
  · intro used idx c t ht htne hfree
    rw [unique_id_step_eq, ht, if_neg htne]
    unfold disambiguate
    rw [if_neg hfree]
  · intro used idx c t ht htne hmem hfree
    rw [unique_id_step_eq, ht, if_neg htne]
    unfold disambiguate
    rw [if_pos hmem]
    cases hlen : used.length with
    | zero =>
      exfalso
      rw [List.length_eq_zero] at hlen
      subst hlen
      simp at hmem
    | succ m =>
      rw [disamb_loop]
      rw [if_neg hfree]

/-- Witness for C8: a concrete artifact with one blank id, one duplicate id
and one fresh id, plus the step-level facts at concrete inputs. -/
theorem claim_C8_unique_case_ids_witness :
    ((ensure_unique_ids "REQ-1" ([Json.jobj [], Json.jobj [("id", .jstr "TC-1")],
        Json.jobj [("id", .jstr "TC-1")]].map normalize_case)).map
        (fun c => c.getKey "id") =
      (assigned_ids "REQ-1" [] 1 ([Json.jobj [], Json.jobj [("id", .jstr "TC-1")],
        Json.jobj [("id", .jstr "TC-1")]].map normalize_case)).map
        (fun s => some (.jstr s))) ∧
    (assigned_ids "REQ-1" [] 1 ([Json.jobj [], Json.jobj [("id", .jstr "TC-1")],
        Json.jobj [("id", .jstr "TC-1")]].map normalize_case)).Nodup ∧
    unique_id_step "REQ-1" [] 1 (.jobj []) = "REQ-1-TC-1" ∧
    unique_id_step "REQ-1" ["REQ-1-TC-1"] 2 (.jobj [("id", .jstr "TC-1")]) = "TC-1" ∧
    unique_id_step "REQ-1" ["REQ-1-TC-1", "TC-1"] 3
      (.jobj [("id", .jstr "TC-1")]) = "TC-1-2" := by
  have h := claim_C8_unique_case_ids "REQ-1"
    [Json.jobj [], Json.jobj [("id", .jstr "TC-1")],
     Json.jobj [("id", .jstr "TC-1")]]
  refine ⟨h.1, h.2.1, ?_, ?_, ?_⟩
  · have := h.2.2.1 [] 1 (.jobj []) (by decide) (by decide)
    rw [this]
    decide
  · exact h.2.2.2.1 ["REQ-1-TC-1"] 2 (.jobj [("id", .jstr "TC-1")]) "TC-1"
      (by decide) (by decide) (by decide)
  · have := h.2.2.2.2 ["REQ-1-TC-1", "TC-1"] 3 (.jobj [("id", .jstr "TC-1")])
      "TC-1" (by decide) (by decide) (by decide) (by decide)
    rw [this]
    decide

/-! ## C7: bulk partial failure -/

theorem write_testcases_tc_version (db db2 : DB) (sid : Option String)
    (code : String) (tc : Json) (v : Option Int) (a : Bool)
    (h : write_testcases db sid code tc v a = some db2) :
    ∀ row ∈ db2.test_cases,
      row.version = v ∨ ∃ r0 ∈ db.test_cases, row.version = r0.version := by
  intro row hrow
  unfold write_testcases at h
  cases hg : get_requirement_row_id db sid code with
  | some rid =>
    rw [hg] at h
    injection h with h
    subst h
    simp only [insertTc, deactivate_test_cases, List.mem_append,
      List.mem_singleton, List.mem_map] at hrow
    rcases hrow with ⟨r0, hr0, hmap⟩ | hnew
    · right
      refine ⟨r0, hr0, ?_⟩
      rw [← hmap]
      split <;> rfl
    · left
      rw [hnew]
  | none =>
    rw [hg] at h
    cases tc with
    | jobj kvs =>
      simp only at h
      cases hg2 : get_requirement_row_id
          (insertReq db (minimal_requirement_row sid code kvs v a)) sid code with
      | none =>
        rw [hg2] at h
        injection h with h
        subst h
        simp only [insertReq] at hrow
        exact Or.inr ⟨row, hrow, rfl⟩
      | some rid =>
        rw [hg2] at h
        injection h with h
        subst h
        simp only [insertTc, deactivate_test_cases, insertReq, List.mem_append,
          List.mem_singleton, List.mem_map] at hrow
        rcases hrow with ⟨r0, hr0, hmap⟩ | hnew
        · right
          refine ⟨r0, hr0, ?_⟩
          rw [← hmap]
          split <;> rfl
        · left
          rw [hnew]
    | null => exact absurd h (by simp)
    | jbool b => exact absurd h (by simp)
    | jnum n => exact absurd h (by simp)
    | jstr s0 => exact absurd h (by simp)
    | jarr xs => exact absurd h (by simp)

theorem bulk_loop_cons_some (db : DB) (s : String) (gen : String → Option Json)
    (v : Option Int) (t : Json × Json × Json) (ts : List (Json × Json × Json))
    (tcObj : Json) (hw : bulk_worker_outcome gen t = some tcObj) :
    bulk_loop db s gen v (t :: ts) =
      (Json.jobj [("req_id", t.1), ("status", .jstr "ok")] ::
        (bulk_loop ((write_testcases db (some s) t.1.pyStr tcObj v true).getD db)
          s gen v ts).1,
       (bulk_loop ((write_testcases db (some s) t.1.pyStr tcObj v true).getD db)
          s gen v ts).2.1,
       (bulk_loop ((write_testcases db (some s) t.1.pyStr tcObj v true).getD db)
          s gen v ts).2.2) := by
  rw [bulk_loop, hw]

theorem bulk_loop_cons_none (db : DB) (s : String) (gen : String → Option Json)
    (v : Option Int) (t : Json × Json × Json) (ts : List (Json × Json × Json))
    (hw : bulk_worker_outcome gen t = none) :
    bulk_loop db s gen v (t :: ts) =
      ((bulk_loop db s gen v ts).1,
       Json.jobj [("req_id", t.1),
                  ("error", .jstr "Invalid JSON from testcase writer")] ::
         (bulk_loop db s gen v ts).2.1,
       (bulk_loop db s gen v ts).2.2) := by
  rw [bulk_loop, hw]

theorem bulk_loop_counts (s : String) (gen : String → Option Json)
    (v : Option Int) :
    ∀ (ts : List (Json × Json × Json)) (db : DB),
      (bulk_loop db s gen v ts).1.length =
        (ts.filter (fun t => (bulk_worker_outcome gen t).isSome)).length ∧
      (bulk_loop db s gen v ts).2.1.length =
        (ts.filter (fun t => (bulk_worker_outcome gen t).isNone)).length
  | [], db => by simp [bulk_loop]
  | t :: ts, db => by
    cases hw : bulk_worker_outcome gen t with
    | some tcObj =>
      rw [bulk_loop_cons_some db s gen v t ts tcObj hw]
      have ih := bulk_loop_counts s gen v ts
        ((write_testcases db (some s) t.1.pyStr tcObj v true).getD db)
      simp [List.filter_cons, hw, ih.1, ih.2]
    | none =>
      rw [bulk_loop_cons_none db s gen v t ts hw]
      have ih := bulk_loop_counts s gen v ts db
      simp [List.filter_cons, hw, ih.1, ih.2]

theorem bulk_loop_errors_mem (s : String) (gen : String → Option Json)
    (v : Option Int) :
    ∀ (ts : List (Json × Json × Json)) (db : DB) (t : Json × Json × Json),
      t ∈ ts → bulk_worker_outcome gen t = none →
      Json.jobj [("req_id", t.1),
                 ("error", .jstr "Invalid JSON from testcase writer")] ∈
        (bulk_loop db s gen v ts).2.1
  | [], _, _, ht, _ => absurd ht (List.not_mem_nil _)
  | t0 :: ts, db, t, ht, hw => by
    cases hw0 : bulk_worker_outcome gen t0 with
    | some tcObj =>
      rw [bulk_loop_cons_some db s gen v t0 ts tcObj hw0]
      rcases List.mem_cons.1 ht with heq | hts
      · subst heq
        rw [hw] at hw0
        exact absurd hw0 (by simp)
      · exact bulk_loop_errors_mem s gen v ts
          ((write_testcases db (some s) t0.1.pyStr tcObj v true).getD db) t hts hw
    | none =>
      rw [bulk_loop_cons_none db s gen v t0 ts hw0]
      rcases List.mem_cons.1 ht with heq | hts
      · subst heq
        exact List.mem_cons_self _ _
      · exact List.mem_cons_of_mem _ (bulk_loop_errors_mem s gen v ts db t hts hw)

theorem bulk_loop_tc_version (s : String) (gen : String → Option Json)
    (v : Option Int) :
    ∀ (ts : List (Json × Json × Json)) (db : DB),
      ∀ row ∈ (bulk_loop db s gen v ts).2.2.test_cases,
        row.version = v ∨ ∃ r0 ∈ db.test_cases, row.version = r0.version
  | [], db => by
    intro row hrow
    exact Or.inr ⟨row, hrow, rfl⟩
  | t :: ts, db => by
    intro row hrow
    cases hw : bulk_worker_outcome gen t with
    | some tcObj =>
      rw [bulk_loop_cons_some db s gen v t ts tcObj hw] at hrow
      have ih := bulk_loop_tc_version s gen v ts
        ((write_testcases db (some s) t.1.pyStr tcObj v true).getD db) row hrow
      rcases ih with hv | ⟨r0, hr0, hver⟩
      · exact Or.inl hv
      · cases hwt : write_testcases db (some s) t.1.pyStr tcObj v true with
        | none =>
          rw [hwt] at hr0
          exact Or.inr ⟨r0, hr0, hver⟩
        | some dbw =>
          rw [hwt] at hr0
          have := write_testcases_tc_version db dbw (some s) t.1.pyStr tcObj v
            true hwt r0 hr0
          rcases this with hv0 | ⟨r1, hr1, hv1⟩
          · exact Or.inl (hver.trans hv0)
          · exact Or.inr ⟨r1, hr1, hver.trans hv1⟩
    | none =>
      rw [bulk_loop_cons_none db s gen v t ts hw] at hrow
      exact bulk_loop_tc_version s gen v ts db row hrow

/-- C7.  Bulk partial failure.  When the cached requirement list yields a
non-empty target list, the bulk test-case generation over those N targets
returns normally (`ok`, never aborting the batch) with
`generated + failed = N`, `failed` equal to the number of targets whose
worker raised, every failing target's identifier recorded in `errors`,
every persisted test-case row carrying the single version number cut once
before the fan-out (any other row predates the batch), and a worker pool
bounded by 6. -/
theorem claim_C7_bulk_partial_failure (db : DB) (s : String)
    (gen : String → Option Json) (now : String)
    (hne : bulk_targets ((lookupCache db.cache s).getD []) ≠ []) :
    ∃ (r : BulkResult) (db2 : DB),
      generate_and_store_testcases_bulk db s gen now = (.ok r, db2) ∧
      r.generated + r.failed =
        (bulk_targets ((lookupCache db.cache s).getD [])).length ∧
      r.failed = ((bulk_targets ((lookupCache db.cache s).getD [])).filter
          (fun t => (bulk_worker_outcome gen t).isNone)).length ∧
      (∀ t ∈ bulk_targets ((lookupCache db.cache s).getD []),
        bulk_worker_outcome gen t = none →
        Json.jobj [("req_id", t.1),
                   ("error", .jstr "Invalid JSON from testcase writer")] ∈
          r.errors) ∧
      (∀ row ∈ db2.test_cases,
        row.version = (increment_suite_version db s
            "Generated test cases for all requirements" none now).1 ∨
        ∃ r0 ∈ (increment_suite_version db s
            "Generated test cases for all requirements" none now).2.test_cases,
          row.version = r0.version) ∧
      maxWorkersFor (bulk_targets ((lookupCache db.cache s).getD [])).length ≤ 6 := by
  have hlen : ∀ (ts : List (Json × Json × Json)),
      (ts.filter (fun t => (bulk_worker_outcome gen t).isSome)).length +
        (ts.filter (fun t => (bulk_worker_outcome gen t).isNone)).length =
      ts.length := by
    intro ts
    induction ts with
    | nil => rfl
    | cons t ts ih =>
      cases hw : bulk_worker_outcome gen t <;>
        simp [List.filter_cons, hw, Nat.add_assoc, Nat.add_comm,
          Nat.add_left_comm, ← ih]
  refine ⟨⟨(bulk_loop (increment_suite_version db s
        "Generated test cases for all requirements" none now).2 s gen
        (increment_suite_version db s
          "Generated test cases for all requirements" none now).1
        (bulk_targets ((lookupCache db.cache s).getD []))).1.length,
      (bulk_loop (increment_suite_version db s
        "Generated test cases for all requirements" none now).2 s gen
        (increment_suite_version db s
          "Generated test cases for all requirements" none now).1
        (bulk_targets ((lookupCache db.cache s).getD []))).2.1.length,
      (bulk_loop (increment_suite_version db s
        "Generated test cases for all requirements" none now).2 s gen
        (increment_suite_version db s
          "Generated test cases for all requirements" none now).1
        (bulk_targets ((lookupCache db.cache s).getD []))).1,
      (bulk_loop (increment_suite_version db s
        "Generated test cases for all requirements" none now).2 s gen
        (increment_suite_version db s
          "Generated test cases for all requirements" none now).1
        (bulk_targets ((lookupCache db.cache s).getD []))).2.1⟩,
    (bulk_loop (increment_suite_version db s
        "Generated test cases for all requirements" none now).2 s gen
        (increment_suite_version db s
          "Generated test cases for all requirements" none now).1
        (bulk_targets ((lookupCache db.cache s).getD []))).2.2,
    ?_, ?_, ?_, ?_, ?_, ?_⟩
  · unfold generate_and_store_testcases_bulk
    dsimp only
    rw [if_neg hne]
  · have hc := bulk_loop_counts s gen
      (increment_suite_version db s
        "Generated test cases for all requirements" none now).1
      (bulk_targets ((lookupCache db.cache s).getD []))
      (increment_suite_version db s
        "Generated test cases for all requirements" none now).2
    rw [hc.1, hc.2]
    exact hlen _
  · exact (bulk_loop_counts s gen _ _ _).2
  · intro t ht hw
    exact bulk_loop_errors_mem s gen _ _ _ t ht hw
  · intro row hrow
    exact bulk_loop_tc_version s gen _ _ _ row hrow
  · unfold maxWorkersFor
    omega

/-- Concrete database for the C7 witness: a suite with two cached
requirements, one of which will fail generation. -/
def c7db : DB :=
  ⟨[], [], [], [], [⟨"s1", .jobj []⟩],
   [], [("s1", [.jobj [("id", .jstr "R1")], .jobj [("id", .jstr "R2")]])], 0⟩

/-- Generation stub for the C7 witness: succeeds on R1, raises on R2. -/
def c7gen : String → Option Json :=
  fun q => if q = "R1" then some (.jobj [("requirement_id", .jstr "R1")]) else none

/-- Witness for C7 at a concrete database and generation stub. -/
theorem claim_C7_bulk_partial_failure_witness :
    ∃ (r : BulkResult) (db2 : DB),
      generate_and_store_testcases_bulk c7db "s1" c7gen "t0" = (.ok r, db2) ∧
      r.generated + r.failed =
        (bulk_targets ((lookupCache c7db.cache "s1").getD [])).length ∧
      r.failed = ((bulk_targets ((lookupCache c7db.cache "s1").getD [])).filter
          (fun t => (bulk_worker_outcome c7gen t).isNone)).length ∧
      (∀ t ∈ bulk_targets ((lookupCache c7db.cache "s1").getD []),
        bulk_worker_outcome c7gen t = none →
        Json.jobj [("req_id", t.1),
                   ("error", .jstr "Invalid JSON from testcase writer")] ∈
          r.errors) ∧
      (∀ row ∈ db2.test_cases,
        row.version = (increment_suite_version c7db "s1"
            "Generated test cases for all requirements" none "t0").1 ∨
        ∃ r0 ∈ (increment_suite_version c7db "s1"
            "Generated test cases for all requirements" none "t0").2.test_cases,
          row.version = r0.version) ∧
      maxWorkersFor
        (bulk_targets ((lookupCache c7db.cache "s1").getD [])).length ≤ 6 :=
  claim_C7_bulk_partial_failure c7db "s1" c7gen "t0" (by decide)

/-! ## Clone-effect machinery: projections and generic list lemmas -/

/-- The test-case clone re-stamps the `version` key of each content dict. -/
def stampVersion (tv : Int) : Json → Json
  | .jobj kvs => .jobj (setKV kvs "version" (.jnum tv))
  | j => j

/-- All requirement-row fields except `active` and `source_doc`. -/
def reqProj (r : ReqRow) : Option String × String × Nat × Option Int × Json :=
  (r.suite_id, r.req_code, r.rowId, r.version, r.content)

/-- All test-case-row fields except `active` and `rowId`. -/
def tcProj (t : TcRow) : Option String × Option Nat × Option Int × Json :=
  (t.suite_id, t.requirement_id, t.version, t.content)

def tdProj (t : TdRow) : Option String × Option Int × Json :=
  (t.suite_id, t.version, t.content)

def vpProj (v : VpRow) : Option String × Option Int × Json :=
  (v.suite_id, v.version, v.content)

theorem filter_map_comp {α β γ : Type} (f : α → β) (P : β → Bool) (g : β → γ) :
    ∀ (l : List α),
      (l.filter (fun a => P (f a))).map (fun a => g (f a)) =
        ((l.map f).filter P).map g
  | [] => rfl
  | a :: l => by
    simp only [List.filter_cons, List.map_cons]
    cases hp : P (f a) <;>
      simp [filter_map_comp f P g l]

theorem map_filter_of_map_eq {α β γ : Type} (f : α → β) (P : β → Bool)
    (g : β → γ) (l1 l2 : List α) (h : l1.map f = l2.map f) :
    (l1.filter (fun a => P (f a))).map (fun a => g (f a)) =
      (l2.filter (fun a => P (f a))).map (fun a => g (f a)) := by
  rw [filter_map_comp f P g l1, filter_map_comp f P g l2, h]

theorem forall_mem_of_map_eq {α β : Type} (f : α → β) (Q : β → Prop)
    (l1 l2 : List α) (h : l1.map f = l2.map f) (hq : ∀ a ∈ l1, Q (f a)) :
    ∀ a ∈ l2, Q (f a) := by
  intro a ha
  have : f a ∈ l2.map f := List.mem_map_of_mem f ha
  rw [← h] at this
  obtain ⟨a1, ha1, hfa⟩ := List.mem_map.1 this
  exact hfa ▸ hq a1 ha1

theorem exists_mem_of_map_eq {α β : Type} (f : α → β) (Q : β → Prop)
    (l1 l2 : List α) (h : l1.map f = l2.map f) (hq : ∃ a ∈ l1, Q (f a)) :
    ∃ a ∈ l2, Q (f a) := by
  obtain ⟨a, ha, hQ⟩ := hq
  have : f a ∈ l2.map f := h ▸ List.mem_map_of_mem f ha
  obtain ⟨a2, ha2, hfa⟩ := List.mem_map.1 this
  exact ⟨a2, ha2, hfa ▸ hQ⟩

theorem filterMap_eq_map_of_forall {α β : Type} (f : α → Option β) (g : α → β) :
    ∀ (l : List α), (∀ a ∈ l, f a = some (g a)) → l.filterMap f = l.map g
  | [], _ => rfl
  | a :: l, h => by
    rw [List.filterMap_cons, h a (by simp), List.map_cons,
      filterMap_eq_map_of_forall f g l (fun x hx => h x (by simp [hx]))]

theorem setKV_ne_nil (kvs : List (String × Json)) (k : String) (v : Json) :
    setKV kvs k v ≠ [] := by
  unfold setKV
  cases kvs with
  | nil => simp
  | cons p rest =>
    obtain ⟨k0, v0⟩ := p
    dsimp only
    split <;> simp

theorem delKV_of_lookup_none (kvs : List (String × Json)) (k : String)
    (h : lookupKV kvs k = none) : delKV kvs k = kvs := by
  unfold delKV
  rw [List.filter_eq_self]
  intro p hp
  unfold lookupKV at h
  cases hf : kvs.find? (fun q => q.1 = k) with
  | some q => rw [hf] at h; exact absurd h (by simp)
  | none =>
    have := List.find?_eq_none.1 hf p hp
    simpa using this

/-! Content-shape predicates used as clone-readiness hypotheses (Boolean so
that a concrete database can discharge them by evaluation). -/

/-- A requirement content the clone copies verbatim: a dict whose `id` is a
non-blank whitespace-stable string. -/
def reqContentOK (c : Json) : Bool :=
  match c with
  | .jobj kvs =>
    (match lookupKV kvs "id" with
     | some (.jstr code) => code.pyStrip = code ∧ code ≠ ""
     | _ => false)
  | _ => false

/-- A test-case row the clone copies (modulo the `version` re-stamp): dict
content and a `requirement_id` resolvable to a coded requirement row. -/
def tcRowOK (db : DB) (s : String) (t : TcRow) : Bool :=
  t.content.isObj &&
    (match t.requirement_id with
     | some rid => db.requirements.any (fun q =>
         q.suite_id = some s ∧ q.rowId = rid ∧ q.req_code ≠ "")
     | none => false)

/-- A viewpoint content the clone copies verbatim: a non-empty dict without
the `viewpoints` / `items` / `__req_code` special keys. -/
def vpContentOK (c : Json) : Bool :=
  match c with
  | .jobj kvs =>
    kvs ≠ [] ∧ lookupKV kvs "viewpoints" = none ∧
      lookupKV kvs "items" = none ∧ lookupKV kvs "__req_code" = none
  | _ => false

/-- Readiness of a database for cloning suite `s` from version `sv` to a
fresh version `tv`: no rows at `tv` yet, and the source rows have the shapes
the writers store verbatim. -/
def CloneReady (db : DB) (s : String) (sv tv : Int) : Prop :=
  (∀ r ∈ db.requirements, ¬(r.suite_id = some s ∧ r.version = some tv)) ∧
  (∀ t ∈ db.test_cases, ¬(t.suite_id = some s ∧ t.version = some tv)) ∧
  (∀ t ∈ db.test_designs, ¬(t.suite_id = some s ∧ t.version = some tv)) ∧
  (∀ t ∈ db.viewpoints, ¬(t.suite_id = some s ∧ t.version = some tv)) ∧
  (∀ c ∈ reqContentsAt db s sv, reqContentOK c = true) ∧
  (∀ r ∈ db.requirements, r.suite_id = some s →
    r.req_code.pyStrip = r.req_code) ∧
  (∀ t ∈ tcRowsAt db s sv, tcRowOK db s t = true) ∧
  (∀ c ∈ tdContentsAt db s sv, c.truthy = true) ∧
  (∀ c ∈ vpContentsAt db s sv, vpContentOK c = true)

/-! ## Strong effect of the artifact writers -/

theorem deactivate_requirements_proj (db : DB) (sid : Option String)
    (code : String) :
    (deactivate_requirements db sid code).requirements.map reqProj =
      db.requirements.map reqProj := by
  unfold deactivate_requirements
  dsimp only
  rw [List.map_map]
  refine List.map_congr_left ?_
  intro r _
  by_cases h : r.suite_id = sid ∧ r.req_code = code ∧ r.active = true <;>
    simp [h, reqProj]

theorem write_requirements_loop_effect (sid : Option String) (v : Option Int)
    (a : Bool) :
    ∀ (ps : List (Json × String × String)) (db : DB),
      ∃ news : List ReqRow,
        (write_requirements_loop db sid v a ps).requirements.map reqProj =
          db.requirements.map reqProj ++ news.map reqProj ∧
        news.map (fun r => (r.req_code, r.content)) =
          ps.map (fun p => (p.2.1, p.1)) ∧
        (∀ r ∈ news, r.suite_id = sid ∧ r.version = v ∧ db.nextId ≤ r.rowId) ∧
        db.nextId ≤ (write_requirements_loop db sid v a ps).nextId
  | [], db => ⟨[], by simp [write_requirements_loop]⟩
  | (content, code, sd) :: ps, db => by
    rw [write_requirements_loop]
    set db1 := deactivate_requirements db sid code with hdb1
    have hproj1 : db1.requirements.map reqProj = db.requirements.map reqProj :=
      deactivate_requirements_proj db sid code
    have hnext1 : db1.nextId = db.nextId := rfl
    set row : ReqRow :=
      { rowId := db1.nextId, suite_id := sid, req_code := code,
        source_doc := sd, content := content, version := v, active := a }
      with hrow
    have hins : (insertReq db1
        { rowId := 0, suite_id := sid, req_code := code, source_doc := sd,
          content := content, version := v, active := a }).requirements =
        db1.requirements ++ [row] := rfl
    obtain ⟨news2, hp2, hc2, hq2, hn2⟩ := write_requirements_loop_effect sid v a
      ps (insertReq db1
        { rowId := 0, suite_id := sid, req_code := code, source_doc := sd,
          content := content, version := v, active := a })
    refine ⟨row :: news2, ?_, ?_, ?_, ?_⟩
    · rw [hp2, hins, List.map_append, hproj1]
      simp
    · simp only [List.map_cons, hc2]
    · intro r hr
      rcases List.mem_cons.1 hr with heq | hmem
      · subst heq
        exact ⟨rfl, rfl, Nat.le_refl _⟩
      · have := hq2 r hmem
        have hni : (insertReq db1
            { rowId := 0, suite_id := sid, req_code := code, source_doc := sd,
              content := content, version := v, active := a }).nextId =
            db.nextId + 1 := rfl
        exact ⟨this.1, this.2.1, by omega⟩
    · have hni : (insertReq db1
          { rowId := 0, suite_id := sid, req_code := code, source_doc := sd,
            content := content, version := v, active := a }).nextId =
          db.nextId + 1 := rfl
      omega

/-- The prepared row `write_requirements` builds for a dict item with a
truthy id (total version of `prepareReqRow` for such items). -/
def prepRow (c : Json) : Json × String × String :=
  (prepareReqRow c).getD (c, "", "")

theorem prepareReqRow_of_ok (c : Json) (hc : reqContentOK c = true) :
    prepareReqRow c = some (prepRow c) ∧ (prepRow c).1 = c ∧
    (prepRow c).2.1.pyStrip = (prepRow c).2.1 ∧ (prepRow c).2.1 ≠ "" := by
  cases c with
  | jobj kvs =>
    unfold reqContentOK at hc
    dsimp only at hc
    cases hid : lookupKV kvs "id" with
    | none => rw [hid] at hc; exact absurd hc (by simp)
    | some idv =>
      cases idv with
      | jstr code =>
        rw [hid] at hc
        have hcode : code.pyStrip = code ∧ code ≠ "" := by
          simpa using hc
        have hprep : prepareReqRow (.jobj kvs) =
            some (.jobj kvs, code,
              if ((lookupKV kvs "source").getD Json.null).truthy then
                ((lookupKV kvs "source").getD Json.null).pyStr
              else "") := by
          unfold prepareReqRow
          dsimp only
          rw [hid]
          have htr : (Json.jstr code).truthy = true := by
            simp [Json.truthy, hcode.2]
          simp only [Option.getD_some, htr, if_true]
          rfl
        have hpr : prepRow (.jobj kvs) = (.jobj kvs, code,
            if ((lookupKV kvs "source").getD Json.null).truthy then
              ((lookupKV kvs "source").getD Json.null).pyStr
            else "") := by
          unfold prepRow
          rw [hprep]
          rfl
        refine ⟨?_, ?_, ?_, ?_⟩
        · rw [hprep, hpr]
        · rw [hpr]
        · rw [hpr]
          exact hcode.1
        · rw [hpr]
          exact hcode.2
      | null => rw [hid] at hc; exact absurd hc (by simp)
      | jbool b => rw [hid] at hc; exact absurd hc (by simp)
      | jnum n => rw [hid] at hc; exact absurd hc (by simp)
      | jarr xs => rw [hid] at hc; exact absurd hc (by simp)
      | jobj k2 => rw [hid] at hc; exact absurd hc (by simp)
  | null => exact absurd hc (by simp [reqContentOK])
  | jbool b => exact absurd hc (by simp [reqContentOK])
  | jnum n => exact absurd hc (by simp [reqContentOK])
  | jstr s0 => exact absurd hc (by simp [reqContentOK])
  | jarr xs => exact absurd hc (by simp [reqContentOK])

theorem write_requirements_effect (db : DB) (sid : Option String)
    (reqs : List Json) (v : Option Int) (a : Bool)
    (hok : ∀ c ∈ reqs, reqContentOK c = true) :
    ∃ (db2 : DB) (news : List ReqRow),
      write_requirements db sid reqs v a = some db2 ∧
      db2.requirements.map reqProj =
        db.requirements.map reqProj ++ news.map reqProj ∧
      news.map (fun r => r.content) = reqs ∧
      (∀ r ∈ news, r.suite_id = sid ∧ r.version = v ∧ db.nextId ≤ r.rowId ∧
        r.req_code.pyStrip = r.req_code) ∧
      db.nextId ≤ db2.nextId ∧
      db2.test_cases = db.test_cases ∧ db2.test_designs = db.test_designs ∧
      db2.viewpoints = db.viewpoints ∧ db2.test_suites = db.test_suites ∧
      db2.cache = db.cache := by
  have hall : reqs.all Json.isObj = true := by
    rw [List.all_eq_true]
    intro c hc
    have := hok c hc
    cases c <;> first
      | rfl
      | exact absurd this (by simp [reqContentOK])
  have hmap : reqs.filterMap prepareReqRow = reqs.map prepRow :=
    filterMap_eq_map_of_forall prepareReqRow prepRow reqs
      (fun c hc => (prepareReqRow_of_ok c (hok c hc)).1)
  have hw : write_requirements db sid reqs v a =
      some (write_requirements_loop db sid v a (reqs.map prepRow)) := by
    unfold write_requirements
    rw [if_pos hall, hmap]
  obtain ⟨news, hp, hc, hq, hn⟩ :=
    write_requirements_loop_effect sid v a (reqs.map prepRow) db
  have hpairs : news.map (fun r => (r.req_code, r.content)) =
      reqs.map (fun c => ((prepRow c).2.1, c)) := by
    rw [hc, List.map_map]
    exact List.map_congr_left (fun c hcm => by
      simp [(prepareReqRow_of_ok c (hok c hcm)).2.1])
  have hcontents : news.map (fun r => r.content) = reqs := by
    have h := congrArg (List.map Prod.snd) hpairs
    rw [List.map_map, List.map_map] at h
    exact h.trans (List.map_id reqs)
  have hframe := write_requirements_frame db sid reqs v a _ hw
  refine ⟨_, news, hw, hp, hcontents, ?_, hn, hframe.1, hframe.2.1,
    hframe.2.2.1, hframe.2.2.2.1, hframe.2.2.2.2.2⟩
  intro r hr
  obtain ⟨h1, h2, h3⟩ := hq r hr
  refine ⟨h1, h2, h3, ?_⟩
  have hmem : (r.req_code, r.content) ∈
      reqs.map (fun c => ((prepRow c).2.1, c)) := by
    rw [← hpairs]
    exact List.mem_map_of_mem _ hr
  obtain ⟨c, hcm, hceq⟩ := List.mem_map.1 hmem
  have := (prepareReqRow_of_ok c (hok c hcm)).2.2.1
  have hcode : r.req_code = (prepRow c).2.1 := by
    have := congrArg Prod.fst hceq
    exact this.symm
  rw [hcode]
  exact this

theorem deactivate_test_cases_proj (db : DB) (rid : Nat) :
    (deactivate_test_cases db rid).test_cases.map tcProj =
      db.test_cases.map tcProj := by
  unfold deactivate_test_cases
  dsimp only
  rw [List.map_map]
  refine List.map_congr_left ?_
  intro t _
  by_cases h : t.requirement_id = some rid ∧ t.active = true <;>
    simp [h, tcProj]

theorem write_testcases_effect (db : DB) (sid : Option String) (code : String)
    (tc : Json) (v : Option Int) (a : Bool)
    (hex : ∃ q ∈ db.requirements, q.req_code = code ∧ q.suite_id = sid) :
    ∃ (db2 : DB) (rid : Nat),
      write_testcases db sid code tc v a = some db2 ∧
      db2.requirements = db.requirements ∧
      db2.test_cases.map tcProj =
        db.test_cases.map tcProj ++ [(sid, some rid, v, tc)] ∧
      db2.test_designs = db.test_designs ∧ db2.viewpoints = db.viewpoints ∧
      db2.test_suites = db.test_suites ∧ db2.cache = db.cache ∧
      db2.nextId = db.nextId + 1 := by
  have hfind : ∃ rid, get_requirement_row_id db sid code = some rid := by
    obtain ⟨q, hq, hqc, hqs⟩ := hex
    unfold get_requirement_row_id
    cases hf : db.requirements.find? (fun r => r.req_code = code ∧ r.suite_id = sid) with
    | some r => exact ⟨r.rowId, rfl⟩
    | none =>
      exact absurd (List.find?_eq_none.1 hf q hq) (by simp [hqc, hqs])
  obtain ⟨rid, hrid⟩ := hfind
  refine ⟨insertTc (deactivate_test_cases db rid)
      { rowId := 0, requirement_id := some rid, suite_id := sid,
        content := tc, version := v, active := a },
    rid, ?_, ?_, ?_, ?_, ?_, ?_, ?_, ?_⟩
  · unfold write_testcases
    rw [hrid]
  · rfl
  · unfold insertTc
    dsimp only
    rw [List.map_append, deactivate_test_cases_proj]
    rfl
  · rfl
  · rfl
  · rfl
  · rfl
  · rfl

theorem write_testcases_bulk_loop_effect (sid : Option String) (v : Option Int)
    (a : Bool) (tv : Int) :
    ∀ (rows : List TcBulkRow) (db : DB),
      (∀ row ∈ rows, row.req_code.pyStrip = row.req_code ∧ row.req_code ≠ "" ∧
        row.testcases.truthy = true ∧ row.version = some tv ∧
        (∃ q ∈ db.requirements, q.req_code = row.req_code ∧ q.suite_id = sid)) →
      ∃ projNews : List (Option String × Option Nat × Option Int × Json),
        (write_testcases_bulk_loop db sid v a rows).requirements =
          db.requirements ∧
        (write_testcases_bulk_loop db sid v a rows).test_cases.map tcProj =
          db.test_cases.map tcProj ++ projNews ∧
        projNews.map (fun x => x.2.2.2) = rows.map (fun r => r.testcases) ∧
        (∀ x ∈ projNews, x.1 = sid ∧ x.2.2.1 = some tv) ∧
        (write_testcases_bulk_loop db sid v a rows).test_designs =
          db.test_designs ∧
        (write_testcases_bulk_loop db sid v a rows).viewpoints = db.viewpoints ∧
        (write_testcases_bulk_loop db sid v a rows).test_suites =
          db.test_suites ∧
        (write_testcases_bulk_loop db sid v a rows).cache = db.cache ∧
        db.nextId ≤ (write_testcases_bulk_loop db sid v a rows).nextId
  | [], db => fun _ =>
    ⟨[], rfl, by simp [write_testcases_bulk_loop], rfl, by simp, rfl, rfl, rfl,
      rfl, Nat.le_refl _⟩
  | row :: rest, db => by
    intro h
    obtain ⟨hstable, hne, htr, hv, hex⟩ := h row (by simp)
    obtain ⟨db2, rid, hw, hreq, htc, htd, hvp, hsu, hca, hni⟩ :=
      write_testcases_effect db sid row.req_code row.testcases (some tv) a hex
    have hbody : write_testcases_bulk_loop db sid v a (row :: rest) =
        write_testcases_bulk_loop db2 sid v a rest := by
      rw [write_testcases_bulk_loop]
      dsimp only
      rw [hstable, if_neg hne, if_pos htr, hv]
      dsimp only
      rw [hw]
      rfl
    obtain ⟨projNews2, ih1, ih2, ih3, ih4, ih5, ih6, ih7, ih8, ih9⟩ :=
      write_testcases_bulk_loop_effect sid v a tv rest db2 (by
        intro r hr
        obtain ⟨a1, a2, a3, a4, a5⟩ := h r (by simp [hr])
        exact ⟨a1, a2, a3, a4, by rw [hreq]; exact a5⟩)
    rw [hbody]
    refine ⟨(sid, some rid, some tv, row.testcases) :: projNews2,
      ih1.trans hreq, ?_, ?_, ?_, ih5.trans htd, ih6.trans hvp, ih7.trans hsu,
      ih8.trans hca, by omega⟩
    · rw [ih2, htc]
      simp
    · simp only [List.map_cons, ih3]
    · intro x hx
      rcases List.mem_cons.1 hx with heq | hmem
      · subst heq
        exact ⟨rfl, rfl⟩
      · exact ih4 x hmem

theorem deactivate_test_designs_proj (db : DB) (sid : Option String)
    (ttype : String) :
    (deactivate_test_designs db sid ttype).test_designs.map tdProj =
      db.test_designs.map tdProj := by
  unfold deactivate_test_designs
  dsimp only
  rw [List.map_map]
  refine List.map_congr_left ?_
  intro t _
  by_cases h : t.suite_id = sid ∧ t.testing_type = ttype ∧ t.active = true <;>
    simp [h, tdProj]

theorem write_test_design_bulk_loop_effect (sid : Option String)
    (v : Option Int) (a : Bool) (tv : Int) :
    ∀ (items : List TdBulkItem) (db : DB),
      (∀ it ∈ items, it.content.truthy = true ∧ it.version = some tv) →
      (write_test_design_bulk_loop db sid v a items).2.test_designs.map tdProj =
        db.test_designs.map tdProj ++
          items.map (fun it => (sid, some tv, it.content)) ∧
      (write_test_design_bulk_loop db sid v a items).2.requirements =
        db.requirements ∧
      (write_test_design_bulk_loop db sid v a items).2.test_cases =
        db.test_cases ∧
      (write_test_design_bulk_loop db sid v a items).2.viewpoints =
        db.viewpoints ∧
      (write_test_design_bulk_loop db sid v a items).2.test_suites =
        db.test_suites ∧
      (write_test_design_bulk_loop db sid v a items).2.cache = db.cache ∧
      db.nextId ≤ (write_test_design_bulk_loop db sid v a items).2.nextId
  | [], db => fun _ => ⟨by simp [write_test_design_bulk_loop], rfl, rfl, rfl,
      rfl, rfl, Nat.le_refl _⟩
  | it :: rest, db => by
    intro h
    obtain ⟨htr, hv⟩ := h it (by simp)
    set ttype := if it.testing_type = "" then "integration" else it.testing_type
      with httype
    set db2 := insertTd (deactivate_test_designs db sid ttype)
      { rowId := 0, suite_id := sid, testing_type := ttype,
        content := it.content, version := some tv, active := a } with hdb2
    have hbody : write_test_design_bulk_loop db sid v a (it :: rest) =
        ((write_test_design db sid it.content ttype (some tv) a).1.elim []
            (fun i => [i]) ++
          (write_test_design_bulk_loop db2 sid v a rest).1,
         (write_test_design_bulk_loop db2 sid v a rest).2) := by
      rw [write_test_design_bulk_loop]
      dsimp only
      rw [if_pos htr, hv]
      rfl
    obtain ⟨ih1, ih2, ih3, ih4, ih5, ih6, ih7⟩ :=
      write_test_design_bulk_loop_effect sid v a tv rest db2 (fun r hr =>
        h r (by simp [hr]))
    have hproj2 : db2.test_designs.map tdProj =
        db.test_designs.map tdProj ++ [(sid, some tv, it.content)] := by
      rw [hdb2]
      unfold insertTd
      dsimp only
      rw [List.map_append, deactivate_test_designs_proj]
      rfl
    have hfr : db2.requirements = db.requirements ∧
        db2.test_cases = db.test_cases ∧ db2.viewpoints = db.viewpoints ∧
        db2.test_suites = db.test_suites ∧ db2.cache = db.cache ∧
        db2.nextId = db.nextId + 1 := ⟨rfl, rfl, rfl, rfl, rfl, rfl⟩
    rw [hbody]
    refine ⟨?_, ih2.trans hfr.1, ih3.trans hfr.2.1, ih4.trans hfr.2.2.1,
      ih5.trans hfr.2.2.2.1, ih6.trans hfr.2.2.2.2.1, by
        show db.nextId ≤ (write_test_design_bulk_loop db2 sid v a rest).2.nextId
        have h2 := hfr.2.2.2.2.2
        omega⟩
    rw [ih1, hproj2]
    simp

theorem deactivate_viewpoints_proj (db : DB) (sid : Option String)
    (rid : Option Nat) (name : String) :
    (deactivate_viewpoints db sid rid name).viewpoints.map vpProj =
      db.viewpoints.map vpProj := by
  unfold deactivate_viewpoints
  dsimp only
  rw [List.map_map]
  refine List.map_congr_left ?_
  intro t _
  by_cases h : t.suite_id = sid ∧ t.requirement_id = rid ∧ t.name = name ∧
      t.active = true <;>
    simp [h, vpProj]

theorem write_viewpoints_single_effect (db : DB) (sid : Option String)
    (rid : Option Nat) (tdid : Option Nat) (v : Option Int) (a : Bool)
    (kvs : List (String × Json)) (hok : vpContentOK (.jobj kvs) = true) :
    (write_viewpoints db sid rid (.jobj kvs) tdid v a).2.viewpoints.map vpProj =
      db.viewpoints.map vpProj ++ [(sid, v, .jobj kvs)] ∧
    (write_viewpoints db sid rid (.jobj kvs) tdid v a).2.requirements =
      db.requirements ∧
    (write_viewpoints db sid rid (.jobj kvs) tdid v a).2.test_cases =
      db.test_cases ∧
    (write_viewpoints db sid rid (.jobj kvs) tdid v a).2.test_designs =
      db.test_designs ∧
    (write_viewpoints db sid rid (.jobj kvs) tdid v a).2.test_suites =
      db.test_suites ∧
    (write_viewpoints db sid rid (.jobj kvs) tdid v a).2.cache = db.cache ∧
    (write_viewpoints db sid rid (.jobj kvs) tdid v a).2.nextId =
      db.nextId + 1 := by
  unfold vpContentOK at hok
  dsimp only at hok
  have hshape : kvs ≠ [] ∧ lookupKV kvs "viewpoints" = none ∧
      lookupKV kvs "items" = none ∧ lookupKV kvs "__req_code" = none := by
    simpa using hok
  have hitems : viewpoint_items_of_content (.jobj kvs) = [kvs] := by
    unfold viewpoint_items_of_content
    dsimp only
    rw [hshape.2.1]
    dsimp only
    rw [hshape.2.2.1]
  have hdel : delKV kvs "__req_code" = kvs :=
    delKV_of_lookup_none kvs _ hshape.2.2.2
  have hloop : ∀ (ridl : Option Nat) (name : String),
      ((insertVp (deactivate_viewpoints db sid ridl name)
        { rowId := 0, suite_id := sid, test_design_id := tdid,
          requirement_id := ridl, name := name, content := .jobj kvs,
          version := v, active := a }).viewpoints.map vpProj =
        db.viewpoints.map vpProj ++ [(sid, v, .jobj kvs)]) := by
    intro ridl name
    unfold insertVp
    dsimp only
    rw [List.map_append, deactivate_viewpoints_proj]
    rfl
  have hw : write_viewpoints db sid rid (.jobj kvs) tdid v a =
      ((deactivate_viewpoints db sid
          (match rid with
           | some r => some r
           | none => resolve_requirement_id_from_item db sid kvs)
          (derive_item_name kvs)).nextId ::
        ([] : List Nat),
       insertVp (deactivate_viewpoints db sid
          (match rid with
           | some r => some r
           | none => resolve_requirement_id_from_item db sid kvs)
          (derive_item_name kvs))
        { rowId := 0, suite_id := sid, test_design_id := tdid,
          requirement_id :=
            (match rid with
             | some r => some r
             | none => resolve_requirement_id_from_item db sid kvs),
          name := derive_item_name kvs, content := .jobj kvs,
          version := v, active := a }) := by
    unfold write_viewpoints
    rw [hitems, write_viewpoints_loop.eq_def]
    dsimp only
    rw [hshape.2.2.2, hdel]
    cases rid <;> rfl
  rw [hw]
  exact ⟨hloop _ _, rfl, rfl, rfl, rfl, rfl, rfl⟩

theorem write_viewpoints_bulk_loop_effect (sid : Option String)
    (v : Option Int) (a : Bool) (tv : Int) :
    ∀ (items : List VpBulkItem) (db : DB),
      (∀ it ∈ items, vpContentOK it.content = true ∧ it.version = some tv) →
      (write_viewpoints_bulk_loop db sid v a items).2.viewpoints.map vpProj =
        db.viewpoints.map vpProj ++
          items.map (fun it => (sid, some tv, it.content)) ∧
      (write_viewpoints_bulk_loop db sid v a items).2.requirements =
        db.requirements ∧
      (write_viewpoints_bulk_loop db sid v a items).2.test_cases =
        db.test_cases ∧
      (write_viewpoints_bulk_loop db sid v a items).2.test_designs =
        db.test_designs ∧
      (write_viewpoints_bulk_loop db sid v a items).2.test_suites =
        db.test_suites ∧
      (write_viewpoints_bulk_loop db sid v a items).2.cache = db.cache ∧
      db.nextId ≤ (write_viewpoints_bulk_loop db sid v a items).2.nextId
  | [], db => fun _ => ⟨by simp [write_viewpoints_bulk_loop], rfl, rfl, rfl,
      rfl, rfl, Nat.le_refl _⟩
  | it :: rest, db => by
    intro h
    obtain ⟨hok, hv⟩ := h it (by simp)
    obtain ⟨kvs, hkvs⟩ : ∃ kvs, it.content = .jobj kvs := by
      cases hc : it.content with
      | jobj kvs => exact ⟨kvs, rfl⟩
      | null => rw [hc] at hok; exact absurd hok (by simp [vpContentOK])
      | jbool b => rw [hc] at hok; exact absurd hok (by simp [vpContentOK])
      | jnum n => rw [hc] at hok; exact absurd hok (by simp [vpContentOK])
      | jstr s0 => rw [hc] at hok; exact absurd hok (by simp [vpContentOK])
      | jarr xs => rw [hc] at hok; exact absurd hok (by simp [vpContentOK])
    have htruthy : it.content.truthy = true := by
      rw [hkvs]
      have hne : kvs ≠ [] := by
        have h2 := hkvs ▸ hok
        unfold vpContentOK at h2
        dsimp only at h2
        have h3 : kvs ≠ [] ∧ lookupKV kvs "viewpoints" = none ∧
            lookupKV kvs "items" = none ∧ lookupKV kvs "__req_code" = none := by
          simpa using h2
        exact h3.1
      simp [Json.truthy, hne]
    obtain ⟨e1, e2, e3, e4, e5, e6, e7⟩ := write_viewpoints_single_effect db sid
      it.requirement_id it.test_design_id (some tv) a kvs (hkvs ▸ hok)
    set db2 := (write_viewpoints db sid it.requirement_id (.jobj kvs)
      it.test_design_id (some tv) a).2 with hdb2
    have hbody : (write_viewpoints_bulk_loop db sid v a (it :: rest)).2 =
        (write_viewpoints_bulk_loop db2 sid v a rest).2 := by
      rw [write_viewpoints_bulk_loop.eq_def]
      dsimp only
      rw [if_pos htruthy, hv, hkvs]
    obtain ⟨ih1, ih2, ih3, ih4, ih5, ih6, ih7⟩ :=
      write_viewpoints_bulk_loop_effect sid v a tv rest db2 (fun r hr =>
        h r (by simp [hr]))
    rw [hbody]
    refine ⟨?_, ih2.trans e2, ih3.trans e3, ih4.trans e4, ih5.trans e5,
      ih6.trans e6, by omega⟩
    rw [ih1, e1]
    simp [hkvs]

theorem clone_step_requirements_effect (db : DB) (s : String) (sv tv : Int)
    (h1 : ∀ r ∈ db.requirements, ¬(r.suite_id = some s ∧ r.version = some tv))
    (h2 : ∀ c ∈ reqContentsAt db s sv, reqContentOK c = true) :
    ∃ (db1 : DB) (news : List ReqRow),
      clone_step_requirements db s sv tv = some db1 ∧
      db1.requirements.map reqProj =
        db.requirements.map reqProj ++ news.map reqProj ∧
      news.map (fun r => r.content) = reqContentsAt db s sv ∧
      (∀ r ∈ news, r.suite_id = some s ∧ r.version = some tv ∧
        db.nextId ≤ r.rowId ∧ r.req_code.pyStrip = r.req_code) ∧
      db.nextId ≤ db1.nextId ∧
      db1.test_cases = db.test_cases ∧ db1.test_designs = db.test_designs ∧
      db1.viewpoints = db.viewpoints ∧ db1.test_suites = db.test_suites ∧
      db1.cache = db.cache := by
  have hany : (db.requirements.any
      (fun r => r.suite_id = some s ∧ r.version = some tv)) = false := by
    rw [List.any_eq_false]
    intro r hr
    simpa using h1 r hr
  have hfilter : (reqContentsAt db s sv).filter Json.isObj =
      reqContentsAt db s sv := by
    rw [List.filter_eq_self]
    intro c hc
    have := h2 c hc
    cases c <;> first
      | rfl
      | exact absurd this (by simp [reqContentOK])
  unfold clone_step_requirements
  rw [hany, if_neg Bool.false_ne_true]
  dsimp only
  rw [hfilter]
  by_cases hrows : reqContentsAt db s sv = []
  · rw [if_pos hrows]
    exact ⟨db, [], rfl, by simp, by rw [hrows]; rfl, by simp, Nat.le_refl _,
      rfl, rfl, rfl, rfl, rfl⟩
  · rw [if_neg hrows]
    obtain ⟨db2, news, hw, hp, hc, hq, hn, f1, f2, f3, f4, f5⟩ :=
      write_requirements_effect db (some s) (reqContentsAt db s sv) (some tv)
        true h2
    exact ⟨db2, news, hw, hp, hc,
      fun r hr => ⟨(hq r hr).1, (hq r hr).2.1, (hq r hr).2.2.1,
        (hq r hr).2.2.2⟩, hn, f1, f2, f3, f4, f5⟩

theorem reqIdToCodeLookup_spec (rows : List ReqRow) (rid : Nat) (code : String)
    (h : reqIdToCodeLookup rows rid = some code) :
    ∃ r ∈ rows, r.req_code = code ∧ r.req_code ≠ "" ∧ r.rowId = rid := by
  unfold reqIdToCodeLookup at h
  cases hf : ((rows.filter (fun r => r.req_code ≠ "")).reverse.find?
      (fun r => r.rowId = rid)) with
  | none => rw [hf] at h; exact absurd h (by simp)
  | some r =>
    rw [hf] at h
    have hmem := List.mem_of_find?_eq_some hf
    have hpred := List.find?_some hf
    rw [List.mem_reverse, List.mem_filter] at hmem
    refine ⟨r, hmem.1, ?_, by simpa using hmem.2, by simpa using hpred⟩
    simpa using h

theorem reqIdToCodeLookup_isSome (rows : List ReqRow) (rid : Nat)
    (h : ∃ r ∈ rows, r.rowId = rid ∧ r.req_code ≠ "") :
    ∃ code, reqIdToCodeLookup rows rid = some code := by
  obtain ⟨r, hr, hrid, hcode⟩ := h
  unfold reqIdToCodeLookup
  cases hf : ((rows.filter (fun r => r.req_code ≠ "")).reverse.find?
      (fun r => r.rowId = rid)) with
  | some q => exact ⟨q.req_code, rfl⟩
  | none =>
    exfalso
    have := List.find?_eq_none.1 hf r (by
      rw [List.mem_reverse, List.mem_filter]
      exact ⟨hr, by simpa using hcode⟩)
    simp [hrid] at this

/-- The bulk row the clone builds for one source test-case row (total
version of the partial builder inside `clone_tc_bulk_rows`). -/
def cloneBulkOf (reqMapRows : List ReqRow) (tv : Int) (row : TcRow) :
    TcBulkRow :=
  { req_code :=
      (reqIdToCodeLookup reqMapRows (row.requirement_id.getD 0)).getD "",
    testcases := stampVersion tv row.content,
    version := some tv }

theorem cloneBulk_pointwise (db : DB) (s : String) (tv : Int) (row : TcRow)
    (hok : tcRowOK db s row = true)
    (h3 : ∀ r ∈ db.requirements, r.suite_id = some s →
      r.req_code.pyStrip = r.req_code) :
    ((match row.requirement_id with
      | none => none
      | some rid =>
        match reqIdToCodeLookup
            (db.requirements.filter (fun r => r.suite_id = some s)) rid with
        | none => none
        | some code =>
          match row.content with
          | .jobj kvs => some
              { req_code := code,
                testcases := .jobj (setKV kvs "version" (.jnum tv)),
                version := some tv }
          | _ => none) =
      some (cloneBulkOf
        (db.requirements.filter (fun r => r.suite_id = some s)) tv row)) ∧
    (cloneBulkOf (db.requirements.filter (fun r => r.suite_id = some s)) tv
        row).req_code.pyStrip =
      (cloneBulkOf (db.requirements.filter (fun r => r.suite_id = some s)) tv
        row).req_code ∧
    (cloneBulkOf (db.requirements.filter (fun r => r.suite_id = some s)) tv
        row).req_code ≠ "" ∧
    (cloneBulkOf (db.requirements.filter (fun r => r.suite_id = some s)) tv
        row).testcases.truthy = true ∧
    (cloneBulkOf (db.requirements.filter (fun r => r.suite_id = some s)) tv
        row).version = some tv ∧
    (∃ q ∈ db.requirements,
      q.req_code = (cloneBulkOf
        (db.requirements.filter (fun r => r.suite_id = some s)) tv
          row).req_code ∧
      q.suite_id = some s) := by
  unfold tcRowOK at hok
  rw [Bool.and_eq_true] at hok
  obtain ⟨hobj, hreq⟩ := hok
  obtain ⟨kvs, hkvs⟩ : ∃ kvs, row.content = .jobj kvs := by
    cases hc : row.content with
    | jobj kvs => exact ⟨kvs, rfl⟩
    | null => rw [hc] at hobj; exact absurd hobj (by simp [Json.isObj])
    | jbool b => rw [hc] at hobj; exact absurd hobj (by simp [Json.isObj])
    | jnum n => rw [hc] at hobj; exact absurd hobj (by simp [Json.isObj])
    | jstr s0 => rw [hc] at hobj; exact absurd hobj (by simp [Json.isObj])
    | jarr xs => rw [hc] at hobj; exact absurd hobj (by simp [Json.isObj])
  cases hrid : row.requirement_id with
  | none => rw [hrid] at hreq; exact absurd hreq (by simp)
  | some rid =>
    rw [hrid] at hreq
    rw [List.any_eq_true] at hreq
    obtain ⟨q, hqmem, hqprop⟩ := hreq
    have hq : q.suite_id = some s ∧ q.rowId = rid ∧ q.req_code ≠ "" := by
      simpa using hqprop
    have hqf : q ∈ db.requirements.filter (fun r => r.suite_id = some s) :=
      List.mem_filter.2 ⟨hqmem, by simp [hq.1]⟩
    obtain ⟨code, hcode⟩ := reqIdToCodeLookup_isSome _ rid
      ⟨q, hqf, hq.2.1, hq.2.2⟩
    obtain ⟨r, hrmem, hrc, hrne, hrid2⟩ := reqIdToCodeLookup_spec _ rid code
      hcode
    have hrsuite : r.suite_id = some s := by
      have := (List.mem_filter.1 hrmem).2
      simpa using this
    have hrdb : r ∈ db.requirements := (List.mem_filter.1 hrmem).1
    have hbulkval : cloneBulkOf
        (db.requirements.filter (fun r => r.suite_id = some s)) tv row =
        { req_code := code, testcases := .jobj (setKV kvs "version" (.jnum tv)),
          version := some tv } := by
      unfold cloneBulkOf
      rw [hrid, hkvs]
      simp [hcode, stampVersion]
    refine ⟨?_, ?_, ?_, ?_, ?_, ?_⟩
    · dsimp only
      rw [hcode]
      dsimp only
      rw [hkvs]
      dsimp only
      rw [hbulkval]
    · rw [hbulkval]
      have := h3 r hrdb hrsuite
      rw [hrc] at this
      exact this
    · rw [hbulkval]
      rw [← hrc]
      exact hrne
    · rw [hbulkval]
      simp [Json.truthy, setKV_ne_nil]
    · rw [hbulkval]
    · rw [hbulkval]
      exact ⟨r, hrdb, hrc, hrsuite⟩

theorem clone_step_test_cases_effect (db : DB) (s : String) (sv tv : Int)
    (h1 : ∀ t ∈ db.test_cases, ¬(t.suite_id = some s ∧ t.version = some tv))
    (h2 : ∀ t ∈ tcRowsAt db s sv, tcRowOK db s t = true)
    (h3 : ∀ r ∈ db.requirements, r.suite_id = some s →
      r.req_code.pyStrip = r.req_code) :
    ∃ projNews : List (Option String × Option Nat × Option Int × Json),
      (clone_step_test_cases db s sv tv).requirements = db.requirements ∧
      (clone_step_test_cases db s sv tv).test_cases.map tcProj =
        db.test_cases.map tcProj ++ projNews ∧
      projNews.map (fun x => x.2.2.2) =
        (tcContentsAt db s sv).map (stampVersion tv) ∧
      (∀ x ∈ projNews, x.1 = some s ∧ x.2.2.1 = some tv) ∧
      (clone_step_test_cases db s sv tv).test_designs = db.test_designs ∧
      (clone_step_test_cases db s sv tv).viewpoints = db.viewpoints ∧
      (clone_step_test_cases db s sv tv).test_suites = db.test_suites ∧
      (clone_step_test_cases db s sv tv).cache = db.cache ∧
      db.nextId ≤ (clone_step_test_cases db s sv tv).nextId := by
  have hany : (db.test_cases.any
      (fun r => r.suite_id = some s ∧ r.version = some tv)) = false := by
    rw [List.any_eq_false]
    intro r hr
    simpa using h1 r hr
  have hbulk : clone_tc_bulk_rows db s sv tv =
      (db.test_cases.filter
        (fun r => r.suite_id = some s ∧ r.version = some sv)).map
        (cloneBulkOf (db.requirements.filter (fun r => r.suite_id = some s))
          tv) := by
    unfold clone_tc_bulk_rows
    dsimp only
    apply filterMap_eq_map_of_forall
    intro row hrow
    exact (cloneBulk_pointwise db s tv row (h2 row hrow) h3).1
  unfold clone_step_test_cases
  rw [hany, if_neg Bool.false_ne_true]
  dsimp only
  rw [hbulk]
  by_cases hrows : (db.test_cases.filter
      (fun r => r.suite_id = some s ∧ r.version = some sv)) = []
  · rw [hrows, List.map_nil, if_pos rfl]
    refine ⟨[], rfl, by simp, ?_, by simp, rfl, rfl, rfl, rfl, Nat.le_refl _⟩
    show ([] : List Json) = (tcContentsAt db s sv).map (stampVersion tv)
    unfold tcContentsAt tcRowsAt
    rw [hrows]
    rfl
  · rw [if_neg (by simpa using hrows)]
    unfold write_testcases_bulk
    rw [if_neg (by simpa using hrows)]
    obtain ⟨projNews, e1, e2, e3, e4, e5, e6, e7, e8, e9⟩ :=
      write_testcases_bulk_loop_effect (some s) (some tv) true tv
        ((db.test_cases.filter
          (fun r => r.suite_id = some s ∧ r.version = some sv)).map
          (cloneBulkOf (db.requirements.filter (fun r => r.suite_id = some s))
            tv)) db (by
          intro b hb
          obtain ⟨row, hrowmem, hrowe⟩ := List.mem_map.1 hb
          obtain ⟨_, p2, p3, p4, p5, p6⟩ :=
            cloneBulk_pointwise db s tv row (h2 row hrowmem) h3
          exact hrowe ▸ ⟨p2, p3, p4, p5, p6⟩)
    refine ⟨projNews, e1, e2, ?_, e4, e5, e6, e7, e8, e9⟩
    rw [e3]
    unfold tcContentsAt tcRowsAt
    rw [List.map_map, List.map_map]
    refine List.map_congr_left ?_
    intro row hrow
    show (cloneBulkOf _ tv row).testcases = stampVersion tv row.content
    rfl

theorem clone_step_test_designs_effect (db : DB) (s : String) (sv tv : Int)
    (h1 : ∀ t ∈ db.test_designs, ¬(t.suite_id = some s ∧ t.version = some tv))
    (h2 : ∀ c ∈ tdContentsAt db s sv, c.truthy = true) :
    (clone_step_test_designs db s sv tv).test_designs.map tdProj =
      db.test_designs.map tdProj ++
        (tdContentsAt db s sv).map (fun c => (some s, some tv, c)) ∧
    (clone_step_test_designs db s sv tv).requirements = db.requirements ∧
    (clone_step_test_designs db s sv tv).test_cases = db.test_cases ∧
    (clone_step_test_designs db s sv tv).viewpoints = db.viewpoints ∧
    (clone_step_test_designs db s sv tv).test_suites = db.test_suites ∧
    (clone_step_test_designs db s sv tv).cache = db.cache ∧
    db.nextId ≤ (clone_step_test_designs db s sv tv).nextId := by
  have hany : (db.test_designs.any
      (fun r => r.suite_id = some s ∧ r.version = some tv)) = false := by
    rw [List.any_eq_false]
    intro r hr
    simpa using h1 r hr
  unfold clone_step_test_designs
  rw [hany, if_neg Bool.false_ne_true]
  dsimp only
  by_cases hrows : (db.test_designs.filter
      (fun r => r.suite_id = some s ∧ r.version = some sv)) = []
  · rw [if_pos hrows]
    have hempty : tdContentsAt db s sv = [] := by
      unfold tdContentsAt tdRowsAt
      rw [hrows]
      rfl
    rw [hempty]
    exact ⟨by simp, rfl, rfl, rfl, rfl, rfl, Nat.le_refl _⟩
  · rw [if_neg hrows]
    set items : List TdBulkItem := (db.test_designs.filter
        (fun r => r.suite_id = some s ∧ r.version = some sv)).map
      (fun td =>
        { content := if td.content.truthy then td.content else .jobj [],
          testing_type :=
            if td.testing_type = "" then "integration" else td.testing_type,
          version := some tv }) with hitems
    have hitems2 : items.map (fun it => it.content) =
        tdContentsAt db s sv := by
      rw [hitems, List.map_map]
      unfold tdContentsAt tdRowsAt
      refine List.map_congr_left ?_
      intro td htd
      have htr : td.content.truthy = true := h2 td.content (by
        unfold tdContentsAt tdRowsAt
        exact List.mem_map_of_mem _ htd)
      show (if td.content.truthy then td.content else Json.jobj []) = td.content
      rw [if_pos htr]
    unfold write_test_design_bulk
    rw [if_neg (by
      rw [hitems]
      simpa using hrows)]
    obtain ⟨e1, e2, e3, e4, e5, e6, e7⟩ :=
      write_test_design_bulk_loop_effect (some s) (some tv) true tv items db
        (by
          intro it hit
          rw [hitems] at hit
          obtain ⟨td, htd, hte⟩ := List.mem_map.1 hit
          have htr : td.content.truthy = true := h2 td.content (by
            unfold tdContentsAt tdRowsAt
            exact List.mem_map_of_mem _ htd)
          constructor
          · rw [← hte]
            show (if td.content.truthy then td.content else Json.jobj []).truthy
              = true
            rw [if_pos htr]
            exact htr
          · rw [← hte])
    refine ⟨?_, e2, e3, e4, e5, e6, e7⟩
    rw [e1]
    congr 1
    rw [← hitems2, List.map_map, List.map_map, hitems, List.map_map]
    rfl

theorem clone_step_viewpoints_effect (db : DB) (s : String) (sv tv : Int)
    (h1 : ∀ t ∈ db.viewpoints, ¬(t.suite_id = some s ∧ t.version = some tv))
    (h2 : ∀ c ∈ vpContentsAt db s sv, vpContentOK c = true) :
    (clone_step_viewpoints db s sv tv).viewpoints.map vpProj =
      db.viewpoints.map vpProj ++
        (vpContentsAt db s sv).map (fun c => (some s, some tv, c)) ∧
    (clone_step_viewpoints db s sv tv).requirements = db.requirements ∧
    (clone_step_viewpoints db s sv tv).test_cases = db.test_cases ∧
    (clone_step_viewpoints db s sv tv).test_designs = db.test_designs ∧
    (clone_step_viewpoints db s sv tv).test_suites = db.test_suites ∧
    (clone_step_viewpoints db s sv tv).cache = db.cache ∧
    db.nextId ≤ (clone_step_viewpoints db s sv tv).nextId := by
  have hany : (db.viewpoints.any
      (fun r => r.suite_id = some s ∧ r.version = some tv)) = false := by
    rw [List.any_eq_false]
    intro r hr
    simpa using h1 r hr
  unfold clone_step_viewpoints
  rw [hany, if_neg Bool.false_ne_true]
  dsimp only
  by_cases hrows : (db.viewpoints.filter
      (fun r => r.suite_id = some s ∧ r.version = some sv)) = []
  · rw [if_pos hrows]
    have hempty : vpContentsAt db s sv = [] := by
      unfold vpContentsAt vpRowsAt
      rw [hrows]
      rfl
    rw [hempty]
    exact ⟨by simp, rfl, rfl, rfl, rfl, rfl, Nat.le_refl _⟩
  · rw [if_neg hrows]
    set items : List VpBulkItem := (db.viewpoints.filter
        (fun r => r.suite_id = some s ∧ r.version = some sv)).map
      (fun vp =>
        { content := if vp.content.truthy then vp.content else .jobj [],
          test_design_id := vp.test_design_id,
          requirement_id := vp.requirement_id,
          version := some tv }) with hitems
    have hcontent : ∀ vp ∈ db.viewpoints.filter
        (fun r => r.suite_id = some s ∧ r.version = some sv),
        (if vp.content.truthy then vp.content else Json.jobj []) =
          vp.content ∧ vpContentOK vp.content = true := by
      intro vp hvp
      have hok : vpContentOK vp.content = true := h2 vp.content (by
        unfold vpContentsAt vpRowsAt
        exact List.mem_map_of_mem _ hvp)
      have htr : vp.content.truthy = true := by
        cases hc : vp.content with
        | jobj kvs =>
          rw [hc] at hok
          unfold vpContentOK at hok
          dsimp only at hok
          have h4 : kvs ≠ [] ∧ lookupKV kvs "viewpoints" = none ∧
              lookupKV kvs "items" = none ∧
              lookupKV kvs "__req_code" = none := by
            simpa using hok
          simp [Json.truthy, h4.1]
        | null => rw [hc] at hok; exact absurd hok (by simp [vpContentOK])
        | jbool b => rw [hc] at hok; exact absurd hok (by simp [vpContentOK])
        | jnum n => rw [hc] at hok; exact absurd hok (by simp [vpContentOK])
        | jstr s0 => rw [hc] at hok; exact absurd hok (by simp [vpContentOK])
        | jarr xs => rw [hc] at hok; exact absurd hok (by simp [vpContentOK])
      exact ⟨if_pos htr, hok⟩
    unfold write_viewpoints_bulk
    rw [if_neg (by
      rw [hitems]
      simpa using hrows)]
    obtain ⟨e1, e2, e3, e4, e5, e6, e7⟩ :=
      write_viewpoints_bulk_loop_effect (some s) (some tv) true tv items db
        (by
          intro it hit
          rw [hitems] at hit
          obtain ⟨vp, hvp, hve⟩ := List.mem_map.1 hit
          obtain ⟨hifeq, hok⟩ := hcontent vp hvp
          constructor
          · rw [← hve]
            show vpContentOK
              (if vp.content.truthy then vp.content else Json.jobj []) = true
            rw [hifeq]
            exact hok
          · rw [← hve])
    refine ⟨?_, e2, e3, e4, e5, e6, e7⟩
    rw [e1]
    congr 1
    unfold vpContentsAt vpRowsAt
    rw [hitems, List.map_map, List.map_map]
    refine List.map_congr_left ?_
    intro vp hvp
    show (some s, some tv,
        (if vp.content.truthy then vp.content else Json.jobj [])) =
      (some s, some tv, vp.content)
    rw [(hcontent vp hvp).1]

theorem reqContentsAt_of_proj_append (db db2 : DB) (s : String)
    (extra : List (Option String × String × Nat × Option Int × Json))
    (h : db2.requirements.map reqProj = db.requirements.map reqProj ++ extra)
    (v0 : Int) :
    reqContentsAt db2 s v0 = reqContentsAt db s v0 ++
      (extra.filter (fun x => x.1 = some s ∧ x.2.2.2.1 = some v0)).map
        (fun x => x.2.2.2.2) := by
  show (db2.requirements.filter
      (fun r => (reqProj r).1 = some s ∧ (reqProj r).2.2.2.1 = some v0)).map
      (fun r => (reqProj r).2.2.2.2) = _
  rw [filter_map_comp reqProj
    (fun x => x.1 = some s ∧ x.2.2.2.1 = some v0) (fun x => x.2.2.2.2), h,
    List.filter_append, List.map_append,
    ← filter_map_comp reqProj
      (fun x => x.1 = some s ∧ x.2.2.2.1 = some v0) (fun x => x.2.2.2.2)]
  rfl

theorem tcContentsAt_of_proj_append (db db2 : DB) (s : String)
    (extra : List (Option String × Option Nat × Option Int × Json))
    (h : db2.test_cases.map tcProj = db.test_cases.map tcProj ++ extra)
    (v0 : Int) :
    tcContentsAt db2 s v0 = tcContentsAt db s v0 ++
      (extra.filter (fun x => x.1 = some s ∧ x.2.2.1 = some v0)).map
        (fun x => x.2.2.2) := by
  show (db2.test_cases.filter
      (fun t => (tcProj t).1 = some s ∧ (tcProj t).2.2.1 = some v0)).map
      (fun t => (tcProj t).2.2.2) = _
  rw [filter_map_comp tcProj
    (fun x => x.1 = some s ∧ x.2.2.1 = some v0) (fun x => x.2.2.2), h,
    List.filter_append, List.map_append,
    ← filter_map_comp tcProj
      (fun x => x.1 = some s ∧ x.2.2.1 = some v0) (fun x => x.2.2.2)]
  rfl

theorem tdContentsAt_of_proj_append (db db2 : DB) (s : String)
    (extra : List (Option String × Option Int × Json))
    (h : db2.test_designs.map tdProj = db.test_designs.map tdProj ++ extra)
    (v0 : Int) :
    tdContentsAt db2 s v0 = tdContentsAt db s v0 ++
      (extra.filter (fun x => x.1 = some s ∧ x.2.1 = some v0)).map
        (fun x => x.2.2) := by
  show (db2.test_designs.filter
      (fun t => (tdProj t).1 = some s ∧ (tdProj t).2.1 = some v0)).map
      (fun t => (tdProj t).2.2) = _
  rw [filter_map_comp tdProj
    (fun x => x.1 = some s ∧ x.2.1 = some v0) (fun x => x.2.2), h,
    List.filter_append, List.map_append,
    ← filter_map_comp tdProj
      (fun x => x.1 = some s ∧ x.2.1 = some v0) (fun x => x.2.2)]
  rfl

theorem vpContentsAt_of_proj_append (db db2 : DB) (s : String)
    (extra : List (Option String × Option Int × Json))
    (h : db2.viewpoints.map vpProj = db.viewpoints.map vpProj ++ extra)
    (v0 : Int) :
    vpContentsAt db2 s v0 = vpContentsAt db s v0 ++
      (extra.filter (fun x => x.1 = some s ∧ x.2.1 = some v0)).map
        (fun x => x.2.2) := by
  show (db2.viewpoints.filter
      (fun t => (vpProj t).1 = some s ∧ (vpProj t).2.1 = some v0)).map
      (fun t => (vpProj t).2.2) = _
  rw [filter_map_comp vpProj
    (fun x => x.1 = some s ∧ x.2.1 = some v0) (fun x => x.2.2), h,
    List.filter_append, List.map_append,
    ← filter_map_comp vpProj
      (fun x => x.1 = some s ∧ x.2.1 = some v0) (fun x => x.2.2)]
  rfl

theorem forall_mem_of_map_append {α β : Type} (f : α → β) (Q : β → Prop)
    (l1 l2 : List α) (extra : List β)
    (h : l2.map f = l1.map f ++ extra) (hq1 : ∀ a ∈ l1, Q (f a))
    (hq2 : ∀ x ∈ extra, Q x) : ∀ a ∈ l2, Q (f a) := by
  intro a ha
  have hm : f a ∈ l2.map f := List.mem_map_of_mem f ha
  rw [h, List.mem_append] at hm
  rcases hm with hm | hm
  · obtain ⟨a1, ha1, hfa⟩ := List.mem_map.1 hm
    exact hfa ▸ hq1 a1 ha1
  · exact hq2 _ hm

theorem exists_mem_of_map_append {α β : Type} (f : α → β) (Q : β → Prop)
    (l1 l2 : List α) (extra : List β)
    (h : l2.map f = l1.map f ++ extra) (hq : ∃ a ∈ l1, Q (f a)) :
    ∃ a ∈ l2, Q (f a) := by
  obtain ⟨a, ha, hQ⟩ := hq
  have hm : f a ∈ l2.map f := by
    rw [h, List.mem_append]
    exact Or.inl (List.mem_map_of_mem f ha)
  obtain ⟨a2, ha2, hfa⟩ := List.mem_map.1 hm
  exact ⟨a2, ha2, hfa ▸ hQ⟩

theorem tcRowOK_mono (db db2 : DB) (s : String) (t : TcRow)
    (extra : List (Option String × String × Nat × Option Int × Json))
    (h : db2.requirements.map reqProj = db.requirements.map reqProj ++ extra)
    (hok : tcRowOK db s t = true) : tcRowOK db2 s t = true := by
  unfold tcRowOK at hok ⊢
  rw [Bool.and_eq_true] at hok ⊢
  refine ⟨hok.1, ?_⟩
  have hreq := hok.2
  cases hrid : t.requirement_id with
  | none => rw [hrid] at hreq; exact absurd hreq (by simp)
  | some rid =>
    rw [hrid] at hreq
    dsimp only at hreq ⊢
    rw [List.any_eq_true] at hreq ⊢
    obtain ⟨q, hq, hqp⟩ := hreq
    have hq2 : q.suite_id = some s ∧ q.rowId = rid ∧ q.req_code ≠ "" := by
      simpa using hqp
    have hm : reqProj q ∈ db2.requirements.map reqProj := by
      rw [h, List.mem_append]
      exact Or.inl (List.mem_map_of_mem reqProj hq)
    obtain ⟨q2, hq2m, hq2e⟩ := List.mem_map.1 hm
    have hcomp : q2.suite_id = q.suite_id ∧ q2.req_code = q.req_code ∧
        q2.rowId = q.rowId := by
      unfold reqProj at hq2e
      have h1 := congrArg (fun x => x.1) hq2e
      have h2 := congrArg (fun x => x.2.1) hq2e
      have h3 := congrArg (fun x => x.2.2.1) hq2e
      exact ⟨h1, h2, h3⟩
    exact ⟨q2, hq2m, by
      simp only [hcomp.1, hcomp.2.1, hcomp.2.2]
      simpa using hqp⟩

theorem map_tuple_third (s : Option String) (tv : Option Int) (l : List Json) :
    ((l.map (fun c => (s, tv, c))).map
      (fun x : Option String × Option Int × Json => x.2.2)) = l := by
  rw [List.map_map]
  exact (List.map_congr_left (fun c _ => rfl)).trans (List.map_id _)

theorem clone_effect (db : DB) (s : String) (sv tv : Int)
    (h : CloneReady db s sv tv) :
    ∃ dbD, clone_current_artifacts_to_version db s sv tv = some dbD ∧
      (∀ v0 : Int, reqContentsAt dbD s v0 =
        if v0 = tv then reqContentsAt db s sv else reqContentsAt db s v0) ∧
      (∀ v0 : Int, tcContentsAt dbD s v0 =
        if v0 = tv then (tcContentsAt db s sv).map (stampVersion tv)
        else tcContentsAt db s v0) ∧
      (∀ v0 : Int, tdContentsAt dbD s v0 =
        if v0 = tv then tdContentsAt db s sv else tdContentsAt db s v0) ∧
      (∀ v0 : Int, vpContentsAt dbD s v0 =
        if v0 = tv then vpContentsAt db s sv else vpContentsAt db s v0) ∧
      dbD.test_suites = db.test_suites ∧ dbD.cache = db.cache ∧
      db.nextId ≤ dbD.nextId ∧
      (∃ rextra, dbD.requirements.map reqProj =
          db.requirements.map reqProj ++ rextra ∧
        ∀ x ∈ rextra, x.1 = some s ∧ x.2.2.2.1 = some tv ∧
          x.2.1.pyStrip = x.2.1) ∧
      (∃ tcextra, dbD.test_cases.map tcProj =
          db.test_cases.map tcProj ++ tcextra ∧
        ∀ x ∈ tcextra, x.1 = some s ∧ x.2.2.1 = some tv) ∧
      (∃ tdextra, dbD.test_designs.map tdProj =
          db.test_designs.map tdProj ++ tdextra ∧
        ∀ x ∈ tdextra, x.1 = some s ∧ x.2.1 = some tv) ∧
      (∃ vpextra, dbD.viewpoints.map vpProj =
          db.viewpoints.map vpProj ++ vpextra ∧
        ∀ x ∈ vpextra, x.1 = some s ∧ x.2.1 = some tv) := by
  obtain ⟨h1, h2, h3, h4, h5, h6, h7, h8, h9⟩ := h
  obtain ⟨dbA, rnews, hs1, hp1, hc1, hq1, hn1, f1tc, f1td, f1vp, f1su, f1ca⟩ :=
    clone_step_requirements_effect db s sv tv h1 h5
  have h2A : ∀ t ∈ dbA.test_cases,
      ¬(t.suite_id = some s ∧ t.version = some tv) := by
    rw [f1tc]
    exact h2
  have htcrowsA : tcRowsAt dbA s sv = tcRowsAt db s sv := by
    unfold tcRowsAt
    rw [f1tc]
  have h7A : ∀ t ∈ tcRowsAt dbA s sv, tcRowOK dbA s t = true := by
    intro t ht
    rw [htcrowsA] at ht
    exact tcRowOK_mono db dbA s t (rnews.map reqProj) hp1 (h7 t ht)
  have h6A : ∀ r ∈ dbA.requirements, r.suite_id = some s →
      r.req_code.pyStrip = r.req_code := by
    refine forall_mem_of_map_append reqProj
      (fun x => x.1 = some s → x.2.1.pyStrip = x.2.1)
      db.requirements dbA.requirements (rnews.map reqProj) hp1 ?_ ?_
    · intro r hr
      exact h6 r hr
    · intro x hx
      obtain ⟨r, hrm, hre⟩ := List.mem_map.1 hx
      intro _
      rw [← hre]
      exact (hq1 r hrm).2.2.2
  obtain ⟨tcnews, g1req, g1tc, g1c, g1q, g1td, g1vp, g1su, g1ca, g1n⟩ :=
    clone_step_test_cases_effect dbA s sv tv h2A h7A h6A
  set dbB := clone_step_test_cases dbA s sv tv with hdbB
  have hBtd : dbB.test_designs = db.test_designs := g1td.trans f1td
  have hBvp : dbB.viewpoints = db.viewpoints := g1vp.trans f1vp
  have h3B : ∀ t ∈ dbB.test_designs,
      ¬(t.suite_id = some s ∧ t.version = some tv) := by
    rw [hBtd]
    exact h3
  have htdcB : tdContentsAt dbB s sv = tdContentsAt db s sv := by
    unfold tdContentsAt tdRowsAt
    rw [hBtd]
  have h8B : ∀ c ∈ tdContentsAt dbB s sv, c.truthy = true := by
    rw [htdcB]
    exact h8
  obtain ⟨t1, t2, t3, t4, t5, t6, t7⟩ :=
    clone_step_test_designs_effect dbB s sv tv h3B h8B
  set dbC := clone_step_test_designs dbB s sv tv with hdbC
  have hCvp : dbC.viewpoints = db.viewpoints := t4.trans hBvp
  have h4C : ∀ t ∈ dbC.viewpoints,
      ¬(t.suite_id = some s ∧ t.version = some tv) := by
    rw [hCvp]
    exact h4
  have hvpcC : vpContentsAt dbC s sv = vpContentsAt db s sv := by
    unfold vpContentsAt vpRowsAt
    rw [hCvp]
  have h9C : ∀ c ∈ vpContentsAt dbC s sv, vpContentOK c = true := by
    rw [hvpcC]
    exact h9
  obtain ⟨u1, u2, u3, u4, u5, u6, u7⟩ :=
    clone_step_viewpoints_effect dbC s sv tv h4C h9C
  set dbD := clone_step_viewpoints dbC s sv tv with hdbD
  have hclone : clone_current_artifacts_to_version db s sv tv = some dbD := by
    unfold clone_current_artifacts_to_version
    rw [hs1]
    rfl
  have hreqD : dbD.requirements.map reqProj =
      db.requirements.map reqProj ++ rnews.map reqProj := by
    rw [u2, t2, g1req]
    exact hp1
  have htcD : dbD.test_cases.map tcProj =
      db.test_cases.map tcProj ++ tcnews := by
    rw [u3, t3]
    rw [g1tc, f1tc]
  have htdD : dbD.test_designs.map tdProj =
      db.test_designs.map tdProj ++
        (tdContentsAt db s sv).map (fun c => (some s, some tv, c)) := by
    rw [u4]
    rw [t1, hBtd, htdcB]
  have hvpD : dbD.viewpoints.map vpProj =
      db.viewpoints.map vpProj ++
        (vpContentsAt db s sv).map (fun c => (some s, some tv, c)) := by
    rw [u1, hCvp, hvpcC]
  have hrextra : ∀ x ∈ rnews.map reqProj, x.1 = some s ∧
      x.2.2.2.1 = some tv ∧ x.2.1.pyStrip = x.2.1 := by
    intro x hx
    obtain ⟨r, hrm, hre⟩ := List.mem_map.1 hx
    obtain ⟨a1, a2, _, a4⟩ := hq1 r hrm
    rw [← hre]
    exact ⟨a1, a2, a4⟩
  have htdextra : ∀ x ∈ (tdContentsAt db s sv).map
      (fun c => ((some s : Option String), (some tv : Option Int), c)),
      x.1 = some s ∧ x.2.1 = some tv := by
    intro x hx
    obtain ⟨c, _, hce⟩ := List.mem_map.1 hx
    rw [← hce]
    exact ⟨rfl, rfl⟩
  have hvpextra : ∀ x ∈ (vpContentsAt db s sv).map
      (fun c => ((some s : Option String), (some tv : Option Int), c)),
      x.1 = some s ∧ x.2.1 = some tv := by
    intro x hx
    obtain ⟨c, _, hce⟩ := List.mem_map.1 hx
    rw [← hce]
    exact ⟨rfl, rfl⟩
  refine ⟨dbD, hclone, ?_, ?_, ?_, ?_, ?_, ?_, ?_,
    ⟨rnews.map reqProj, hreqD, hrextra⟩, ⟨tcnews, htcD, g1q⟩,
    ⟨(tdContentsAt db s sv).map (fun c => (some s, some tv, c)), htdD,
      htdextra⟩,
    ⟨(vpContentsAt db s sv).map (fun c => (some s, some tv, c)), hvpD,
      hvpextra⟩⟩
  · intro v0
    rw [reqContentsAt_of_proj_append db dbD s (rnews.map reqProj) hreqD v0]
    by_cases hv0 : v0 = tv
    · subst hv0
      rw [if_pos rfl]
      have hempty : reqContentsAt db s v0 = [] := by
        unfold reqContentsAt reqRowsAt
        rw [List.filter_eq_nil_iff.2 (fun a ha => by simpa using h1 a ha)]
        rfl
      rw [hempty, List.nil_append,
        List.filter_eq_self.2 (fun x hx => by
          obtain ⟨x1, x2, _⟩ := hrextra x hx
          simp [x1, x2])]
      rw [← hc1, List.map_map]
      rfl
    · rw [if_neg hv0]
      rw [List.filter_eq_nil_iff.2 (fun x hx => by
        obtain ⟨_, x2, _⟩ := hrextra x hx
        simp only [decide_eq_true_eq, not_and]
        intro _ hver
        rw [x2] at hver
        exact hv0 (Option.some.inj hver).symm)]
      simp
  · intro v0
    rw [tcContentsAt_of_proj_append db dbD s tcnews htcD v0]
    by_cases hv0 : v0 = tv
    · subst hv0
      rw [if_pos rfl]
      have hempty : tcContentsAt db s v0 = [] := by
        unfold tcContentsAt tcRowsAt
        rw [List.filter_eq_nil_iff.2 (fun a ha => by simpa using h2 a ha)]
        rfl
      rw [hempty, List.nil_append,
        List.filter_eq_self.2 (fun x hx => by
          obtain ⟨x1, x2⟩ := g1q x hx
          simp [x1, x2])]
      have htcc : tcContentsAt dbA s sv = tcContentsAt db s sv := by
        unfold tcContentsAt tcRowsAt
        rw [f1tc]
      rw [g1c, htcc]
    · rw [if_neg hv0]
      rw [List.filter_eq_nil_iff.2 (fun x hx => by
        obtain ⟨_, x2⟩ := g1q x hx
        simp only [decide_eq_true_eq, not_and]
        intro _ hver
        rw [x2] at hver
        exact hv0 (Option.some.inj hver).symm)]
      simp
  · intro v0
    rw [tdContentsAt_of_proj_append db dbD s _ htdD v0]
    by_cases hv0 : v0 = tv
    · subst hv0
      rw [if_pos rfl]
      have hempty : tdContentsAt db s v0 = [] := by
        unfold tdContentsAt tdRowsAt
        rw [List.filter_eq_nil_iff.2 (fun a ha => by simpa using h3 a ha)]
        rfl
      rw [hempty, List.nil_append,
        List.filter_eq_self.2 (fun x hx => by
          obtain ⟨x1, x2⟩ := htdextra x hx
          simp [x1, x2])]
      exact map_tuple_third _ _ _
    · rw [if_neg hv0]
      rw [List.filter_eq_nil_iff.2 (fun x hx => by
        obtain ⟨_, x2⟩ := htdextra x hx
        simp only [decide_eq_true_eq, not_and]
        intro _ hver
        rw [x2] at hver
        exact hv0 (Option.some.inj hver).symm)]
      simp
  · intro v0
    rw [vpContentsAt_of_proj_append db dbD s _ hvpD v0]
    by_cases hv0 : v0 = tv
    · subst hv0
      rw [if_pos rfl]
      have hempty : vpContentsAt db s v0 = [] := by
        unfold vpContentsAt vpRowsAt
        rw [List.filter_eq_nil_iff.2 (fun a ha => by simpa using h4 a ha)]
        rfl
      rw [hempty, List.nil_append,
        List.filter_eq_self.2 (fun x hx => by
          obtain ⟨x1, x2⟩ := hvpextra x hx
          simp [x1, x2])]
      exact map_tuple_third _ _ _
    · rw [if_neg hv0]
      rw [List.filter_eq_nil_iff.2 (fun x hx => by
        obtain ⟨_, x2⟩ := hvpextra x hx
        simp only [decide_eq_true_eq, not_and]
        intro _ hver
        rw [x2] at hver
        exact hv0 (Option.some.inj hver).symm)]
      simp
  · exact u5.trans (t5.trans (g1su.trans f1su))
  · exact u6.trans (t6.trans (g1ca.trans f1ca))
  · omega

/-- C1 (amended).  Clone completeness holds verbatim for requirements, test
designs and viewpoints, but test-case contents are cloned with their
`version` key re-stamped to the target version, not verbatim: after the
clone-forward step, querying requirements / test designs / viewpoints at the
target version returns exactly the contents at the source version, while the
test cases at the target version are the source contents with
`content["version"] = target_version` written into each dict. -/
theorem claim_C1_clone_completeness (db : DB) (s : String) (sv tv : Int)
    (h : CloneReady db s sv tv) (hne : sv ≠ tv) :
    ∃ dbD, clone_current_artifacts_to_version db s sv tv = some dbD ∧
      reqContentsAt dbD s tv = reqContentsAt dbD s sv ∧
      tdContentsAt dbD s tv = tdContentsAt dbD s sv ∧
      vpContentsAt dbD s tv = vpContentsAt dbD s sv ∧
      tcContentsAt dbD s tv = (tcContentsAt dbD s sv).map (stampVersion tv) := by
  obtain ⟨dbD, hc, hreq, htcl, htdl, hvpl, _, _, _, _, _, _, _⟩ :=
    clone_effect db s sv tv h
  have hne2 : sv ≠ tv := hne
  refine ⟨dbD, hc, ?_, ?_, ?_, ?_⟩
  · rw [hreq tv, hreq sv, if_pos rfl, if_neg hne2]
  · rw [htdl tv, htdl sv, if_pos rfl, if_neg hne2]
  · rw [hvpl tv, hvpl sv, if_pos rfl, if_neg hne2]
  · rw [htcl tv, htcl sv, if_pos rfl, if_neg hne2]

/-- Concrete database for the C1 witness: one artifact of every kind at
version 1 of suite `s1`, nothing at version 2. -/
def c1wdb : DB :=
  ⟨[⟨1, some "s1", "R1", "d", .jobj [("id", .jstr "R1")], some 1, true⟩],
   [⟨2, some 1, some "s1", .jobj [("cases", .jarr [])], some 1, true⟩],
   [⟨3, some "s1", "integration", .jobj [("flows", .jarr [])], some 1, true⟩],
   [⟨4, some "s1", some 3, some 1, "VP", .jobj [("name", .jstr "VP")],
     some 1, true⟩],
   [⟨"s1", .jobj [("latest_version", .jnum 1)]⟩], [], [], 5⟩

/-- Witness for C1 at a concrete one-artifact-per-kind database. -/
theorem claim_C1_clone_completeness_witness :
    ∃ dbD, clone_current_artifacts_to_version c1wdb "s1" 1 2 = some dbD ∧
      reqContentsAt dbD "s1" 2 = reqContentsAt dbD "s1" 1 ∧
      tdContentsAt dbD "s1" 2 = tdContentsAt dbD "s1" 1 ∧
      vpContentsAt dbD "s1" 2 = vpContentsAt dbD "s1" 1 ∧
      tcContentsAt dbD "s1" 2 = (tcContentsAt dbD "s1" 1).map (stampVersion 2) :=
  claim_C1_clone_completeness c1wdb "s1" 1 2
    (by unfold CloneReady; decide) (by decide)

/-- Concrete database refuting the literal reading of C1: the test-case
clone is not verbatim. -/
def c1xdb : DB :=
  ⟨[⟨1, some "s1", "R1", "d", .jobj [("id", .jstr "R1")], some 1, true⟩],
   [⟨2, some 1, some "s1", .jobj [], some 1, true⟩],
   [], [], [⟨"s1", .jobj [("latest_version", .jnum 1)]⟩], [], [], 3⟩

/-- Counterexample to C1 as stated: cloning suite `s1` from version 1 to
version 2 stores the test-case content `{"version": 2}` at version 2 where
version 1 holds `{}` — the contents differ, so the TestCase query at the new
version is not verbatim equal to the query at the source version. -/
theorem claim_C1_counterexample :
    ((clone_current_artifacts_to_version c1xdb "s1" 1 2).map
      (fun dbD => tcContentsAt dbD "s1" 2) =
        some [.jobj [("version", .jnum 2)]]) ∧
    ((clone_current_artifacts_to_version c1xdb "s1" 1 2).map
      (fun dbD => tcContentsAt dbD "s1" 1) = some [.jobj []]) ∧
    [Json.jobj [("version", .jnum 2)]] ≠ [Json.jobj []] := by
  exact ⟨by decide, by decide, by decide⟩

/-! ## Version cut with cloning: full effect -/

/-- `rowVerLE ver L`: the row's version (if any) is at most `L`. -/
def rowVerLE (ver : Option Int) (L : Int) : Bool :=
  match ver with
  | some v0 => v0 ≤ L
  | none => true

/-- Every versioned row of the suite sits at a version ≤ `L`. -/
def VersionsLE (db : DB) (s : String) (L : Int) : Prop :=
  (∀ r ∈ db.requirements, r.suite_id = some s → rowVerLE r.version L = true) ∧
  (∀ t ∈ db.test_cases, t.suite_id = some s → rowVerLE t.version L = true) ∧
  (∀ t ∈ db.test_designs, t.suite_id = some s → rowVerLE t.version L = true) ∧
  (∀ t ∈ db.viewpoints, t.suite_id = some s → rowVerLE t.version L = true)

/-- The dict persisted as the suite state, when there is one. -/
def suiteStateKVs (db : DB) (s : String) : Option (List (String × Json)) :=
  match db.test_suites.find? (fun r => r.id = s) with
  | some row =>
    (match row.state with
     | .jobj kvs => some kvs
     | _ => none)
  | none => none

/-- Readiness of a database for a version cut of suite `s` cloning from
version `N`, with current latest version `L`. -/
def RestoreReady (db : DB) (s : String) (N L : Int) : Prop :=
  s ≠ "" ∧ 1 ≤ L ∧ N ≤ L ∧
  (suiteStateKVs db s).map priorIntOf = some L ∧
  VersionsLE db s L ∧
  (∀ c ∈ reqContentsAt db s N, reqContentOK c = true) ∧
  (∀ r ∈ db.requirements, r.suite_id = some s →
    r.req_code.pyStrip = r.req_code) ∧
  (∀ t ∈ tcRowsAt db s N, tcRowOK db s t = true) ∧
  (∀ c ∈ tdContentsAt db s N, c.truthy = true) ∧
  (∀ c ∈ vpContentsAt db s N, vpContentOK c = true)

theorem rowVerLE_mono (v : Option Int) (L L2 : Int) (h : rowVerLE v L = true)
    (hL : L ≤ L2) : rowVerLE v L2 = true := by
  unfold rowVerLE at h ⊢
  cases v with
  | none => rfl
  | some v0 =>
    simp only [decide_eq_true_eq] at h ⊢
    omega

theorem tcRowOK_proj_congr (db : DB) (s : String) (t t2 : TcRow)
    (h : tcProj t = tcProj t2) : tcRowOK db s t = tcRowOK db s t2 := by
  unfold tcRowOK
  have hc : t.content = t2.content := congrArg (fun x => x.2.2.2) h
  have hr : t.requirement_id = t2.requirement_id := congrArg (fun x => x.2.1) h
  rw [hc, hr]

/-- A CloneReady package out of a RestoreReady one. -/
theorem cloneReady_of_restoreReady (db : DB) (s : String) (N L : Int)
    (h : RestoreReady db s N L) : CloneReady db s N (L + 1) := by
  obtain ⟨_, _, _, _, hle, h5, h6, h7, h8, h9⟩ := h
  refine ⟨?_, ?_, ?_, ?_, h5, h6, h7, h8, h9⟩
  · intro r hr hcon
    have := hle.1 r hr hcon.1
    rw [hcon.2] at this
    unfold rowVerLE at this
    simp only [decide_eq_true_eq] at this
    omega
  · intro t ht hcon
    have := hle.2.1 t ht hcon.1
    rw [hcon.2] at this
    unfold rowVerLE at this
    simp only [decide_eq_true_eq] at this
    omega
  · intro t ht hcon
    have := hle.2.2.1 t ht hcon.1
    rw [hcon.2] at this
    unfold rowVerLE at this
    simp only [decide_eq_true_eq] at this
    omega
  · intro t ht hcon
    have := hle.2.2.2 t ht hcon.1
    rw [hcon.2] at this
    unfold rowVerLE at this
    simp only [decide_eq_true_eq] at this
    omega

/-- CloneReady only depends on the four artifact tables. -/
theorem cloneReady_of_tables (db db1 : DB) (s : String) (sv tv : Int)
    (hr : db1.requirements = db.requirements)
    (htc : db1.test_cases = db.test_cases)
    (htd : db1.test_designs = db.test_designs)
    (hvp : db1.viewpoints = db.viewpoints)
    (h : CloneReady db s sv tv) : CloneReady db1 s sv tv := by
  obtain ⟨h1, h2, h3, h4, h5, h6, h7, h8, h9⟩ := h
  have hrc : ∀ v0, reqContentsAt db1 s v0 = reqContentsAt db s v0 := by
    intro v0
    unfold reqContentsAt reqRowsAt
    rw [hr]
  have htcc : ∀ v0, tcRowsAt db1 s v0 = tcRowsAt db s v0 := by
    intro v0
    unfold tcRowsAt
    rw [htc]
  have htdc : ∀ v0, tdContentsAt db1 s v0 = tdContentsAt db s v0 := by
    intro v0
    unfold tdContentsAt tdRowsAt
    rw [htd]
  have hvpc : ∀ v0, vpContentsAt db1 s v0 = vpContentsAt db s v0 := by
    intro v0
    unfold vpContentsAt vpRowsAt
    rw [hvp]
  refine ⟨by rw [hr]; exact h1, by rw [htc]; exact h2, by rw [htd]; exact h3,
    by rw [hvp]; exact h4, by rw [hrc]; exact h5, by rw [hr]; exact h6,
    ?_, by rw [htdc]; exact h8, by rw [hvpc]; exact h9⟩
  intro t ht
  rw [htcc] at ht
  have hok := h7 t ht
  unfold tcRowOK at hok ⊢
  rw [hr]
  exact hok

theorem increment_clone_effect (db : DB) (s : String) (N L : Int)
    (desc now : String) (src : Option Int)
    (hsrc : (match src with | some v0 => v0 | none => L + 1 - 1) = N)
    (h : RestoreReady db s N L) :
    ∃ db3,
      increment_suite_version db s desc src now = (some (L + 1), db3) ∧
      (∀ v0 : Int, reqContentsAt db3 s v0 =
        if v0 = L + 1 then reqContentsAt db s N else reqContentsAt db s v0) ∧
      (∀ v0 : Int, tcContentsAt db3 s v0 =
        if v0 = L + 1 then (tcContentsAt db s N).map (stampVersion (L + 1))
        else tcContentsAt db s v0) ∧
      (∀ v0 : Int, tdContentsAt db3 s v0 =
        if v0 = L + 1 then tdContentsAt db s N else tdContentsAt db s v0) ∧
      (∀ v0 : Int, vpContentsAt db3 s v0 =
        if v0 = L + 1 then vpContentsAt db s N else vpContentsAt db s v0) ∧
      (∃ rextra, db3.requirements.map reqProj =
          db.requirements.map reqProj ++ rextra ∧
        ∀ x ∈ rextra, x.1 = some s ∧ x.2.2.2.1 = some (L + 1) ∧
          x.2.1.pyStrip = x.2.1) ∧
      db3.cache = db.cache ∧
      RestoreReady db3 s N (L + 1) := by
  obtain ⟨hs, hL1, hNL, hstate, hvle, h5, h6, h7, h8, h9⟩ := h
  cases hfind : db.test_suites.find? (fun r => r.id = s) with
  | none =>
    exfalso
    unfold suiteStateKVs at hstate
    rw [hfind] at hstate
    simp at hstate
  | some row =>
  cases hrowstate : row.state with
  | jobj kvs =>
    have hL : priorIntOf kvs = L := by
      unfold suiteStateKVs at hstate
      rw [hfind] at hstate
      dsimp only at hstate
      rw [hrowstate] at hstate
      simpa using hstate
    have hgt : priorIntOf kvs + 1 > 1 := by omega
    have hraw : get_suite_agent_state db (some s) = some (.jobj kvs) := by
      simp only [get_suite_agent_state, get_suite_state]
      rw [if_neg hs, hfind]
      simp [hrowstate]
    have hkvs2 : (match get_suite_agent_state db (some s) with
        | none => some []
        | some j =>
          if j.truthy then
            (match j with
             | .jobj kvs => some kvs
             | _ => none)
          else some ([] : List (String × Json))) = some kvs := by
      rw [hraw]
      by_cases hnil : kvs = []
      · subst hnil
        simp [Json.truthy]
      · simp [Json.truthy, hnil]
    set db1 := write_full_suite_state db (some s)
        (Json.jobj (setKV kvs "latest_version" (.jnum (priorIntOf kvs + 1))))
        (some (priorIntOf kvs + 1))
        (some (histOf kvs ++
          [version_history_entry (priorIntOf kvs + 1) desc now])) with hdb1
    have hframe1 := write_full_suite_state_frame db (some s)
        (Json.jobj (setKV kvs "latest_version" (.jnum (priorIntOf kvs + 1))))
        (some (priorIntOf kvs + 1))
        (some (histOf kvs ++
          [version_history_entry (priorIntOf kvs + 1) desc now]))
    have hcr1 : CloneReady db1 s N (priorIntOf kvs + 1) := by
      rw [hL]
      exact cloneReady_of_tables db db1 s N (L + 1) hframe1.1 hframe1.2.1
        hframe1.2.2.1 hframe1.2.2.2.1
        (cloneReady_of_restoreReady db s N L
          ⟨hs, hL1, hNL, hstate, hvle, h5, h6, h7, h8, h9⟩)
    obtain ⟨dbD, hclone, creq, ctc, ctd, cvp, csu, cca, cn,
        ⟨rextra, hre, hrq⟩, ⟨tcextra, hte, htq⟩, ⟨tdextra, hde, hdq⟩,
        ⟨vpextra, hve, hvq⟩⟩ :=
      clone_effect db1 s N (priorIntOf kvs + 1) hcr1
    have hsuites1 : db1.test_suites.find? (fun r => r.id = s) =
        some { row with state := .jobj (incrementedKVs kvs desc now) } := by
      rw [hdb1]
      exact write_full_suite_state_suites db s hs row kvs hfind hrowstate _ _ _
    set db3 := write_event dbD (some s)
      (.jobj [("type", .jstr "new_version"),
              ("version", .jnum (priorIntOf kvs + 1)),
              ("description", .jstr desc)]) with hdb3
    have hmain : increment_suite_version db s desc src now =
        (some (priorIntOf kvs + 1), db3) := by
      unfold increment_suite_version
      dsimp only
      rw [hkvs2]
      dsimp only
      rw [← hdb1, if_pos hgt]
      cases src with
      | some v0 =>
        have hv0 : v0 = N := by simpa using hsrc
        dsimp only
        rw [hv0, hclone]
        rfl
      | none =>
        dsimp only
        have harith : priorIntOf kvs + 1 - 1 = N := by
          simp only at hsrc
          omega
        rw [harith, hclone]
        rfl
    have hreqcontents : ∀ v0 : Int, reqContentsAt db3 s v0 =
        if v0 = priorIntOf kvs + 1 then reqContentsAt db s N
        else reqContentsAt db s v0 := by
      intro v0
      have e1 : reqContentsAt db3 s v0 = reqContentsAt dbD s v0 := rfl
      have e2 : ∀ v1 : Int, reqContentsAt db1 s v1 = reqContentsAt db s v1 := by
        intro v1
        unfold reqContentsAt reqRowsAt
        rw [hframe1.1]
      rw [e1, creq v0, e2, e2]
    have htccontents : ∀ v0 : Int, tcContentsAt db3 s v0 =
        if v0 = priorIntOf kvs + 1 then
          (tcContentsAt db s N).map (stampVersion (priorIntOf kvs + 1))
        else tcContentsAt db s v0 := by
      intro v0
      have e1 : tcContentsAt db3 s v0 = tcContentsAt dbD s v0 := rfl
      have e2 : ∀ v1 : Int, tcContentsAt db1 s v1 = tcContentsAt db s v1 := by
        intro v1
        unfold tcContentsAt tcRowsAt
        rw [hframe1.2.1]
      rw [e1, ctc v0, e2, e2]
    have htdcontents : ∀ v0 : Int, tdContentsAt db3 s v0 =
        if v0 = priorIntOf kvs + 1 then tdContentsAt db s N
        else tdContentsAt db s v0 := by
      intro v0
      have e1 : tdContentsAt db3 s v0 = tdContentsAt dbD s v0 := rfl
      have e2 : ∀ v1 : Int, tdContentsAt db1 s v1 = tdContentsAt db s v1 := by
        intro v1
        unfold tdContentsAt tdRowsAt
        rw [hframe1.2.2.1]
      rw [e1, ctd v0, e2, e2]
    have hvpcontents : ∀ v0 : Int, vpContentsAt db3 s v0 =
        if v0 = priorIntOf kvs + 1 then vpContentsAt db s N
        else vpContentsAt db s v0 := by
      intro v0
      have e1 : vpContentsAt db3 s v0 = vpContentsAt dbD s v0 := rfl
      have e2 : ∀ v1 : Int, vpContentsAt db1 s v1 = vpContentsAt db s v1 := by
        intro v1
        unfold vpContentsAt vpRowsAt
        rw [hframe1.2.2.2.1]
      rw [e1, cvp v0, e2, e2]
    have hreqproj : db3.requirements.map reqProj =
        db.requirements.map reqProj ++ rextra := by
      have e1 : db3.requirements = dbD.requirements := rfl
      rw [e1, hre, hframe1.1]
    have htcproj : db3.test_cases.map tcProj =
        db.test_cases.map tcProj ++ tcextra := by
      have e1 : db3.test_cases = dbD.test_cases := rfl
      rw [e1, hte, hframe1.2.1]
    have htdproj : db3.test_designs.map tdProj =
        db.test_designs.map tdProj ++ tdextra := by
      have e1 : db3.test_designs = dbD.test_designs := rfl
      rw [e1, hde, hframe1.2.2.1]
    have hvpproj : db3.viewpoints.map vpProj =
        db.viewpoints.map vpProj ++ vpextra := by
      have e1 : db3.viewpoints = dbD.viewpoints := rfl
      rw [e1, hve, hframe1.2.2.2.1]
    have hstate3 : (suiteStateKVs db3 s).map priorIntOf = some (L + 1) := by
      have e1 : db3.test_suites = dbD.test_suites := rfl
      unfold suiteStateKVs
      rw [e1, csu, hsuites1]
      dsimp only
      rw [Option.map_some']
      rw [priorIntOf_incrementedKVs, hL]
    have hNne : N ≠ priorIntOf kvs + 1 := by omega
    refine ⟨db3, by rw [hmain, hL], ?_, ?_, ?_, ?_,
      ⟨rextra, hreqproj, by rw [← hL]; exact hrq⟩,
      by
        have e1 : db3.cache = dbD.cache := rfl
        rw [e1, cca, hframe1.2.2.2.2.2.1],
      ?_⟩
    · rw [← hL]
      exact hreqcontents
    · rw [← hL]
      exact htccontents
    · rw [← hL]
      exact htdcontents
    · rw [← hL]
      exact hvpcontents
    refine ⟨hs, by omega, by omega, hstate3, ?_, ?_, ?_, ?_, ?_, ?_⟩
    · refine ⟨?_, ?_, ?_, ?_⟩
      · refine forall_mem_of_map_append reqProj
          (fun x => x.1 = some s → rowVerLE x.2.2.2.1 (L + 1) = true)
          db.requirements db3.requirements rextra hreqproj ?_ ?_
        · intro r hr hsid
          exact rowVerLE_mono _ L _ (hvle.1 r hr hsid) (by omega)
        · intro x hx _
          rw [(hrq x hx).2.1, ← hL]
          unfold rowVerLE
          simp
      · refine forall_mem_of_map_append tcProj
          (fun x => x.1 = some s → rowVerLE x.2.2.1 (L + 1) = true)
          db.test_cases db3.test_cases tcextra htcproj ?_ ?_
        · intro r hr hsid
          exact rowVerLE_mono _ L _ (hvle.2.1 r hr hsid) (by omega)
        · intro x hx _
          rw [(htq x hx).2, ← hL]
          unfold rowVerLE
          simp
      · refine forall_mem_of_map_append tdProj
          (fun x => x.1 = some s → rowVerLE x.2.1 (L + 1) = true)
          db.test_designs db3.test_designs tdextra htdproj ?_ ?_
        · intro r hr hsid
          exact rowVerLE_mono _ L _ (hvle.2.2.1 r hr hsid) (by omega)
        · intro x hx _
          rw [(hdq x hx).2, ← hL]
          unfold rowVerLE
          simp
      · refine forall_mem_of_map_append vpProj
          (fun x => x.1 = some s → rowVerLE x.2.1 (L + 1) = true)
          db.viewpoints db3.viewpoints vpextra hvpproj ?_ ?_
        · intro r hr hsid
          exact rowVerLE_mono _ L _ (hvle.2.2.2 r hr hsid) (by omega)
        · intro x hx _
          rw [(hvq x hx).2, ← hL]
          unfold rowVerLE
          simp
    · rw [show reqContentsAt db3 s N = reqContentsAt db s N from by
        rw [hreqcontents N, if_neg hNne]]
      exact h5
    · refine forall_mem_of_map_append reqProj
        (fun x => x.1 = some s → x.2.1.pyStrip = x.2.1)
        db.requirements db3.requirements rextra hreqproj ?_ ?_
      · intro r hr
        exact h6 r hr
      · intro x hx _
        exact (hrq x hx).2.2
    · intro t3 ht3
      have ht3m : t3 ∈ db3.test_cases ∧
          (t3.suite_id = some s ∧ t3.version = some N) := by
        have := List.mem_filter.1 ht3
        exact ⟨this.1, by simpa using this.2⟩
      have hm : tcProj t3 ∈ db.test_cases.map tcProj ++ tcextra := by
        rw [← htcproj]
        exact List.mem_map_of_mem tcProj ht3m.1
      rw [List.mem_append] at hm
      rcases hm with hm | hm
      · obtain ⟨t, htm, hteq⟩ := List.mem_map.1 hm
        have hsid : t.suite_id = t3.suite_id :=
          congrArg (fun x => x.1) hteq
        have hver : t.version = t3.version :=
          congrArg (fun x => x.2.2.1) hteq
        have htrow : t ∈ tcRowsAt db s N := by
          refine List.mem_filter.2 ⟨htm, ?_⟩
          simp [hsid, hver, ht3m.2.1, ht3m.2.2]
        have hok := h7 t htrow
        have hok3 : tcRowOK db3 s t = true := by
          refine tcRowOK_mono db db3 s t rextra hreqproj hok
        rw [← tcRowOK_proj_congr db3 s t t3 hteq]
        exact hok3
      · exfalso
        have := (htq _ hm).2
        have hv3 : (tcProj t3).2.2.1 = t3.version := rfl
        rw [hv3, ht3m.2.2] at this
        have : N = L + 1 := by
          have := Option.some.inj this
          omega
        omega
    · rw [show tdContentsAt db3 s N = tdContentsAt db s N from by
        rw [htdcontents N, if_neg hNne]]
      exact h8
    · rw [show vpContentsAt db3 s N = vpContentsAt db s N from by
        rw [hvpcontents N, if_neg hNne]]
      exact h9
  | null =>
    exfalso
    unfold suiteStateKVs at hstate
    rw [hfind] at hstate
    dsimp only at hstate
    rw [hrowstate] at hstate
    simp at hstate
  | jbool b =>
    exfalso
    unfold suiteStateKVs at hstate
    rw [hfind] at hstate
    dsimp only at hstate
    rw [hrowstate] at hstate
    simp at hstate
  | jnum n =>
    exfalso
    unfold suiteStateKVs at hstate
    rw [hfind] at hstate
    dsimp only at hstate
    rw [hrowstate] at hstate
    simp at hstate
  | jstr s0 =>
    exfalso
    unfold suiteStateKVs at hstate
    rw [hfind] at hstate
    dsimp only at hstate
    rw [hrowstate] at hstate
    simp at hstate
  | jarr xs =>
    exfalso
    unfold suiteStateKVs at hstate
    rw [hfind] at hstate
    dsimp only at hstate
    rw [hrowstate] at hstate
    simp at hstate

theorem restore_effect (db : DB) (s : String) (N L : Int) (now : String)
    (h : RestoreReady db s N L) :
    ∃ db4,
      restore_suite_version db s N now = (.ok (L + 1, N), db4) ∧
      (∀ v0 : Int, reqContentsAt db4 s v0 =
        if v0 = L + 1 then reqContentsAt db s N else reqContentsAt db s v0) ∧
      (∀ v0 : Int, tcContentsAt db4 s v0 =
        if v0 = L + 1 then (tcContentsAt db s N).map (stampVersion (L + 1))
        else tcContentsAt db s v0) ∧
      (∀ v0 : Int, tdContentsAt db4 s v0 =
        if v0 = L + 1 then tdContentsAt db s N else tdContentsAt db s v0) ∧
      (∀ v0 : Int, vpContentsAt db4 s v0 =
        if v0 = L + 1 then vpContentsAt db s N else vpContentsAt db s v0) ∧
      RestoreReady db4 s N (L + 1) := by
  obtain ⟨db3, hmain, c1, c2, c3, c4, _, _, hrr⟩ :=
    increment_clone_effect db s N L ("Restored from v" ++ intRepr N) now
      (some N) rfl h
  refine ⟨write_event db3 (some s)
      (.jobj [("type", .jstr "new_version"), ("version", .jnum (L + 1)),
              ("description", .jstr ("Restored from v" ++ intRepr N))]),
    ?_, c1, c2, c3, c4, hrr⟩
  unfold restore_suite_version
  dsimp only
  rw [hmain]

/-- C5 (amended).  `restore(s, N)` cuts a fresh version: from latest version
`L` it returns `{new_version: L+1, restored_from: N}`, and a second restore
returns `{new_version: L+2, restored_from: N}` — never an in-place rollback,
and the two new version numbers differ from `N` and from each other.  The
requirement / test-design / viewpoint contents of both new versions equal
version `N`'s contents verbatim; the test-case contents of each new version
are version `N`'s contents with the `version` key re-stamped to that new
version (so the two restored copies — and version `N` — are not verbatim
identical in their test-case `version` fields). -/
theorem claim_C5_restore_cuts_fresh_versions (db : DB) (s : String)
    (N L : Int) (now1 now2 : String) (h : RestoreReady db s N L) :
    ∃ (db4 db5 : DB),
      restore_suite_version db s N now1 = (.ok (L + 1, N), db4) ∧
      restore_suite_version db4 s N now2 = (.ok (L + 2, N), db5) ∧
      N < L + 1 ∧ L + 1 < L + 2 ∧
      reqContentsAt db5 s (L + 1) = reqContentsAt db s N ∧
      reqContentsAt db5 s (L + 2) = reqContentsAt db s N ∧
      tdContentsAt db5 s (L + 1) = tdContentsAt db s N ∧
      tdContentsAt db5 s (L + 2) = tdContentsAt db s N ∧
      vpContentsAt db5 s (L + 1) = vpContentsAt db s N ∧
      vpContentsAt db5 s (L + 2) = vpContentsAt db s N ∧
      tcContentsAt db5 s (L + 1) =
        (tcContentsAt db s N).map (stampVersion (L + 1)) ∧
      tcContentsAt db5 s (L + 2) =
        (tcContentsAt db s N).map (stampVersion (L + 2)) := by
  have hNL : N ≤ L := h.2.2.1
  obtain ⟨db4, e1, r1, r2, r3, r4, hrr4⟩ := restore_effect db s N L now1 h
  obtain ⟨db5, e2, q1, q2, q3, q4, _⟩ :=
    restore_effect db4 s N (L + 1) now2 hrr4
  have harith : L + 1 + 1 = L + 2 := by omega
  have hne1 : ¬(L + 1 = L + 1 + 1) := by omega
  have hne2 : ¬(N = L + 1) := by omega
  have hne3 : ¬(N = L + 1 + 1) := by omega
  refine ⟨db4, db5, e1, by rw [← harith]; exact e2, by omega, by omega,
    ?_, ?_, ?_, ?_, ?_, ?_, ?_, ?_⟩
  · rw [q1 (L + 1), if_neg hne1, r1 (L + 1), if_pos rfl]
  · rw [show (L + 2 : Int) = L + 1 + 1 from by omega, q1 (L + 1 + 1),
      if_pos rfl, r1 N, if_neg hne2]
  · rw [q3 (L + 1), if_neg hne1, r3 (L + 1), if_pos rfl]
  · rw [show (L + 2 : Int) = L + 1 + 1 from by omega, q3 (L + 1 + 1),
      if_pos rfl, r3 N, if_neg hne2]
  · rw [q4 (L + 1), if_neg hne1, r4 (L + 1), if_pos rfl]
  · rw [show (L + 2 : Int) = L + 1 + 1 from by omega, q4 (L + 1 + 1),
      if_pos rfl, r4 N, if_neg hne2]
  · rw [q2 (L + 1), if_neg hne1, r2 (L + 1), if_pos rfl]
  · rw [show (L + 2 : Int) = L + 1 + 1 from by omega, q2 (L + 1 + 1),
      if_pos rfl, r2 N, if_neg hne2, harith]

/-- Concrete database for the C5 witness: one artifact of each kind at
version 1, latest version 1. -/
def c5wdb : DB :=
  ⟨[⟨1, some "s1", "R1", "d", .jobj [("id", .jstr "R1")], some 1, true⟩],
   [⟨2, some 1, some "s1", .jobj [("cases", .jarr [])], some 1, true⟩],
   [⟨3, some "s1", "integration", .jobj [("flows", .jarr [])], some 1, true⟩],
   [⟨4, some "s1", some 3, some 1, "VP", .jobj [("name", .jstr "VP")],
     some 1, true⟩],
   [⟨"s1", .jobj [("latest_version", .jnum 1)]⟩], [], [], 5⟩

/-- Witness for C5 at a concrete database (restore twice from version 1). -/
theorem claim_C5_restore_cuts_fresh_versions_witness :
    ∃ (db4 db5 : DB),
      restore_suite_version c5wdb "s1" 1 "t1" = (.ok (1 + 1, 1), db4) ∧
      restore_suite_version db4 "s1" 1 "t2" = (.ok (1 + 2, 1), db5) ∧
      (1 : Int) < 1 + 1 ∧ (1 : Int) + 1 < 1 + 2 ∧
      reqContentsAt db5 "s1" (1 + 1) = reqContentsAt c5wdb "s1" 1 ∧
      reqContentsAt db5 "s1" (1 + 2) = reqContentsAt c5wdb "s1" 1 ∧
      tdContentsAt db5 "s1" (1 + 1) = tdContentsAt c5wdb "s1" 1 ∧
      tdContentsAt db5 "s1" (1 + 2) = tdContentsAt c5wdb "s1" 1 ∧
      vpContentsAt db5 "s1" (1 + 1) = vpContentsAt c5wdb "s1" 1 ∧
      vpContentsAt db5 "s1" (1 + 2) = vpContentsAt c5wdb "s1" 1 ∧
      tcContentsAt db5 "s1" (1 + 1) =
        (tcContentsAt c5wdb "s1" 1).map (stampVersion (1 + 1)) ∧
      tcContentsAt db5 "s1" (1 + 2) =
        (tcContentsAt c5wdb "s1" 1).map (stampVersion (1 + 2)) :=
  claim_C5_restore_cuts_fresh_versions c5wdb "s1" 1 1 "t1" "t2"
    (by unfold RestoreReady VersionsLE; decide)

/-- Concrete database refuting the idempotent reading of C5: the restored
copy's test-case content is not verbatim equal to version `N`'s. -/
def c5xdb : DB :=
  ⟨[⟨1, some "s1", "R1", "d", .jobj [("id", .jstr "R1")], some 1, true⟩],
   [⟨2, some 1, some "s1", .jobj [], some 1, true⟩],
   [], [], [⟨"s1", .jobj [("latest_version", .jnum 1)]⟩], [], [], 3⟩

/-- Counterexample to C5 as stated: restoring suite `s1` from version 1
returns a fresh version 2 whose test-case content `{"version": 2}` differs
from version 1's content `{}` — the restored artifact content does not both
equal version `N`'s content verbatim. -/
theorem claim_C5_counterexample :
    (restore_suite_version c5xdb "s1" 1 "t0").1.toOption = some (2, 1) ∧
    tcContentsAt (restore_suite_version c5xdb "s1" 1 "t0").2 "s1" 2 =
      [.jobj [("version", .jnum 2)]] ∧
    tcContentsAt (restore_suite_version c5xdb "s1" 1 "t0").2 "s1" 1 =
      [.jobj []] ∧
    [Json.jobj [("version", .jnum 2)]] ≠ [Json.jobj []] := by
  exact ⟨by decide, by decide, by decide, by decide⟩

/-- C9 (amended, edit flow).  `edit_testcases_for_req` bumps the suite
version FIRST and then loads the suite's test cases at the
just-incremented version — the in-progress version created by the edit
itself, not the previous one.  What it reads are the fresh clones of the
previous version's test cases (with their `version` keys re-stamped), while
the previous version's rows remain untouched. -/
theorem claim_C9_edit_reads_fresh_version (db : DB) (s : String) (L : Int)
    (note now : String) (h : RestoreReady db s L L)
    (hnote : splitWords note.pyStrip ≠ [])
    (hreq : ∃ r ∈ db.requirements, r.suite_id = some s) :
    ∃ (db3 : DB) (rows : List TcRow),
      edit_testcases_load db s note now =
        (.ok (.loaded (some (L + 1)) rows), db3) ∧
      rows.map (fun r => r.content) =
        (tcContentsAt db s L).map (stampVersion (L + 1)) ∧
      tcContentsAt db3 s L = tcContentsAt db s L := by
  obtain ⟨db3, hmain, c1, c2, c3, c4, ⟨rextra, hreqproj, _⟩, _, _⟩ :=
    increment_clone_effect db s L L
      (String.intercalate " " ((splitWords note.pyStrip).take 3)) now none
      (by dsimp only; omega) h
  have hreq3 : db3.requirements.filter (fun r => r.suite_id = some s) ≠ [] := by
    obtain ⟨r3, hr3, hr3s⟩ := exists_mem_of_map_append reqProj
      (fun x => x.1 = some s) db.requirements db3.requirements rextra
      hreqproj (by
        obtain ⟨r, hr, hrs⟩ := hreq
        exact ⟨r, hr, hrs⟩)
    intro hcon
    have hmem : r3 ∈ db3.requirements.filter (fun r => r.suite_id = some s) :=
      List.mem_filter.2 ⟨hr3, by simpa using hr3s⟩
    rw [hcon] at hmem
    simp at hmem
  refine ⟨db3, db3.test_cases.filter
      (fun r => r.suite_id = some s ∧ r.version = some (L + 1)), ?_, ?_, ?_⟩
  · unfold edit_testcases_load
    dsimp only
    rw [if_neg hnote, hmain]
    dsimp only
    rw [if_neg hreq3]
  · show tcContentsAt db3 s (L + 1) = _
    rw [c2 (L + 1), if_pos rfl]
  · rw [c2 L, if_neg (by omega)]

/-- Concrete database for the C9 witness. -/
def c9wdb : DB :=
  ⟨[⟨1, some "s1", "R1", "d", .jobj [("id", .jstr "R1")], some 1, true⟩],
   [⟨2, some 1, some "s1", .jobj [("cases", .jarr [])], some 1, true⟩],
   [], [], [⟨"s1", .jobj [("latest_version", .jnum 1)]⟩], [], [], 3⟩

/-- Witness for C9 at a concrete database and edit note. -/
theorem claim_C9_edit_reads_fresh_version_witness :
    ∃ (db3 : DB) (rows : List TcRow),
      edit_testcases_load c9wdb "s1" "fix the steps" "t0" =
        (.ok (.loaded (some (1 + 1)) rows), db3) ∧
      rows.map (fun r => r.content) =
        (tcContentsAt c9wdb "s1" 1).map (stampVersion (1 + 1)) ∧
      tcContentsAt db3 "s1" 1 = tcContentsAt c9wdb "s1" 1 :=
  claim_C9_edit_reads_fresh_version c9wdb "s1" 1 "fix the steps" "t0"
    (by unfold RestoreReady VersionsLE; decide) (by decide)
    ⟨⟨1, some "s1", "R1", "d", .jobj [("id", .jstr "R1")], some 1, true⟩,
      by decide, by decide⟩

/-- Concrete database refuting C9 as stated for the edit flow. -/
def c9xdb : DB :=
  ⟨[⟨1, some "s1", "R1", "d", .jobj [("id", .jstr "R1")], some 1, true⟩],
   [⟨2, some 1, some "s1", .jobj [], some 1, true⟩],
   [], [], [⟨"s1", .jobj [("latest_version", .jnum 1)]⟩], [], [], 3⟩

/-- Counterexample to C9 as stated: on a suite at latest version 1, the edit
flow loads test cases tagged with version 2 — the version being created by
the edit operation itself — and the loaded content `{"version": 2}` is a
re-stamped clone, not the already-persisted version-1 row `{}`. -/
theorem claim_C9_counterexample :
    (edit_testcases_load c9xdb "s1" "fix the steps" "t0").1.toOption.map
        (fun r =>
          match r with
          | .noRequirements => (none, [])
          | .loaded v rows => (v, rows.map (fun t => t.content))) =
      some (some 2, [Json.jobj [("version", .jnum 2)]]) ∧
    tcContentsAt c9xdb "s1" 1 = [Json.jobj []] ∧
    some (2 : Int) ≠ some (1 : Int) ∧
    [Json.jobj [("version", .jnum 2)]] ≠ [Json.jobj []] := by
  exact ⟨by decide, by decide, by decide, by decide⟩
